import Mathlib

/-!
# ngx_http_header_inspect: header value validators

A shallow embedding of the validators of `src/ngx_http_header_inspect.c`.

Conventions of the embedding

* A header value (`ngx_str_t`) is the list of its bytes, each byte a `Nat`
  (its `u_char` code); `value.len` is the length of the list.
* A read `data[i]` is `rd data i`.  nginx stores every header value with a NUL
  byte right behind it (`value.data[value.len] = 0`), so a read at or behind
  the end of the list yields `0`.
* `ngx_uint_t` is a 64 bit machine word: arithmetic on the accumulators and on
  the set counter of the Range validator is taken modulo `2 ^ 64`.
* The logging calls do not influence any return value and are left out.
-/

namespace HeaderInspect

/-! ## Return codes and byte access -/

/-- The nginx return code `NGX_OK`. -/
def NGX_OK : Int := 0

/-- The nginx return code `NGX_ERROR`. -/
def NGX_ERROR : Int := -1

/-- The nginx return code `NGX_AGAIN`. -/
def NGX_AGAIN : Int := -2

/-- Number of values of an `ngx_uint_t` (a 64 bit word). -/
def NGX_UINT_MOD : Nat := 2 ^ 64

/-- The read `data[i]`; behind the last byte sits the NUL terminator. -/
def rd (data : List Nat) (i : Nat) : Nat := data.getD i 0

/-- The bytes of an ASCII string literal. -/
def bytes (s : String) : List Nat := s.toList.map Char.toNat

/-! ## HTTP-date (source lines 247-615) -/

/-- The C enum `http_date_type`. -/
inductive http_date_type where
  | RFC1123
  | RFC850
  | ASCTIME
  deriving DecidableEq, Repr

open http_date_type

/-- Lines 255-440: the weekday dispatch.  `none` is `return NGX_ERROR`, otherwise the
format and the cursor `i` behind the weekday.
ASCII: `,`=44 space=32 `M`=77 `o`=111 `n`=110 `d`=100 `a`=97 `y`=121 `T`=84 `u`=117
`e`=101 `s`=115 `W`=87 `h`=104 `r`=114 `F`=70 `i`=105 `S`=83 `t`=116. -/
def http_date_weekday (data : List Nat) : Option (http_date_type × Nat) :=
  if rd data 0 = 77 ∧ rd data 1 = 111 ∧ rd data 2 = 110 then
    -- Mon(day)
    if rd data 3 = 44 then some (RFC1123, 4)
    else if rd data 3 = 32 then some (ASCTIME, 3)
    else if rd data 3 = 100 then
      if rd data 4 ≠ 97 ∨ rd data 5 ≠ 121 ∨ rd data 6 ≠ 44 then none
      else some (RFC850, 7)
    else none
  else if rd data 0 = 84 ∧ rd data 1 = 117 ∧ rd data 2 = 101 then
    -- Tue(sday)
    if rd data 3 = 44 then some (RFC1123, 4)
    else if rd data 3 = 32 then some (ASCTIME, 3)
    else if rd data 3 = 115 then
      if rd data 4 ≠ 100 ∨ rd data 5 ≠ 97 ∨ rd data 6 ≠ 121 ∨ rd data 7 ≠ 44 then none
      else some (RFC850, 8)
    else none
  else if rd data 0 = 87 ∧ rd data 1 = 101 ∧ rd data 2 = 100 then
    -- Wed(nesday)
    if rd data 3 = 44 then some (RFC1123, 4)
    else if rd data 3 = 32 then some (ASCTIME, 3)
    else if rd data 3 = 110 then
      if rd data 4 ≠ 101 ∨ rd data 5 ≠ 115 ∨ rd data 6 ≠ 100 ∨ rd data 7 ≠ 97
          ∨ rd data 8 ≠ 121 ∨ rd data 9 ≠ 44 then none
      else some (RFC850, 10)
    else none
  else if rd data 0 = 84 ∧ rd data 1 = 104 ∧ rd data 2 = 117 then
    -- Thu(rsday)
    if rd data 3 = 44 then some (RFC1123, 4)
    else if rd data 3 = 32 then some (ASCTIME, 3)
    else if rd data 3 = 114 then
      if rd data 4 ≠ 115 ∨ rd data 5 ≠ 100 ∨ rd data 6 ≠ 97 ∨ rd data 7 ≠ 121
          ∨ rd data 8 ≠ 44 then none
      else some (RFC850, 9)
    else none
  else if rd data 0 = 70 ∧ rd data 1 = 114 ∧ rd data 2 = 105 then
    -- Fri(day)
    if rd data 3 = 44 then some (RFC1123, 4)
    else if rd data 3 = 32 then some (ASCTIME, 3)
    else if rd data 3 = 100 then
      if rd data 4 ≠ 97 ∨ rd data 5 ≠ 121 ∨ rd data 6 ≠ 44 then none
      else some (RFC850, 7)
    else none
  else if rd data 0 = 83 ∧ rd data 1 = 97 ∧ rd data 2 = 116 then
    -- Sat(urday)
    if rd data 3 = 44 then some (RFC1123, 4)
    else if rd data 3 = 32 then some (ASCTIME, 3)
    else if rd data 3 = 117 then
      if rd data 4 ≠ 114 ∨ rd data 5 ≠ 100 ∨ rd data 6 ≠ 97 ∨ rd data 7 ≠ 121
          ∨ rd data 8 ≠ 44 then none
      else some (RFC850, 9)
    else none
  else if rd data 0 = 83 ∧ rd data 1 = 117 ∧ rd data 2 = 110 then
    -- Sun(day)
    if rd data 3 = 44 then some (RFC1123, 4)
    else if rd data 3 = 32 then some (ASCTIME, 3)
    else if rd data 3 = 100 then
      if rd data 4 ≠ 97 ∨ rd data 5 ≠ 121 ∨ rd data 6 ≠ 44 then none
      else some (RFC850, 7)
    else none
  else none

/-- Lines 442-460: the total length fixed by the format; `true` is `return NGX_ERROR`. -/
def http_date_badlen (type : http_date_type) (maxlen : Nat) : Bool :=
  match type with
  | RFC1123 => decide (maxlen ≠ 29)
  | RFC850 => decide (maxlen ≠ 30)
  | ASCTIME => decide (maxlen ≠ 24)

/-- Lines 467-495: the day of RFC1123 and RFC850; `none` is `return NGX_ERROR`,
otherwise the new cursor.  ASCII: `0`=48 `9`=57 `-`=45. -/
def http_date_day (data : List Nat) (type : http_date_type) (i : Nat) : Option Nat :=
  if type = RFC1123 then
    if rd data i < 48 ∨ rd data i > 57 then none
    else if rd data (i + 1) < 48 ∨ rd data (i + 1) > 57 then none
    else if rd data (i + 2) ≠ 32 then none
    else some (i + 3)
  else if type = RFC850 then
    if rd data i < 48 ∨ rd data i > 57 then none
    else if rd data (i + 1) < 48 ∨ rd data (i + 1) > 57 then none
    else if rd data (i + 2) ≠ 45 then none
    else some (i + 3)
  else some i

/-- Lines 497-515: the month abbreviation.  ASCII: `J`=74 `a`=97 `n`=110 `F`=70 `e`=101
`b`=98 `M`=77 `r`=114 `A`=65 `p`=112 `y`=121 `u`=117 `l`=108 `g`=103 `S`=83 `O`=79
`c`=99 `t`=116 `N`=78 `o`=111 `v`=118 `D`=68. -/
def http_date_month (data : List Nat) (i : Nat) : Option Nat :=
  if (rd data i = 74 ∧ rd data (i + 1) = 97 ∧ rd data (i + 2) = 110) ∨
     (rd data i = 70 ∧ rd data (i + 1) = 101 ∧ rd data (i + 2) = 98) ∨
     (rd data i = 77 ∧ rd data (i + 1) = 97 ∧ rd data (i + 2) = 114) ∨
     (rd data i = 65 ∧ rd data (i + 1) = 112 ∧ rd data (i + 2) = 114) ∨
     (rd data i = 77 ∧ rd data (i + 1) = 97 ∧ rd data (i + 2) = 121) ∨
     (rd data i = 74 ∧ rd data (i + 1) = 117 ∧ rd data (i + 2) = 110) ∨
     (rd data i = 74 ∧ rd data (i + 1) = 117 ∧ rd data (i + 2) = 108) ∨
     (rd data i = 65 ∧ rd data (i + 1) = 117 ∧ rd data (i + 2) = 103) ∨
     (rd data i = 83 ∧ rd data (i + 1) = 101 ∧ rd data (i + 2) = 112) ∨
     (rd data i = 79 ∧ rd data (i + 1) = 99 ∧ rd data (i + 2) = 116) ∨
     (rd data i = 78 ∧ rd data (i + 1) = 111 ∧ rd data (i + 2) = 118) ∨
     (rd data i = 68 ∧ rd data (i + 1) = 101 ∧ rd data (i + 2) = 99)
  then some (i + 3)
  else none

/-- Lines 517-563: the year of RFC1123 and RFC850 or the day of ASCTIME, then the
digit and the space shared by the three formats. -/
def http_date_year (data : List Nat) (type : http_date_type) (i : Nat) : Option Nat :=
  let r : Option Nat :=
    if type = RFC1123 then
      if rd data i ≠ 32 then none
      else if rd data (i + 1) < 48 ∨ rd data (i + 1) > 57 then none
      else if rd data (i + 2) < 48 ∨ rd data (i + 2) > 57 then none
      else if rd data (i + 3) < 48 ∨ rd data (i + 3) > 57 then none
      else some (i + 4)
    else if type = RFC850 then
      if rd data i ≠ 45 then none
      else if rd data (i + 1) < 48 ∨ rd data (i + 1) > 57 then none
      else some (i + 2)
    else
      -- type == ASCTIME
      if rd data i ≠ 32 then none
      else if rd data (i + 1) ≠ 32 ∨ rd data (i + 1) < 48 ∨ rd data (i + 1) > 57 then none
      else some (i + 2)
  match r with
  | none => none
  | some j =>
    if rd data j < 48 ∨ rd data j > 57 then none
    else if rd data (j + 1) ≠ 32 then none
    else some (j + 2)

/-- Lines 565-589: the time `HH:MM:SS` and the space behind it.  ASCII: `:`=58. -/
def http_date_time (data : List Nat) (i : Nat) : Option Nat :=
  if rd data i < 48 ∨ rd data i > 57 ∨ rd data (i + 1) < 48 ∨ rd data (i + 1) > 57
      ∨ rd data (i + 2) ≠ 58 then none
  else if rd data (i + 3) < 48 ∨ rd data (i + 3) > 57 ∨ rd data (i + 4) < 48
      ∨ rd data (i + 4) > 57 ∨ rd data (i + 5) ≠ 58 then none
  else if rd data (i + 6) < 48 ∨ rd data (i + 6) > 57 ∨ rd data (i + 7) < 48
      ∨ rd data (i + 7) > 57 ∨ rd data (i + 8) ≠ 32 then none
  else some (i + 9)

/-- Lines 591-608: the year of ASCTIME or the literal `GMT`.  ASCII: `G`=71 `M`=77
`T`=84. -/
def http_date_tail (data : List Nat) (type : http_date_type) (i : Nat) : Option Nat :=
  if type = ASCTIME then
    if rd data i < 48 ∨ rd data i > 57 ∨ rd data (i + 1) < 48 ∨ rd data (i + 1) > 57
        ∨ rd data (i + 2) < 48 ∨ rd data (i + 2) > 57 ∨ rd data (i + 3) < 48
        ∨ rd data (i + 3) > 57 then none
    else some (i + 4)
  else
    if rd data i ≠ 71 ∨ rd data (i + 1) ≠ 77 ∨ rd data (i + 2) ≠ 84 then none
    else some (i + 3)

/-- The function `ngx_header_inspect_http_date(data, maxlen)`. -/
def ngx_header_inspect_http_date (data : List Nat) (maxlen : Nat) : Int :=
  if maxlen < 24 then NGX_ERROR
  else
    match http_date_weekday data with
    | none => NGX_ERROR
    | some (type, i) =>
      if http_date_badlen type maxlen then NGX_ERROR
      else if rd data i ≠ 32 then NGX_ERROR
      else
        match http_date_day data type (i + 1) with
        | none => NGX_ERROR
        | some i1 =>
          match http_date_month data i1 with
          | none => NGX_ERROR
          | some i2 =>
            match http_date_year data type i2 with
            | none => NGX_ERROR
            | some i3 =>
              match http_date_time data i3 with
              | none => NGX_ERROR
              | some i4 =>
                match http_date_tail data type i4 with
                | none => NGX_ERROR
                | some i5 => if i5 ≠ maxlen then NGX_ERROR else NGX_OK

/-- The validator `validate_http_date`: the call
`ngx_header_inspect_http_date(value.data, value.len)` of line 846. -/
def validate_http_date (value : List Nat) : Int :=
  ngx_header_inspect_http_date value value.length

/-- The first three bytes are one of the seven weekday abbreviations. -/
def WeekdayAt (data : List Nat) : Prop :=
  (rd data 0 = 77 ∧ rd data 1 = 111 ∧ rd data 2 = 110) ∨
  (rd data 0 = 84 ∧ rd data 1 = 117 ∧ rd data 2 = 101) ∨
  (rd data 0 = 87 ∧ rd data 1 = 101 ∧ rd data 2 = 100) ∨
  (rd data 0 = 84 ∧ rd data 1 = 104 ∧ rd data 2 = 117) ∨
  (rd data 0 = 70 ∧ rd data 1 = 114 ∧ rd data 2 = 105) ∨
  (rd data 0 = 83 ∧ rd data 1 = 97 ∧ rd data 2 = 116) ∨
  (rd data 0 = 83 ∧ rd data 1 = 117 ∧ rd data 2 = 110)

/-- What a result of the weekday dispatch says about the bytes read. -/
def WeekdayPost (data : List Nat) (r : Option (http_date_type × Nat)) : Prop :=
  ∀ t i, r = some (t, i) →
    WeekdayAt data ∧
    ((t = RFC1123 ∧ i = 4 ∧ rd data 3 = 44) ∨
     (t = ASCTIME ∧ i = 3 ∧ rd data 3 = 32) ∨
     (t = RFC850 ∧ rd data 3 ≠ 44 ∧ rd data 3 ≠ 32 ∧
       ((i = 7 ∧ rd data 3 = 100 ∧ rd data 4 = 97 ∧ rd data 5 = 121 ∧ rd data 6 = 44 ∧
          ((rd data 0 = 77 ∧ rd data 1 = 111 ∧ rd data 2 = 110) ∨
           (rd data 0 = 70 ∧ rd data 1 = 114 ∧ rd data 2 = 105) ∨
           (rd data 0 = 83 ∧ rd data 1 = 117 ∧ rd data 2 = 110))) ∨ 8 ≤ i)))

/-- The bytes at `i`, `i + 1`, `i + 2` are one of the twelve month abbreviations. -/
def MonthAt (data : List Nat) (i : Nat) : Prop :=
  (rd data i = 74 ∧ rd data (i + 1) = 97 ∧ rd data (i + 2) = 110) ∨
  (rd data i = 70 ∧ rd data (i + 1) = 101 ∧ rd data (i + 2) = 98) ∨
  (rd data i = 77 ∧ rd data (i + 1) = 97 ∧ rd data (i + 2) = 114) ∨
  (rd data i = 65 ∧ rd data (i + 1) = 112 ∧ rd data (i + 2) = 114) ∨
  (rd data i = 77 ∧ rd data (i + 1) = 97 ∧ rd data (i + 2) = 121) ∨
  (rd data i = 74 ∧ rd data (i + 1) = 117 ∧ rd data (i + 2) = 110) ∨
  (rd data i = 74 ∧ rd data (i + 1) = 117 ∧ rd data (i + 2) = 108) ∨
  (rd data i = 65 ∧ rd data (i + 1) = 117 ∧ rd data (i + 2) = 103) ∨
  (rd data i = 83 ∧ rd data (i + 1) = 101 ∧ rd data (i + 2) = 112) ∨
  (rd data i = 79 ∧ rd data (i + 1) = 99 ∧ rd data (i + 2) = 116) ∨
  (rd data i = 78 ∧ rd data (i + 1) = 111 ∧ rd data (i + 2) = 118) ∨
  (rd data i = 68 ∧ rd data (i + 1) = 101 ∧ rd data (i + 2) = 99)

/-- An ASCII digit. -/
def isDigit (c : Nat) : Prop := 48 ≤ c ∧ c ≤ 57

instance (c : Nat) : Decidable (isDigit c) := by unfold isDigit; infer_instance

/-- The seven weekday abbreviations. -/
def weekday_names : List (List Nat) :=
  [bytes "Mon", bytes "Tue", bytes "Wed", bytes "Thu", bytes "Fri", bytes "Sat", bytes "Sun"]

/-- The twelve month abbreviations. -/
def month_names : List (List Nat) :=
  [bytes "Jan", bytes "Feb", bytes "Mar", bytes "Apr", bytes "May", bytes "Jun",
   bytes "Jul", bytes "Aug", bytes "Sep", bytes "Oct", bytes "Nov", bytes "Dec"]

/-- The shape `Wkd, DD Mon YYYY HH:MM:SS GMT` of an RFC1123 date. -/
def Rfc1123Shape (v : List Nat) : Prop :=
  ∃ wkd mon d1 d2 y1 y2 y3 y4 h1 h2 m1 m2 s1 s2,
    wkd ∈ weekday_names ∧ mon ∈ month_names ∧
    isDigit d1 ∧ isDigit d2 ∧ isDigit y1 ∧ isDigit y2 ∧ isDigit y3 ∧ isDigit y4 ∧
    isDigit h1 ∧ isDigit h2 ∧ isDigit m1 ∧ isDigit m2 ∧ isDigit s1 ∧ isDigit s2 ∧
    v = wkd ++ bytes ", " ++ [d1, d2] ++ bytes " " ++ mon ++ bytes " " ++ [y1, y2, y3, y4]
          ++ bytes " " ++ [h1, h2] ++ bytes ":" ++ [m1, m2] ++ bytes ":" ++ [s1, s2]
          ++ bytes " GMT"

/-- The byte-position form of the RFC1123 shape. -/
def Rfc1123At (data : List Nat) : Prop :=
  WeekdayAt data ∧ rd data 3 = 44 ∧ rd data 4 = 32 ∧
  isDigit (rd data 5) ∧ isDigit (rd data 6) ∧ rd data 7 = 32 ∧ MonthAt data 8 ∧
  rd data 11 = 32 ∧ isDigit (rd data 12) ∧ isDigit (rd data 13) ∧ isDigit (rd data 14) ∧
  isDigit (rd data 15) ∧ rd data 16 = 32 ∧
  isDigit (rd data 17) ∧ isDigit (rd data 18) ∧ rd data 19 = 58 ∧
  isDigit (rd data 20) ∧ isDigit (rd data 21) ∧ rd data 22 = 58 ∧
  isDigit (rd data 23) ∧ isDigit (rd data 24) ∧ rd data 25 = 32 ∧
  rd data 26 = 71 ∧ rd data 27 = 77 ∧ rd data 28 = 84

/-! ## Range (source lines 130-245) -/

/-- The C enum `range_header_states`. -/
inductive range_header_states where
  | RHS_NEWSET
  | RHS_NUM1
  | DELIM
  | RHS_NUM2
  | RHS_SUFDELIM
  | RHS_SUFNUM
  deriving DecidableEq, Repr

open range_header_states

/-- The local variables `a`, `b`, `setcount`, `rc` and `state` of
`ngx_header_inspect_range_header`. -/
structure range_vars where
  a : Nat
  b : Nat
  setcount : Nat
  rc : Int
  state : range_header_states
  deriving DecidableEq, Repr

/-- Lines 150-217: the `switch (value.data[i])` of the loop body.
ASCII: `,`=44 `0`=48 `9`=57 `-`=45. -/
def range_header_switch (s : range_vars) (c : Nat) : range_vars :=
  if c = 44 then
    let rc1 : Int :=
      if s.state ≠ DELIM ∧ s.state ≠ RHS_NUM2 ∧ s.state ≠ RHS_SUFNUM then NGX_ERROR else s.rc
    let rc2 : Int :=
      if s.state = RHS_NUM2 then (if s.a > s.b then NGX_ERROR else rc1) else rc1
    { a := 0, b := 0, setcount := (s.setcount + 1) % NGX_UINT_MOD, rc := rc2,
      state := RHS_NEWSET }
  else if 48 ≤ c ∧ c ≤ 57 then
    if s.state = RHS_NEWSET ∨ s.state = RHS_NUM1 then
      { s with a := (s.a * 10 + (c - 48)) % NGX_UINT_MOD, state := RHS_NUM1 }
    else if s.state = DELIM ∨ s.state = RHS_NUM2 then
      { s with b := (s.b * 10 + (c - 48)) % NGX_UINT_MOD, state := RHS_NUM2 }
    else if s.state = RHS_SUFDELIM ∨ s.state = RHS_SUFNUM then
      { s with state := RHS_SUFNUM }
    else
      { s with rc := NGX_ERROR }
  else if c = 45 then
    if s.state = RHS_NEWSET then { s with state := RHS_SUFDELIM }
    else if s.state = RHS_NUM1 then { s with state := DELIM }
    else { s with rc := NGX_ERROR }
  else
    { s with rc := NGX_ERROR }

/-- Lines 148-226: the `for` loop over the bytes from offset 6 on.  `none` is the
`return NGX_ERROR` of line 223, taken when the set counter exceeds the limit. -/
def range_header_loop (range_max_bytesets : Nat) : List Nat → range_vars → Option range_vars
  | [], s => some s
  | c :: cs, s =>
    if (range_header_switch s c).setcount > range_max_bytesets then none
    else range_header_loop range_max_bytesets cs (range_header_switch s c)

/-- The literal `bytes=`. -/
def range_head : List Nat := [98, 121, 116, 101, 115, 61]

/-- Lines 228-244: the checks behind the loop and the returned `rc`. -/
def range_header_finish (s : range_vars) : Int :=
  let rc1 : Int :=
    if s.state ≠ DELIM ∧ s.state ≠ RHS_NUM2 ∧ s.state ≠ RHS_SUFNUM then NGX_ERROR else s.rc
  if s.state = RHS_NUM2 then (if s.a > s.b then NGX_ERROR else rc1) else rc1

/-- The function `ngx_header_inspect_range_header(conf, log, value)`, with
`conf->range_max_bytesets` as first argument. -/
def ngx_header_inspect_range_header (range_max_bytesets : Nat) (value : List Nat) : Int :=
  let rc0 : Int :=
    if value.length < 6 ∨ value.take 6 ≠ range_head then NGX_ERROR else NGX_OK
  match range_header_loop range_max_bytesets (value.drop 6)
      { a := 0, b := 0, setcount := 1, rc := rc0, state := RHS_NEWSET } with
  | none => NGX_ERROR
  | some s => range_header_finish s

/-- The validator `validate_range(bytes, max_sets)`. -/
def validate_range (value : List Nat) (max_sets : Nat) : Int :=
  ngx_header_inspect_range_header max_sets value

/-! ## Range: the grammar of the specification -/

/-- Every byte of `ds` is an ASCII digit. -/
def allDigits (ds : List Nat) : Prop := ∀ d ∈ ds, isDigit d

/-- The natural number a digit string denotes, continued from `acc`. -/
def decfold (acc : Nat) (ds : List Nat) : Nat :=
  ds.foldl (fun x d => x * 10 + (d - 48)) acc

/-- The natural number denoted by the full decimal digit string `ds`. -/
def decval (ds : List Nat) : Nat := decfold 0 ds

/-- One byte-range set: `first-last`, `first-` or `-suffix`. -/
def IsByteRangeSet (s : List Nat) : Prop :=
  (∃ f l, f ≠ [] ∧ allDigits f ∧ allDigits l ∧ s = f ++ [45] ++ l) ∨
  (∃ n, n ≠ [] ∧ allDigits n ∧ s = 45 :: n)

/-- The value `v` contains the bounded set `f-l`: the set starts right behind `bytes=` or
behind a `,` and is closed by a `,` or by the end of the value. -/
def BoundedSetIn (v f l : List Nat) : Prop :=
  f ≠ [] ∧ l ≠ [] ∧ allDigits f ∧ allDigits l ∧
  ∃ pre post, v = pre ++ (f ++ [45] ++ l) ++ post ∧
    (pre = range_head ∨ ∃ q, pre = q ++ [44]) ∧ (post = [] ∨ ∃ q, post = 44 :: q)

/-- The condition under which a `,` or the end of the value leaves `rc` at `NGX_OK`:
a complete set has been read and, for a bounded one, `a <= b`. -/
def SetDone (s : range_vars) : Prop :=
  s.rc = NGX_OK ∧ (s.state = DELIM ∨ s.state = RHS_NUM2 ∨ s.state = RHS_SUFNUM) ∧
  (s.state = RHS_NUM2 → s.a ≤ s.b)

/-- The variables right after `bytes=` or a `,`. -/
def FreshSet (s : range_vars) : Prop :=
  s.state = RHS_NEWSET ∧ s.a = 0 ∧ s.b = 0

/-- How the bytes `p` read since the start of the current set determine the variables. -/
def SegPre (p : List Nat) (s : range_vars) : Prop :=
  (s.state = RHS_NEWSET ∧ p = [] ∧ s.a = 0 ∧ s.b = 0) ∨
  (s.state = RHS_NUM1 ∧ p ≠ [] ∧ allDigits p ∧ s.a = decval p % NGX_UINT_MOD ∧ s.b = 0) ∨
  (s.state = DELIM ∧ ∃ f, f ≠ [] ∧ allDigits f ∧ p = f ++ [45] ∧
    s.a = decval f % NGX_UINT_MOD ∧ s.b = 0) ∨
  (s.state = RHS_NUM2 ∧ ∃ f l, f ≠ [] ∧ l ≠ [] ∧ allDigits f ∧ allDigits l ∧
    p = f ++ [45] ++ l ∧ s.a = decval f % NGX_UINT_MOD ∧ s.b = decval l % NGX_UINT_MOD) ∨
  (s.state = RHS_SUFDELIM ∧ p = [45]) ∨
  (s.state = RHS_SUFNUM ∧ ∃ n, n ≠ [] ∧ allDigits n ∧ p = 45 :: n)

/-- A set the validator lets pass: well-formed and, when bounded, with `first <= last`
for the values the two accumulators hold. -/
def GoodSetMod (t : List Nat) : Prop :=
  (∃ f l, f ≠ [] ∧ allDigits f ∧ allDigits l ∧ t = f ++ [45] ++ l ∧
    (l ≠ [] → decval f % NGX_UINT_MOD ≤ decval l % NGX_UINT_MOD)) ∨
  (∃ n, n ≠ [] ∧ allDigits n ∧ t = 45 :: n)

/-- A set as the specification lists them: `a-b` with `a <= b` and `b` below the word
size, `a-`, or `-n`. -/
def GoodSet (t : List Nat) : Prop :=
  (∃ f l, f ≠ [] ∧ l ≠ [] ∧ allDigits f ∧ allDigits l ∧ decval f ≤ decval l ∧
    decval l < NGX_UINT_MOD ∧ t = f ++ [45] ++ l) ∨
  (∃ f, f ≠ [] ∧ allDigits f ∧ t = f ++ [45]) ∨
  (∃ n, n ≠ [] ∧ allDigits n ∧ t = 45 :: n)

instance (ds : List Nat) : Decidable (allDigits ds) := by unfold allDigits; infer_instance

/-! ## Accept-Encoding (source lines 653-824) -/

/-- The function `ngx_header_inspect_parse_qvalue(data, maxlen, len)`: the returned code
and the value stored in `*len`.  ASCII: `q`=113 `=`=61 `0`=48 `1`=49 `.`=46 `9`=57. -/
def ngx_header_inspect_parse_qvalue (data : List Nat) (maxlen : Nat) : Int × Nat :=
  if maxlen < 3 ∨ rd data 0 ≠ 113 ∨ rd data 1 ≠ 61 then (NGX_ERROR, 0)
  else if rd data 2 = 48 then
    if maxlen = 3 ∨ rd data 3 ≠ 46 then (NGX_OK, 3)
    else if rd data 4 < 48 ∨ rd data 4 > 57 then (NGX_OK, 4)
    else if rd data 5 < 48 ∨ rd data 5 > 57 then (NGX_OK, 5)
    else if rd data 6 < 48 ∨ rd data 6 > 57 then (NGX_OK, 6)
    else (NGX_OK, 7)
  else if rd data 2 = 49 then
    if maxlen = 3 ∨ rd data 3 ≠ 46 then (NGX_OK, 3)
    else if rd data 4 ≠ 48 then (NGX_OK, 4)
    else if rd data 5 ≠ 48 then (NGX_OK, 5)
    else if rd data 6 ≠ 48 then (NGX_OK, 6)
    else (NGX_OK, 7)
  else (NGX_ERROR, 2)

/-- The function `ngx_header_inspect_parse_contentcoding(data, maxlen, len)`: the returned
code and the value stored in `*len`.  `ngx_strncmp(lit, data, n) != 0` is
`data.take n ≠ lit`.  ASCII: `*`=42 `c`=99 `d`=100 `e`=101 `g`=103 `i`=105 `p`=112. -/
def ngx_header_inspect_parse_contentcoding (data : List Nat) (maxlen : Nat) : Int × Nat :=
  if maxlen < 1 then (NGX_ERROR, 0)
  else if rd data 0 = 42 then (NGX_OK, 1)
  else if rd data 0 = 99 then
    -- "compress"
    if maxlen < 8 ∨ data.take 8 ≠ [99, 111, 109, 112, 114, 101, 115, 115] then (NGX_ERROR, 1)
    else (NGX_OK, 8)
  else if rd data 0 = 100 then
    -- "deflate"
    if maxlen < 7 ∨ data.take 7 ≠ [100, 101, 102, 108, 97, 116, 101] then (NGX_ERROR, 1)
    else (NGX_OK, 7)
  else if rd data 0 = 101 then
    -- "exi"
    if maxlen < 3 ∨ data.take 3 ≠ [101, 120, 105] then (NGX_ERROR, 1)
    else (NGX_OK, 3)
  else if rd data 0 = 103 then
    -- "gzip"
    if maxlen < 4 ∨ data.take 4 ≠ [103, 122, 105, 112] then (NGX_ERROR, 1)
    else (NGX_OK, 4)
  else if rd data 0 = 105 then
    -- "identity"
    if maxlen < 8 ∨ data.take 8 ≠ [105, 100, 101, 110, 116, 105, 116, 121] then (NGX_ERROR, 1)
    else (NGX_OK, 8)
  else if rd data 0 = 112 then
    -- "pack200-gzip"
    if maxlen < 12 ∨ data.take 12 ≠ [112, 97, 99, 107, 50, 48, 48, 45, 103, 122, 105, 112]
    then (NGX_ERROR, 1)
    else (NGX_OK, 12)
  else (NGX_ERROR, 1)

/-- The statement `if ((value.data[i] == ' ') && (i < value.len)) i++;`. -/
def acceptencoding_skip_space (data : List Nat) (len i : Nat) : Nat :=
  if rd data i = 32 ∧ i < len then i + 1 else i

/-- Lines 807-815: the `,` behind an item and the space behind it.  `Sum.inl rc` is a
`break` with that `rc`, `Sum.inr j` the cursor for the next turn of the loop. -/
def acceptencoding_comma (data : List Nat) (len i : Nat) : Int ⊕ Nat :=
  if rd data i ≠ 44 then Sum.inl NGX_ERROR
  else Sum.inr (acceptencoding_skip_space data len (i + 1))

/-- Lines 770-815: one turn of the `while` loop at cursor `i`.  `Sum.inl rc` is a `break`
with that `rc`, `Sum.inr j` the cursor for the next turn.  ASCII: `;`=59. -/
def acceptencoding_body (data : List Nat) (len i : Nat) : Int ⊕ Nat :=
  if (ngx_header_inspect_parse_contentcoding (data.drop i) (len - i)).1 ≠ NGX_OK then
    Sum.inl NGX_ERROR
  else
    let i1 := i + (ngx_header_inspect_parse_contentcoding (data.drop i) (len - i)).2
    let i2 := acceptencoding_skip_space data len i1
    if i2 = len then Sum.inl NGX_OK
    else if rd data i2 = 59 then
      let i3 := i2 + 1
      if i3 ≥ len then Sum.inl NGX_ERROR
      else
        let i4 := acceptencoding_skip_space data len i3
        if (ngx_header_inspect_parse_qvalue (data.drop i4) (len - i4)).1 ≠ NGX_OK then
          Sum.inl NGX_ERROR
        else
          let i5 := i4 + (ngx_header_inspect_parse_qvalue (data.drop i4) (len - i4)).2
          let i6 := acceptencoding_skip_space data len i5
          if i6 = len then Sum.inl NGX_OK
          else acceptencoding_comma data len i6
    else acceptencoding_comma data len i2

/-- Lines 769-821: the `while (i < value.len)` loop; leaving it with `rc == NGX_AGAIN`
yields `NGX_ERROR`. -/
def acceptencoding_loop (data : List Nat) (len i : Nat) : Int :=
  if h : i < len then
    match hb : acceptencoding_body data len i with
    | Sum.inl rc => rc
    | Sum.inr j => acceptencoding_loop data len j
  else NGX_ERROR
termination_by len - i
decreasing_by
  have hskip : ∀ k, k ≤ acceptencoding_skip_space data len k := by
    intro k
    unfold acceptencoding_skip_space
    split_ifs <;> omega
  have hcomma : ∀ k, acceptencoding_comma data len k = Sum.inr j → k < j := by
    intro k hk
    unfold acceptencoding_comma at hk
    split_ifs at hk
    have := hskip (k + 1)
    simp only [Sum.inr.injEq] at hk
    omega
  have hlt : i < j := by
    unfold acceptencoding_body at hb
    split_ifs at hb
    dsimp only at hb
    generalize (ngx_header_inspect_parse_contentcoding (List.drop i data) (len - i)).2 = v at hb
    have h1 := hskip (i + v)
    generalize acceptencoding_skip_space data len (i + v) = i2 at hb h1
    split_ifs at hb
    · have h2 := hskip (i2 + 1)
      generalize acceptencoding_skip_space data len (i2 + 1) = i4 at hb h2
      generalize (ngx_header_inspect_parse_qvalue (List.drop i4 data) (len - i4)).2 = w at hb
      have h3 := hskip (i4 + w)
      have h4 := hcomma _ hb
      omega
    · have h4 := hcomma _ hb
      omega
  omega

/-- The function `ngx_header_inspect_acceptencoding_header(conf, log, value)`. -/
def ngx_header_inspect_acceptencoding_header (value : List Nat) : Int :=
  if value.length = 0 ∨ (value.length = 1 ∧ rd value 0 = 42) then NGX_OK
  else acceptencoding_loop value value.length 0

/-- The validator `validate_accept_encoding(bytes)`. -/
def validate_accept_encoding (value : List Nat) : Int :=
  ngx_header_inspect_acceptencoding_header value

/-- The bytes of `data` from offset `i` on are `x`. -/
def Suffix (data : List Nat) (i : Nat) (x : List Nat) : Prop :=
  data.drop i = x ∧ i + x.length = data.length

/-- The seven allowed content-codings. -/
def content_codings : List (List Nat) :=
  [bytes "*", bytes "gzip", bytes "compress", bytes "deflate", bytes "identity", bytes "exi",
   bytes "pack200-gzip"]

/-- Nothing or one space. -/
def OptSpace (s : List Nat) : Prop := s = [] ∨ s = [32]

/-- A qvalue of the form `q=0[.d{0,3}]` or `q=1[.0{0,3}]`. -/
def IsQvalue (q : List Nat) : Prop :=
  q = bytes "q=0" ∨ (∃ ds, ds.length ≤ 3 ∧ allDigits ds ∧ q = bytes "q=0." ++ ds) ∨
  q = bytes "q=1" ∨ (∃ n, n ≤ 3 ∧ q = bytes "q=1." ++ List.replicate n 48)

/-- One item of the list: an allowed coding, an optional space and, optionally, `;`, an
optional space, a qvalue and an optional space. -/
def IsItem (t : List Nat) : Prop :=
  ∃ c sp1, c ∈ content_codings ∧ OptSpace sp1 ∧
    (t = c ++ sp1 ∨
     ∃ sp2 q sp3, OptSpace sp2 ∧ IsQvalue q ∧ OptSpace sp3 ∧
       t = c ++ sp1 ++ [59] ++ sp2 ++ q ++ sp3)

/-- Items, each followed by `,` and an optional space. -/
inductive ItemsComma : List Nat → Prop where
  | nil : ItemsComma []
  | cons (t sp rest : List Nat) : IsItem t → OptSpace sp → ItemsComma rest →
      ItemsComma (t ++ [44] ++ sp ++ rest)

/-- A list of one or more items separated by `,` and an optional space. -/
def IsAcceptEncodingList (v : List Nat) : Prop :=
  ∃ P t, ItemsComma P ∧ IsItem t ∧ v = P ++ t

/-- What a successful result of `parse_contentcoding` on the window `x` says. -/
def ContentCodingPost (x : List Nat) (r : Int × Nat) : Prop :=
  r.1 = NGX_OK → ∃ c z, c ∈ content_codings ∧ x = c ++ z ∧ r.2 = c.length

/-- A token: a non-empty run of bytes none of which is a space, a `,` or a `;`. -/
def IsToken (t : List Nat) : Prop :=
  t ≠ [] ∧ ∀ b ∈ t, b ≠ 32 ∧ b ≠ 44 ∧ b ≠ 59

/-- The bytes behind a token: the end of the value, a space, a `,` or a `;`. -/
def EndsToken (y : List Nat) : Prop :=
  y = [] ∨ rd y 0 = 32 ∨ rd y 0 = 44 ∨ rd y 0 = 59

/-- The six-letter weekday names. -/
def short_weekday_names : List (List Nat) := [bytes "Monday", bytes "Friday", bytes "Sunday"]

/-- The weekday names of more than six letters. -/
def long_weekday_names : List (List Nat) :=
  [bytes "Tuesday", bytes "Wednesday", bytes "Thursday", bytes "Saturday"]

/-- The shape `<Weekday>, DD-Mon-YY HH:MM:SS GMT` of an RFC850 date whose weekday is one
of the six-letter names. -/
def Rfc850Shape (v : List Nat) : Prop :=
  ∃ wkd mon d1 d2 y1 y2 h1 h2 m1 m2 s1 s2,
    wkd ∈ short_weekday_names ∧ mon ∈ month_names ∧
    isDigit d1 ∧ isDigit d2 ∧ isDigit y1 ∧ isDigit y2 ∧
    isDigit h1 ∧ isDigit h2 ∧ isDigit m1 ∧ isDigit m2 ∧ isDigit s1 ∧ isDigit s2 ∧
    v = wkd ++ bytes ", " ++ [d1, d2] ++ bytes "-" ++ mon ++ bytes "-" ++ [y1, y2]
          ++ bytes " " ++ [h1, h2] ++ bytes ":" ++ [m1, m2] ++ bytes ":" ++ [s1, s2]
          ++ bytes " GMT"

/-- The byte-position form of the RFC850 shape. -/
def Rfc850At (data : List Nat) : Prop :=
  ((rd data 0 = 77 ∧ rd data 1 = 111 ∧ rd data 2 = 110) ∨
   (rd data 0 = 70 ∧ rd data 1 = 114 ∧ rd data 2 = 105) ∨
   (rd data 0 = 83 ∧ rd data 1 = 117 ∧ rd data 2 = 110)) ∧
  rd data 3 = 100 ∧ rd data 4 = 97 ∧ rd data 5 = 121 ∧ rd data 6 = 44 ∧ rd data 7 = 32 ∧
  isDigit (rd data 8) ∧ isDigit (rd data 9) ∧ rd data 10 = 45 ∧ MonthAt data 11 ∧
  rd data 14 = 45 ∧ isDigit (rd data 15) ∧ isDigit (rd data 16) ∧ rd data 17 = 32 ∧
  isDigit (rd data 18) ∧ isDigit (rd data 19) ∧ rd data 20 = 58 ∧
  isDigit (rd data 21) ∧ isDigit (rd data 22) ∧ rd data 23 = 58 ∧
  isDigit (rd data 24) ∧ isDigit (rd data 25) ∧ rd data 26 = 32 ∧
  rd data 27 = 71 ∧ rd data 28 = 77 ∧ rd data 29 = 84

/-! ## Entity-tag and If-Range (source lines 617-651 and 826-854) -/

/-- Lines 640-644: the loop `for ( ; i < maxlen-1 ; i++ )` from cursor `i` on, with `n`
the number of turns left (`maxlen - 1 - i`); `true` is the `return NGX_ERROR` on a `"`
byte.  ASCII: `"`=34. -/
def entity_tag_loop (data : List Nat) (i : Nat) : Nat → Bool
  | 0 => false
  | n + 1 => if rd data i = 34 then true else entity_tag_loop data (i + 1) n

/-- The function `ngx_header_inspect_entity_tag(data, maxlen)`.  ASCII: `W`=87 `/`=47
`"`=34. -/
def ngx_header_inspect_entity_tag (data : List Nat) (maxlen : Nat) : Int :=
  if maxlen < 2 then NGX_ERROR
  else if rd data 0 = 87 ∧ rd data 1 ≠ 47 then NGX_ERROR
  else
    let i := if rd data 0 = 87 then 2 else 0
    if i + 1 ≥ maxlen then NGX_ERROR
    else if rd data i ≠ 34 then NGX_ERROR
    else if entity_tag_loop data (i + 1) (maxlen - 1 - (i + 1)) = true then NGX_ERROR
    else if rd data (maxlen - 1) ≠ 34 then NGX_ERROR
    else NGX_OK

/-- The validator `validate_entity_tag(bytes)`: the call
`ngx_header_inspect_entity_tag(value.data, value.len)` of line 829. -/
def validate_entity_tag (value : List Nat) : Int :=
  ngx_header_inspect_entity_tag value value.length

/-- The value behind its optional weak prefix `W/`. -/
def entity_tag_rest (v : List Nat) : List Nat :=
  if rd v 0 = 87 ∧ rd v 1 = 47 then v.drop 2 else v

/-- The range of a result of `parse_contentcoding` on a window of `n` bytes: the code is
`NGX_OK` or `NGX_ERROR`, and a success reports a length inside the window. -/
def ContentCodingRange (n : Nat) (r : Int × Nat) : Prop :=
  (r.1 = NGX_OK ∨ r.1 = NGX_ERROR) ∧ (r.1 = NGX_OK → 1 ≤ r.2 ∧ r.2 ≤ n)

/-! ## The date headers and If-Range (source lines 826-854) -/

/-- The function `ngx_header_inspect_date_header(conf, log, header, value)`: its return
value.  `conf` and `header` are only read to write the log record of line 848. -/
def ngx_header_inspect_date_header (value : List Nat) : Int :=
  if ngx_header_inspect_http_date value value.length ≠ NGX_OK then NGX_ERROR
  else NGX_OK

/-- The function `ngx_header_inspect_ifrange_header(conf, log, value)`: its return value.
`conf` is only read to write the log record of line 831.  ASCII: `W`=87 `/`=47 `"`=34. -/
def ngx_header_inspect_ifrange_header (value : List Nat) : Int :=
  if (rd value 0 = 87 ∧ rd value 1 = 47) ∨ rd value 0 = 34 then
    if ngx_header_inspect_entity_tag value value.length ≠ NGX_OK then NGX_ERROR
    else NGX_OK
  else ngx_header_inspect_date_header value

/-- The value starts with the bytes `p` (the words of the specification). -/
def StartsWith (p v : List Nat) : Prop := ∃ z, v = p ++ z

/-! ## The request handler (source lines 856-912) -/

/-- The return code `NGX_HTTP_BAD_REQUEST` of nginx. -/
def NGX_HTTP_BAD_REQUEST : Int := 400

/-- The return code `NGX_DECLINED` of nginx. -/
def NGX_DECLINED : Int := -5

/-- The C struct `ngx_header_inspect_loc_conf_t` (lines 14-21); an `ngx_flag_t` is a
signed integer that a C condition reads as true when it is not 0. -/
structure ngx_header_inspect_loc_conf_t where
  inspect : Int
  log : Int
  log_uninspected : Int
  block : Int
  range_max_bytesets : Nat

/-- The fields of nginx's `ngx_table_elt_t` the handler reads: the bytes of `key` and of
`value`, each a `ngx_str_t` whose `len` is the length of the list. -/
structure ngx_table_elt_t where
  key : List Nat
  value : List Nat

/-- The list `r->headers_in.headers`: an `ngx_list_t` is its first part and the chain of
the parts behind it (`part->next`); a part is the array of its `nelts` elements. -/
structure ngx_list_t where
  part : List ngx_table_elt_t
  next : List (List ngx_table_elt_t)

/-- Modelled from the spec: the macro `ngx_strcmp(s1, s2)` of nginx is not under `src/`;
it is the `strcmp` of the C library, the exact, case-sensitive comparison the
specification names: the difference of the first pair of bytes that differ, 0 when both
strings end together.  A list is followed by its NUL. -/
def ngx_strcmp : List Nat → List Nat → Int
  | [], [] => 0
  | [], b :: _ => 0 - (b : Int)
  | a :: _, [] => (a : Int)
  | a :: s1, b :: s2 =>
    if a ≠ b then (a : Int) - (b : Int)
    else if a = 0 then 0
    else ngx_strcmp s1 s2

/-- Lines 870-905: the `if ... else if` chain over the header name of element `h`:
`some rc` is the code of the validator the branch calls, `none` the last `else`, which
calls no validator. -/
def process_request_header (conf : ngx_header_inspect_loc_conf_t) (h : ngx_table_elt_t) :
    Option Int :=
  if h.key.length = 5 ∧ ngx_strcmp (bytes "Range") h.key = 0 then
    some (ngx_header_inspect_range_header conf.range_max_bytesets h.value)
  else if h.key.length = 8 ∧ ngx_strcmp (bytes "If-Range") h.key = 0 then
    some (ngx_header_inspect_ifrange_header h.value)
  else if h.key.length = 19 ∧ ngx_strcmp (bytes "If-Unmodified-Since") h.key = 0 then
    some (ngx_header_inspect_date_header h.value)
  else if h.key.length = 17 ∧ ngx_strcmp (bytes "If-Modified-Since") h.key = 0 then
    some (ngx_header_inspect_date_header h.value)
  else if h.key.length = 4 ∧ ngx_strcmp (bytes "Date") h.key = 0 then
    some (ngx_header_inspect_date_header h.value)
  else if h.key.length = 15 ∧ ngx_strcmp (bytes "Accept-Encoding") h.key = 0 then
    some (ngx_header_inspect_acceptencoding_header h.value)
  else none

/-- Lines 869-906: the `for` loop over the elements of one part.  `some rc` is a `return`
of the handler with that code, `none` the end of the loop.  Each branch of the chain ends
with `if ((rc != NGX_OK) && conf->block) return NGX_HTTP_BAD_REQUEST;`. -/
def process_request_part (conf : ngx_header_inspect_loc_conf_t) :
    List ngx_table_elt_t → Option Int
  | [] => none
  | h :: hs =>
    match process_request_header conf h with
    | some rc =>
      if rc ≠ NGX_OK ∧ conf.block ≠ 0 then some NGX_HTTP_BAD_REQUEST
      else process_request_part conf hs
    | none => process_request_part conf hs

/-- Lines 867-908: the `do ... while (part != NULL)` loop over the parts, entered at
`part` with the chain `next` behind it. -/
def process_request_parts (conf : ngx_header_inspect_loc_conf_t)
    (part : List ngx_table_elt_t) : List (List ngx_table_elt_t) → Option Int
  | [] => process_request_part conf part
  | p :: ps =>
    match process_request_part conf part with
    | some rc => some rc
    | none => process_request_parts conf p ps

/-- The function `ngx_header_inspect_process_request(r)`, with the location configuration
and the header list of the request `r` as its arguments. -/
def ngx_header_inspect_process_request (conf : ngx_header_inspect_loc_conf_t)
    (headers : ngx_list_t) : Int :=
  if conf.inspect ≠ 0 then
    match process_request_parts conf headers.part headers.next with
    | some rc => rc
    | none => NGX_DECLINED
  else NGX_DECLINED

/-- The headers of the request in their order. -/
def request_headers (headers : ngx_list_t) : List ngx_table_elt_t :=
  headers.part ++ headers.next.flatten

/-- The words of the specification: the name of `h` is byte-for-byte one of the six
inspected names and the validator of that name judges the value Malformed. -/
def MalformedHeader (conf : ngx_header_inspect_loc_conf_t) (h : ngx_table_elt_t) : Prop :=
  (h.key = bytes "Range" ∧ validate_range h.value conf.range_max_bytesets = NGX_ERROR) ∨
  (h.key = bytes "If-Range" ∧ ngx_header_inspect_ifrange_header h.value = NGX_ERROR) ∨
  ((h.key = bytes "If-Unmodified-Since" ∨ h.key = bytes "If-Modified-Since" ∨
      h.key = bytes "Date") ∧ validate_http_date h.value = NGX_ERROR) ∨
  (h.key = bytes "Accept-Encoding" ∧ validate_accept_encoding h.value = NGX_ERROR)

/-! ## Log records of the validators -/

/-- The number of log records `ngx_header_inspect_date_header` writes: the one
`ngx_log_error` of line 848 runs when the date is not `NGX_OK` and `conf->log` is set. -/
def date_header_records (conf : ngx_header_inspect_loc_conf_t) (value : List Nat) : Nat :=
  if ngx_header_inspect_http_date value value.length ≠ NGX_OK then
    if conf.log ≠ 0 then 1 else 0
  else 0

/-- The number of log records `ngx_header_inspect_ifrange_header` writes: the
`ngx_log_error` of line 831 runs when the entity tag is not `NGX_OK` and `conf->log` is
set; the date branch writes what `ngx_header_inspect_date_header` writes. -/
def ifrange_header_records (conf : ngx_header_inspect_loc_conf_t) (value : List Nat) : Nat :=
  if (rd value 0 = 87 ∧ rd value 1 = 47) ∨ rd value 0 = 34 then
    if ngx_header_inspect_entity_tag value value.length ≠ NGX_OK then
      if conf.log ≠ 0 then 1 else 0
    else 0
  else date_header_records conf value

/-- The number of log records `ngx_header_inspect_acceptencoding_header` writes.  An
`ngx_log_error` stands in front of each `rc = NGX_ERROR; break;` of the loop (lines 771,
786, 794, 808) and in the `if (rc == NGX_AGAIN)` behind it (line 819), and nowhere else;
none of the five is inside an `if (conf->log)`, so `conf` is not read: one record on every
path that returns `NGX_ERROR`, none on a path that returns `NGX_OK`. -/
def acceptencoding_header_records (_conf : ngx_header_inspect_loc_conf_t)
    (value : List Nat) : Nat :=
  if ngx_header_inspect_acceptencoding_header value = NGX_ERROR then 1 else 0

/-! ## Configuration (source lines 916-946) -/

/-- Modelled from the spec: the constant `NGX_CONF_UNSET` of nginx is not under `src/`;
it marks a flag "left unset" by `ngx_header_inspect_create_conf` and is the value -1. -/
def NGX_CONF_UNSET : Int := -1

/-- Modelled from the spec: the constant `NGX_CONF_UNSET_UINT` of nginx is not under
`src/`; it marks a number "left unset" and is `(ngx_uint_t) -1`. -/
def NGX_CONF_UNSET_UINT : Nat := NGX_UINT_MOD - 1

/-- Modelled from the spec: the macro `ngx_conf_merge_off_value(conf, prev, default)` of
nginx is not under `src/`.  A value set in the location stays, a value set only in the
parent is inherited, and the default is taken when neither is set; the result is the new
`conf`. -/
def ngx_conf_merge_off_value (conf prev default : Int) : Int :=
  if conf = NGX_CONF_UNSET then
    if prev = NGX_CONF_UNSET then default else prev
  else conf

/-- Modelled from the spec: the macro `ngx_conf_merge_uint_value(conf, prev, default)` of
nginx is not under `src/`; as `ngx_conf_merge_off_value`, for an `ngx_uint_t`. -/
def ngx_conf_merge_uint_value (conf prev default : Nat) : Nat :=
  if conf = NGX_CONF_UNSET_UINT then
    if prev = NGX_CONF_UNSET_UINT then default else prev
  else conf

/-- The function `ngx_header_inspect_create_conf(cf)`: the configuration it returns when
the allocation succeeds. -/
def ngx_header_inspect_create_conf : ngx_header_inspect_loc_conf_t :=
  { inspect := NGX_CONF_UNSET
    log := NGX_CONF_UNSET
    log_uninspected := NGX_CONF_UNSET
    block := NGX_CONF_UNSET
    range_max_bytesets := NGX_CONF_UNSET_UINT }

/-- The function `ngx_header_inspect_merge_conf(cf, parent, child)`: the location
configuration `child` as the function leaves it. -/
def ngx_header_inspect_merge_conf (prev conf : ngx_header_inspect_loc_conf_t) :
    ngx_header_inspect_loc_conf_t :=
  { inspect := ngx_conf_merge_off_value conf.inspect prev.inspect 0
    log := ngx_conf_merge_off_value conf.log prev.log 1
    block := ngx_conf_merge_off_value conf.block prev.block 0
    log_uninspected := ngx_conf_merge_off_value conf.log_uninspected prev.log_uninspected 0
    range_max_bytesets :=
      ngx_conf_merge_uint_value conf.range_max_bytesets prev.range_max_bytesets 5 }

/-! ## HTTP-date: the reads of the buffer -/

/-- The read `data[i]` of a buffer of exactly `data.length` bytes: `Except.error i` is a
read at the index `i` outside the buffer, which ends the run. -/
def rdx (data : List Nat) (i : Nat) : Except Nat Nat :=
  match data.get? i with
  | some c => Except.ok c
  | none => Except.error i

/-- The C test `data[i] == c`. -/
def eqx (data : List Nat) (i c : Nat) : Except Nat Bool :=
  (rdx data i).map (fun b => decide (b = c))

/-- The C test `data[i] != c`. -/
def nex (data : List Nat) (i c : Nat) : Except Nat Bool :=
  (rdx data i).map (fun b => decide (b ≠ c))

/-- The C test `(data[i] < '0') || (data[i] > '9')`. -/
def nondigitx (data : List Nat) (i : Nat) : Except Nat Bool :=
  (rdx data i).map (fun b => decide (b < 48 ∨ b > 57))

/-- Lines 255-440 with the reads of `rdx`: the weekday dispatch.  `<&&>` and `<||>` are
the `&&` and `||` of C, which read their right operand only when the left one does not
decide.  `none` is `return NGX_ERROR`. -/
def http_date_weekday_checked (data : List Nat) :
    Except Nat (Option (http_date_type × Nat)) := do
  if ← (eqx data 0 77 <&&> eqx data 1 111 <&&> eqx data 2 110) then
    -- Mon(day)
    let c ← rdx data 3
    if c = 44 then return some (RFC1123, 4)
    else if c = 32 then return some (ASCTIME, 3)
    else if c = 100 then
      if ← (nex data 4 97 <||> nex data 5 121 <||> nex data 6 44) then return none
      else return some (RFC850, 7)
    else return none
  else if ← (eqx data 0 84 <&&> eqx data 1 117 <&&> eqx data 2 101) then
    -- Tue(sday)
    let c ← rdx data 3
    if c = 44 then return some (RFC1123, 4)
    else if c = 32 then return some (ASCTIME, 3)
    else if c = 115 then
      if ← (nex data 4 100 <||> nex data 5 97 <||> nex data 6 121 <||> nex data 7 44) then
        return none
      else return some (RFC850, 8)
    else return none
  else if ← (eqx data 0 87 <&&> eqx data 1 101 <&&> eqx data 2 100) then
    -- Wed(nesday)
    let c ← rdx data 3
    if c = 44 then return some (RFC1123, 4)
    else if c = 32 then return some (ASCTIME, 3)
    else if c = 110 then
      if ← (nex data 4 101 <||> nex data 5 115 <||> nex data 6 100 <||> nex data 7 97
          <||> nex data 8 121 <||> nex data 9 44) then
        return none
      else return some (RFC850, 10)
    else return none
  else if ← (eqx data 0 84 <&&> eqx data 1 104 <&&> eqx data 2 117) then
    -- Thu(rsday)
    let c ← rdx data 3
    if c = 44 then return some (RFC1123, 4)
    else if c = 32 then return some (ASCTIME, 3)
    else if c = 114 then
      if ← (nex data 4 115 <||> nex data 5 100 <||> nex data 6 97 <||> nex data 7 121
          <||> nex data 8 44) then
        return none
      else return some (RFC850, 9)
    else return none
  else if ← (eqx data 0 70 <&&> eqx data 1 114 <&&> eqx data 2 105) then
    -- Fri(day)
    let c ← rdx data 3
    if c = 44 then return some (RFC1123, 4)
    else if c = 32 then return some (ASCTIME, 3)
    else if c = 100 then
      if ← (nex data 4 97 <||> nex data 5 121 <||> nex data 6 44) then return none
      else return some (RFC850, 7)
    else return none
  else if ← (eqx data 0 83 <&&> eqx data 1 97 <&&> eqx data 2 116) then
    -- Sat(urday)
    let c ← rdx data 3
    if c = 44 then return some (RFC1123, 4)
    else if c = 32 then return some (ASCTIME, 3)
    else if c = 117 then
      if ← (nex data 4 114 <||> nex data 5 100 <||> nex data 6 97 <||> nex data 7 121
          <||> nex data 8 44) then
        return none
      else return some (RFC850, 9)
    else return none
  else if ← (eqx data 0 83 <&&> eqx data 1 117 <&&> eqx data 2 110) then
    -- Sun(day)
    let c ← rdx data 3
    if c = 44 then return some (RFC1123, 4)
    else if c = 32 then return some (ASCTIME, 3)
    else if c = 100 then
      if ← (nex data 4 97 <||> nex data 5 121 <||> nex data 6 44) then return none
      else return some (RFC850, 7)
    else return none
  else return none

/-- Lines 497-515 with the reads of `rdx`: the month abbreviation at `i`. -/
def http_date_month_checked (data : List Nat) (i : Nat) : Except Nat Bool :=
  (eqx data i 74 <&&> eqx data (i + 1) 97 <&&> eqx data (i + 2) 110) <||>
  (eqx data i 70 <&&> eqx data (i + 1) 101 <&&> eqx data (i + 2) 98) <||>
  (eqx data i 77 <&&> eqx data (i + 1) 97 <&&> eqx data (i + 2) 114) <||>
  (eqx data i 65 <&&> eqx data (i + 1) 112 <&&> eqx data (i + 2) 114) <||>
  (eqx data i 77 <&&> eqx data (i + 1) 97 <&&> eqx data (i + 2) 121) <||>
  (eqx data i 74 <&&> eqx data (i + 1) 117 <&&> eqx data (i + 2) 110) <||>
  (eqx data i 74 <&&> eqx data (i + 1) 117 <&&> eqx data (i + 2) 108) <||>
  (eqx data i 65 <&&> eqx data (i + 1) 117 <&&> eqx data (i + 2) 103) <||>
  (eqx data i 83 <&&> eqx data (i + 1) 101 <&&> eqx data (i + 2) 112) <||>
  (eqx data i 79 <&&> eqx data (i + 1) 99 <&&> eqx data (i + 2) 116) <||>
  (eqx data i 78 <&&> eqx data (i + 1) 111 <&&> eqx data (i + 2) 118) <||>
  (eqx data i 68 <&&> eqx data (i + 1) 101 <&&> eqx data (i + 2) 99)

/-- The function `ngx_header_inspect_http_date(data, maxlen)` with the reads of `rdx`:
`Except.ok rc` is a run that returns `rc` and has read inside the buffer only,
`Except.error i` a run that reads `data[i]` outside the buffer. -/
def ngx_header_inspect_http_date_checked (data : List Nat) (maxlen : Nat) :
    Except Nat Int := do
  if maxlen < 24 then return NGX_ERROR
  let some (type, i0) ← http_date_weekday_checked data | return NGX_ERROR
  let mut i := i0
  -- lines 442-460
  if http_date_badlen type maxlen then return NGX_ERROR
  if ← nex data i 32 then return NGX_ERROR
  i := i + 1
  if type = RFC1123 then
    -- rfc1123: day
    if ← nondigitx data i then return NGX_ERROR
    i := i + 1
    if ← nondigitx data i then return NGX_ERROR
    i := i + 1
    if ← nex data i 32 then return NGX_ERROR
    i := i + 1
  else if type = RFC850 then
    -- rfc850: day
    if ← nondigitx data i then return NGX_ERROR
    i := i + 1
    if ← nondigitx data i then return NGX_ERROR
    i := i + 1
    if ← nex data i 45 then return NGX_ERROR
    i := i + 1
  -- month
  if ← http_date_month_checked data i then
    i := i + 3
  else return NGX_ERROR
  if type = RFC1123 then
    -- rfc1123: year
    if ← nex data i 32 then return NGX_ERROR
    i := i + 1
    if ← nondigitx data i then return NGX_ERROR
    i := i + 1
    if ← nondigitx data i then return NGX_ERROR
    i := i + 1
    if ← nondigitx data i then return NGX_ERROR
    i := i + 1
  else if type = RFC850 then
    -- rfc850: year
    if ← nex data i 45 then return NGX_ERROR
    i := i + 1
    if ← nondigitx data i then return NGX_ERROR
    i := i + 1
  else if type = ASCTIME then
    -- asctime: day
    if ← nex data i 32 then return NGX_ERROR
    i := i + 1
    if ← (nex data i 32 <||> nondigitx data i) then return NGX_ERROR
    i := i + 1
  if ← nondigitx data i then return NGX_ERROR
  i := i + 1
  if ← nex data i 32 then return NGX_ERROR
  i := i + 1
  -- time 08:49:37
  if ← (nondigitx data i <||> nondigitx data (i + 1) <||> nex data (i + 2) 58) then
    return NGX_ERROR
  i := i + 3
  if ← (nondigitx data i <||> nondigitx data (i + 1) <||> nex data (i + 2) 58) then
    return NGX_ERROR
  i := i + 3
  if ← (nondigitx data i <||> nondigitx data (i + 1) <||> nex data (i + 2) 32) then
    return NGX_ERROR
  i := i + 3
  if type = ASCTIME then
    -- asctime: year: 1994
    if ← (nondigitx data i <||> nondigitx data (i + 1) <||> nondigitx data (i + 2)
        <||> nondigitx data (i + 3)) then
      return NGX_ERROR
    i := i + 4
  else
    -- GMT
    if ← (nex data i 71 <||> nex data (i + 1) 77 <||> nex data (i + 2) 84) then
      return NGX_ERROR
    i := i + 3
  if i ≠ maxlen then return NGX_ERROR
  return NGX_OK

/-- The validator `validate_http_date` on a buffer of exactly the bytes of the value. -/
def validate_http_date_checked (value : List Nat) : Except Nat Int :=
  ngx_header_inspect_http_date_checked value value.length

/-! ## HTTP-date: the accepted values -/

theorem weekdayPost_ite (data : List Nat) {c : Prop} [Decidable c]
    {x y : Option (http_date_type × Nat)}
    (hx : c → WeekdayPost data x) (hy : ¬ c → WeekdayPost data y) :
    WeekdayPost data (if c then x else y) := by
  by_cases hc : c
  · rw [if_pos hc]; exact hx hc
  · rw [if_neg hc]; exact hy hc

theorem weekdayPost_top (data : List Nat) {p q r : Prop} [Decidable (p ∧ q ∧ r)]
    {x y : Option (http_date_type × Nat)}
    (hx : p ∧ q ∧ r → WeekdayPost data x) (hy : WeekdayPost data y) :
    WeekdayPost data (if p ∧ q ∧ r then x else y) := by
  by_cases hc : p ∧ q ∧ r
  · rw [if_pos hc]; exact hx hc
  · rw [if_neg hc]; exact hy

theorem http_date_weekday_post (data : List Nat) :
    WeekdayPost data (http_date_weekday data) := by
  unfold http_date_weekday
  repeat' first
    | refine weekdayPost_top data (fun _ => ?_) ?_
    | refine weekdayPost_ite data (fun _ => ?_) (fun _ => ?_)
  all_goals
    intro t i h
    cases h
  all_goals
    refine ⟨?_, ?_⟩
    · unfold WeekdayAt
      first
        | exact Or.inl ‹_›
        | exact Or.inr (Or.inl ‹_›)
        | exact Or.inr (Or.inr (Or.inl ‹_›))
        | exact Or.inr (Or.inr (Or.inr (Or.inl ‹_›)))
        | exact Or.inr (Or.inr (Or.inr (Or.inr (Or.inl ‹_›))))
        | exact Or.inr (Or.inr (Or.inr (Or.inr (Or.inr (Or.inl ‹_›)))))
        | exact Or.inr (Or.inr (Or.inr (Or.inr (Or.inr (Or.inr ‹_›)))))
    · first
        | exact Or.inl ⟨rfl, rfl, ‹_›⟩
        | exact Or.inr (Or.inl ⟨rfl, rfl, ‹_›⟩)
        | exact Or.inr (Or.inr ⟨rfl, ‹_›, ‹_›, Or.inr (by decide)⟩)
        | exact Or.inr (Or.inr ⟨rfl, ‹_›, ‹_›, Or.inl ⟨rfl, ‹_›, by omega, by omega, by omega,
            Or.inl ‹_›⟩⟩)
        | exact Or.inr (Or.inr ⟨rfl, ‹_›, ‹_›, Or.inl ⟨rfl, ‹_›, by omega, by omega, by omega,
            Or.inr (Or.inl ‹_›)⟩⟩)
        | exact Or.inr (Or.inr ⟨rfl, ‹_›, ‹_›, Or.inl ⟨rfl, ‹_›, by omega, by omega, by omega,
            Or.inr (Or.inr ‹_›)⟩⟩)

theorem http_date_day_rfc1123 (data : List Nat) (i j : Nat) :
    http_date_day data RFC1123 i = some j ↔
      (48 ≤ rd data i ∧ rd data i ≤ 57 ∧ 48 ≤ rd data (i + 1) ∧ rd data (i + 1) ≤ 57 ∧
        rd data (i + 2) = 32 ∧ j = i + 3) := by
  unfold http_date_day
  simp only [if_true]
  split_ifs <;> simp <;> omega

theorem http_date_year_rfc1123 (data : List Nat) (i j : Nat) :
    http_date_year data RFC1123 i = some j ↔
      (rd data i = 32 ∧ 48 ≤ rd data (i + 1) ∧ rd data (i + 1) ≤ 57 ∧
        48 ≤ rd data (i + 2) ∧ rd data (i + 2) ≤ 57 ∧
        48 ≤ rd data (i + 3) ∧ rd data (i + 3) ≤ 57 ∧
        48 ≤ rd data (i + 4) ∧ rd data (i + 4) ≤ 57 ∧ rd data (i + 5) = 32 ∧ j = i + 6) := by
  unfold http_date_year
  simp only [if_true]
  split_ifs <;> simp [Nat.add_assoc] <;> omega

theorem http_date_time_iff (data : List Nat) (i j : Nat) :
    http_date_time data i = some j ↔
      (48 ≤ rd data i ∧ rd data i ≤ 57 ∧ 48 ≤ rd data (i + 1) ∧ rd data (i + 1) ≤ 57 ∧
        rd data (i + 2) = 58 ∧
        48 ≤ rd data (i + 3) ∧ rd data (i + 3) ≤ 57 ∧ 48 ≤ rd data (i + 4) ∧
        rd data (i + 4) ≤ 57 ∧ rd data (i + 5) = 58 ∧
        48 ≤ rd data (i + 6) ∧ rd data (i + 6) ≤ 57 ∧ 48 ≤ rd data (i + 7) ∧
        rd data (i + 7) ≤ 57 ∧ rd data (i + 8) = 32 ∧ j = i + 9) := by
  unfold http_date_time
  split_ifs <;> simp <;> omega

theorem http_date_tail_gmt (data : List Nat) (t : http_date_type) (ht : t ≠ ASCTIME)
    (i j : Nat) :
    http_date_tail data t i = some j ↔
      (rd data i = 71 ∧ rd data (i + 1) = 77 ∧ rd data (i + 2) = 84 ∧ j = i + 3) := by
  unfold http_date_tail
  simp only [if_neg ht]
  split_ifs <;> simp <;> omega

theorem http_date_month_iff (data : List Nat) (i j : Nat) :
    http_date_month data i = some j ↔ (MonthAt data i ∧ j = i + 3) := by
  unfold http_date_month MonthAt
  split_ifs with h
  · simp [h]; omega
  · simp [h]

theorem ngx_error_ne_ok : NGX_ERROR ≠ NGX_OK := by decide

theorem http_date_ok_iff (data : List Nat) (maxlen : Nat) :
    ngx_header_inspect_http_date data maxlen = NGX_OK ↔
      24 ≤ maxlen ∧ ∃ t i i1 i2 i3 i4, http_date_weekday data = some (t, i) ∧
        http_date_badlen t maxlen = false ∧ rd data i = 32 ∧
        http_date_day data t (i + 1) = some i1 ∧ http_date_month data i1 = some i2 ∧
        http_date_year data t i2 = some i3 ∧ http_date_time data i3 = some i4 ∧
        http_date_tail data t i4 = some maxlen := by
  constructor
  · intro h
    unfold ngx_header_inspect_http_date at h
    by_cases hl : maxlen < 24
    · simp [hl, ngx_error_ne_ok] at h
    rw [if_neg hl] at h
    rcases hw : http_date_weekday data with _ | ⟨t, i⟩
    · simp [hw, ngx_error_ne_ok] at h
    simp only [hw] at h
    by_cases hb : http_date_badlen t maxlen = true
    · simp [hb, ngx_error_ne_ok] at h
    by_cases hs : rd data i ≠ 32
    · simp [hb, hs, ngx_error_ne_ok] at h
    rw [if_neg hb, if_neg hs] at h
    rcases h1 : http_date_day data t (i + 1) with _ | i1
    · simp [h1, ngx_error_ne_ok] at h
    simp only [h1] at h
    rcases h2 : http_date_month data i1 with _ | i2
    · simp [h2, ngx_error_ne_ok] at h
    simp only [h2] at h
    rcases h3 : http_date_year data t i2 with _ | i3
    · simp [h3, ngx_error_ne_ok] at h
    simp only [h3] at h
    rcases h4 : http_date_time data i3 with _ | i4
    · simp [h4, ngx_error_ne_ok] at h
    simp only [h4] at h
    rcases h5 : http_date_tail data t i4 with _ | i5
    · simp [h5, ngx_error_ne_ok] at h
    simp only [h5] at h
    by_cases he : i5 ≠ maxlen
    · simp [he, ngx_error_ne_ok] at h
    have he2 : i5 = maxlen := by simpa using he
    subst he2
    exact ⟨by omega, t, i, i1, i2, i3, i4, rfl, by simpa using hb, by simpa using hs,
      h1, h2, h3, h4, h5⟩
  · rintro ⟨hl, t, i, i1, i2, i3, i4, hw, hb, hs, h1, h2, h3, h4, h5⟩
    unfold ngx_header_inspect_http_date
    have hl2 : ¬ maxlen < 24 := by omega
    simp [hl2, hw, hb, hs, h1, h2, h3, h4, h5]

theorem http_date_day_rfc850 (data : List Nat) (i j : Nat) :
    http_date_day data RFC850 i = some j ↔
      (48 ≤ rd data i ∧ rd data i ≤ 57 ∧ 48 ≤ rd data (i + 1) ∧ rd data (i + 1) ≤ 57 ∧
        rd data (i + 2) = 45 ∧ j = i + 3) := by
  unfold http_date_day
  simp only [if_true, show ¬ (RFC850 = RFC1123) by decide, if_false]
  split_ifs <;> simp <;> omega

theorem http_date_year_rfc850 (data : List Nat) (i j : Nat) :
    http_date_year data RFC850 i = some j ↔
      (rd data i = 45 ∧ 48 ≤ rd data (i + 1) ∧ rd data (i + 1) ≤ 57 ∧
        48 ≤ rd data (i + 2) ∧ rd data (i + 2) ≤ 57 ∧ rd data (i + 3) = 32 ∧ j = i + 4) := by
  unfold http_date_year
  simp only [if_true, show ¬ (RFC850 = RFC1123) by decide, if_false]
  split_ifs <;> simp [Nat.add_assoc] <;> omega

theorem http_date_year_asctime (data : List Nat) (i : Nat) :
    http_date_year data ASCTIME i = none := by
  unfold http_date_year
  simp only [show ¬ (ASCTIME = RFC1123) by decide, show ¬ (ASCTIME = RFC850) by decide,
    if_false]
  split_ifs <;> first | rfl | omega

/-- An accepted value is 29 bytes with `,` as fourth byte, or 30 bytes starting with a
six-letter weekday name (`d`, `a` at offsets 3 and 4). -/
theorem http_date_ok_cases (data : List Nat) (maxlen : Nat)
    (h : ngx_header_inspect_http_date data maxlen = NGX_OK) :
    (maxlen = 29 ∧ rd data 3 = 44) ∨ (maxlen = 30 ∧ rd data 3 = 100 ∧ rd data 4 = 97) := by
  obtain ⟨_, t, i, i1, i2, i3, i4, hw, hb, _, h1, h2, h3, h4, h5⟩ :=
    (http_date_ok_iff data maxlen).mp h
  obtain ⟨_, hc⟩ := http_date_weekday_post data t i hw
  rcases hc with ⟨rfl, rfl, h44⟩ | ⟨rfl, _, _⟩ | ⟨rfl, _, _, hi⟩
  · left
    simp [http_date_badlen] at hb
    exact ⟨hb, h44⟩
  · rw [http_date_year_asctime] at h3
    cases h3
  · right
    simp [http_date_badlen] at hb
    rw [http_date_day_rfc850] at h1
    rw [http_date_month_iff] at h2
    rw [http_date_year_rfc850] at h3
    rw [http_date_time_iff] at h4
    rw [http_date_tail_gmt data RFC850 (by decide)] at h5
    omega

theorem http_date_ok_or_error (data : List Nat) (maxlen : Nat) :
    ngx_header_inspect_http_date data maxlen = NGX_OK ∨
      ngx_header_inspect_http_date data maxlen = NGX_ERROR := by
  unfold ngx_header_inspect_http_date
  repeat' split
  all_goals first
    | exact Or.inl rfl
    | exact Or.inr rfl

theorem rd_append_left (v w : List Nat) (i : Nat) (h : i < v.length) :
    rd (v ++ w) i = rd v i := by
  unfold rd
  exact List.getD_append v w 0 i h

theorem rd_eraseIdx (v : List Nat) (k i : Nat) :
    rd (v.eraseIdx k) i = if i < k then rd v i else rd v (i + 1) := by
  unfold rd
  simp only [List.getD_eq_getElem?_getD, List.getElem?_eraseIdx]
  split_ifs <;> rfl

/-- C8: for an accepted value, the value with one byte appended and every value with one
byte removed is rejected. -/
theorem validate_http_date_length_exact (v : List Nat)
    (h : validate_http_date v = NGX_OK) :
    (∀ b, validate_http_date (v ++ [b]) = NGX_ERROR) ∧
    (∀ k, k < v.length → validate_http_date (v.eraseIdx k) = NGX_ERROR) := by
  unfold validate_http_date at h ⊢
  have hc := http_date_ok_cases v v.length h
  constructor
  · intro b
    rcases http_date_ok_or_error (v ++ [b]) (v ++ [b]).length with h' | h'
    · exfalso
      have hc' := http_date_ok_cases _ _ h'
      rw [rd_append_left v [b] 3 (by omega), rd_append_left v [b] 4 (by omega)] at hc'
      simp only [List.length_append, List.length_singleton] at hc'
      omega
    · exact h'
  · intro k hk
    rcases http_date_ok_or_error (v.eraseIdx k) (v.eraseIdx k).length with h' | h'
    · exfalso
      have hc' := http_date_ok_cases _ _ h'
      rw [rd_eraseIdx, rd_eraseIdx, List.length_eraseIdx] at hc'
      simp only [hk, if_true, Nat.reduceAdd] at hc'
      split_ifs at hc' <;> omega
    · exact h'

theorem validate_http_date_length_exact_witness :
    validate_http_date (bytes "Sun, 06 Nov 1994 08:49:37 GMT") = NGX_OK ∧
    (∀ b, validate_http_date (bytes "Sun, 06 Nov 1994 08:49:37 GMT" ++ [b]) = NGX_ERROR) ∧
    (∀ k, k < (bytes "Sun, 06 Nov 1994 08:49:37 GMT").length →
      validate_http_date ((bytes "Sun, 06 Nov 1994 08:49:37 GMT").eraseIdx k) = NGX_ERROR) :=
  ⟨by decide, validate_http_date_length_exact (bytes "Sun, 06 Nov 1994 08:49:37 GMT")
    (by decide)⟩

/-- C1 (defect of the code): the validly shaped 24 byte ASCTIME date
`Sun Nov  6 08:49:37 1994` is rejected.  Line 551 requires the byte at offset 8 to be a
space and a digit at once (`||` where the day check needs `&&`). -/
theorem validate_http_date_asctime_rejected :
    validate_http_date (bytes "Sun Nov  6 08:49:37 1994") = NGX_ERROR := by
  decide

theorem weekday_names_eq : weekday_names =
    [[77, 111, 110], [84, 117, 101], [87, 101, 100], [84, 104, 117], [70, 114, 105],
     [83, 97, 116], [83, 117, 110]] := by decide

theorem month_names_eq : month_names =
    [[74, 97, 110], [70, 101, 98], [77, 97, 114], [65, 112, 114], [77, 97, 121],
     [74, 117, 110], [74, 117, 108], [65, 117, 103], [83, 101, 112], [79, 99, 116],
     [78, 111, 118], [68, 101, 99]] := by decide

theorem mem_weekday_names (w : List Nat) :
    w ∈ weekday_names ↔ ∃ a b c, w = [a, b, c] ∧
      ((a = 77 ∧ b = 111 ∧ c = 110) ∨ (a = 84 ∧ b = 117 ∧ c = 101) ∨
       (a = 87 ∧ b = 101 ∧ c = 100) ∨ (a = 84 ∧ b = 104 ∧ c = 117) ∨
       (a = 70 ∧ b = 114 ∧ c = 105) ∨ (a = 83 ∧ b = 97 ∧ c = 116) ∨
       (a = 83 ∧ b = 117 ∧ c = 110)) := by
  rw [weekday_names_eq]
  constructor
  · intro h
    simp only [List.mem_cons, List.mem_singleton, List.not_mem_nil, or_false] at h
    rcases h with rfl | rfl | rfl | rfl | rfl | rfl | rfl <;> exact ⟨_, _, _, rfl, by decide⟩
  · rintro ⟨a, b, c, rfl, h⟩
    rcases h with h | h | h | h | h | h | h
    all_goals
      obtain ⟨ha, hb, hc⟩ := h
      subst ha hb hc
      decide

theorem mem_month_names (w : List Nat) :
    w ∈ month_names ↔ ∃ a b c, w = [a, b, c] ∧
      ((a = 74 ∧ b = 97 ∧ c = 110) ∨ (a = 70 ∧ b = 101 ∧ c = 98) ∨
       (a = 77 ∧ b = 97 ∧ c = 114) ∨ (a = 65 ∧ b = 112 ∧ c = 114) ∨
       (a = 77 ∧ b = 97 ∧ c = 121) ∨ (a = 74 ∧ b = 117 ∧ c = 110) ∨
       (a = 74 ∧ b = 117 ∧ c = 108) ∨ (a = 65 ∧ b = 117 ∧ c = 103) ∨
       (a = 83 ∧ b = 101 ∧ c = 112) ∨ (a = 79 ∧ b = 99 ∧ c = 116) ∨
       (a = 78 ∧ b = 111 ∧ c = 118) ∨ (a = 68 ∧ b = 101 ∧ c = 99)) := by
  rw [month_names_eq]
  constructor
  · intro h
    simp only [List.mem_cons, List.mem_singleton, List.not_mem_nil, or_false] at h
    rcases h with rfl | rfl | rfl | rfl | rfl | rfl | rfl | rfl | rfl | rfl | rfl | rfl <;>
      exact ⟨_, _, _, rfl, by decide⟩
  · rintro ⟨a, b, c, rfl, h⟩
    rcases h with h | h | h | h | h | h | h | h | h | h | h | h
    all_goals
      obtain ⟨ha, hb, hc⟩ := h
      subst ha hb hc
      decide

theorem http_date_weekday_rfc1123 (data : List Nat) (hw : WeekdayAt data)
    (h3 : rd data 3 = 44) : http_date_weekday data = some (RFC1123, 4) := by
  unfold WeekdayAt at hw
  rcases hw with ⟨h0, h1, h2⟩ | ⟨h0, h1, h2⟩ | ⟨h0, h1, h2⟩ | ⟨h0, h1, h2⟩ | ⟨h0, h1, h2⟩ |
    ⟨h0, h1, h2⟩ | ⟨h0, h1, h2⟩ <;> simp [http_date_weekday, h0, h1, h2, h3]

theorem list_eq_map_rd (v : List Nat) : v = (List.range v.length).map (rd v) := by
  apply List.ext_getElem
  · simp
  · intro n h1 h2
    simp [rd, List.getD_eq_getElem?_getD, List.getElem?_eq_getElem h1]

theorem http_date_rfc1123_iff (data : List Nat) (maxlen : Nat) (h3 : rd data 3 = 44) :
    ngx_header_inspect_http_date data maxlen = NGX_OK ↔ (maxlen = 29 ∧ Rfc1123At data) := by
  rw [http_date_ok_iff]
  unfold Rfc1123At isDigit
  constructor
  · rintro ⟨_, t, i, i1, i2, i3, i4, hw, hb, hs, h1, h2, h3', h4, h5⟩
    obtain ⟨hwk, hc⟩ := http_date_weekday_post data t i hw
    rcases hc with ⟨rfl, rfl, _⟩ | ⟨_, _, h32⟩ | ⟨_, h44, _⟩
    · simp [http_date_badlen] at hb
      rw [http_date_day_rfc1123] at h1
      obtain ⟨a1, a2, a3, a4, a5, rfl⟩ := h1
      rw [http_date_month_iff] at h2
      obtain ⟨hm, rfl⟩ := h2
      rw [http_date_year_rfc1123] at h3'
      obtain ⟨b1, b2, b3, b4, b5, b6, b7, b8, b9, b10, rfl⟩ := h3'
      rw [http_date_time_iff] at h4
      obtain ⟨c1, c2, c3, c4, c5, c6, c7, c8, c9, c10, c11, c12, c13, c14, c15, rfl⟩ := h4
      rw [http_date_tail_gmt data RFC1123 (by decide)] at h5
      obtain ⟨e1, e2, e3, _⟩ := h5
      simp only [Nat.reduceAdd, Nat.add_assoc] at *
      exact ⟨hb, hwk, h3, hs, ⟨a1, a2⟩, ⟨a3, a4⟩, a5, hm, b1, ⟨b2, b3⟩, ⟨b4, b5⟩, ⟨b6, b7⟩,
        ⟨b8, b9⟩, b10, ⟨c1, c2⟩, ⟨c3, c4⟩, c5, ⟨c6, c7⟩, ⟨c8, c9⟩, c10, ⟨c11, c12⟩,
        ⟨c13, c14⟩, c15, e1, e2, e3⟩
    · omega
    · omega
  · rintro ⟨rfl, hwk, _, hs, ⟨a1, a2⟩, ⟨a3, a4⟩, a5, hm, b1, ⟨b2, b3⟩, ⟨b4, b5⟩, ⟨b6, b7⟩,
        ⟨b8, b9⟩, b10, ⟨c1, c2⟩, ⟨c3, c4⟩, c5, ⟨c6, c7⟩, ⟨c8, c9⟩, c10, ⟨c11, c12⟩,
        ⟨c13, c14⟩, c15, e1, e2, e3⟩
    refine ⟨by omega, RFC1123, 4, 8, 11, 17, 26, http_date_weekday_rfc1123 data hwk h3,
      by decide, hs, ?_, ?_, ?_, ?_, ?_⟩
    · rw [http_date_day_rfc1123]
      exact ⟨a1, a2, a3, a4, a5, rfl⟩
    · rw [http_date_month_iff]
      exact ⟨hm, rfl⟩
    · rw [http_date_year_rfc1123]
      exact ⟨b1, b2, b3, b4, b5, b6, b7, b8, b9, b10, rfl⟩
    · rw [http_date_time_iff]
      exact ⟨c1, c2, c3, c4, c5, c6, c7, c8, c9, c10, c11, c12, c13, c14, c15, rfl⟩
    · rw [http_date_tail_gmt data RFC1123 (by decide)]
      exact ⟨e1, e2, e3, rfl⟩

theorem rfc1123Shape_iff_at (v : List Nat) :
    Rfc1123Shape v ↔ (v.length = 29 ∧ Rfc1123At v) := by
  have e1 : bytes ", " = [44, 32] := by decide
  have e2 : bytes " " = [32] := by decide
  have e3 : bytes ":" = [58] := by decide
  have e4 : bytes " GMT" = [32, 71, 77, 84] := by decide
  constructor
  · rintro ⟨wkd, mon, d1, d2, y1, y2, y3, y4, h1, h2, m1, m2, s1, s2, hw, hm, hd1, hd2, hy1,
      hy2, hy3, hy4, hh1, hh2, hm1, hm2, hs1, hs2, rfl⟩
    obtain ⟨a, b, c, rfl, hw'⟩ := (mem_weekday_names wkd).mp hw
    obtain ⟨x, y, z, rfl, hm'⟩ := (mem_month_names mon).mp hm
    rw [e1, e2, e3, e4]
    refine ⟨by simp, ?_⟩
    unfold Rfc1123At WeekdayAt MonthAt
    simp only [rd, List.cons_append, List.nil_append, List.getD_cons_zero, List.getD_cons_succ,
      Nat.reduceAdd]
    exact ⟨hw', trivial, trivial, hd1, hd2, trivial, hm', trivial, hy1, hy2, hy3, hy4,
      trivial, hh1, hh2, trivial, hm1, hm2, trivial, hs1, hs2, trivial, trivial, trivial,
      trivial⟩
  · rintro ⟨hlen, hwk, g3, g4, g5, g6, g7, hmo, g11, g12, g13, g14, g15, g16, g17, g18, g19,
      g20, g21, g22, g23, g24, g25, g26, g27, g28⟩
    refine ⟨[rd v 0, rd v 1, rd v 2], [rd v 8, rd v 9, rd v 10], rd v 5, rd v 6, rd v 12,
      rd v 13, rd v 14, rd v 15, rd v 17, rd v 18, rd v 20, rd v 21, rd v 23, rd v 24,
      (mem_weekday_names _).mpr ⟨_, _, _, rfl, hwk⟩,
      (mem_month_names _).mpr ⟨_, _, _, rfl, hmo⟩,
      g5, g6, g12, g13, g14, g15, g17, g18, g20, g21, g23, g24, ?_⟩
    rw [e1, e2, e3, e4]
    have hv := list_eq_map_rd v
    rw [hlen] at hv
    have hr : List.range 29 = [0, 1, 2, 3, 4, 5, 6, 7, 8, 9, 10, 11, 12, 13, 14, 15, 16, 17,
      18, 19, 20, 21, 22, 23, 24, 25, 26, 27, 28] := by decide
    rw [hr] at hv
    simp only [List.map_cons, List.map_nil, g3, g4, g7, g11, g16, g19, g22, g25, g26, g27,
      g28] at hv
    simpa using hv

/-- C7: a value whose fourth byte is `,` is accepted by `validate_http_date` exactly when it
is 29 bytes of the shape `Wkd, DD Mon YYYY HH:MM:SS GMT` (weekday and month abbreviations,
digit positions only digit-checked, separators and `GMT` in place). -/
theorem validate_http_date_rfc1123 (v : List Nat) (h3 : rd v 3 = 44) :
    validate_http_date v = NGX_OK ↔ Rfc1123Shape v := by
  unfold validate_http_date
  rw [http_date_rfc1123_iff v v.length h3, rfc1123Shape_iff_at]

theorem validate_http_date_rfc1123_witness :
    rd (bytes "Sun, 06 Nov 1994 08:49:37 GMT") 3 = 44 ∧
    (validate_http_date (bytes "Sun, 06 Nov 1994 08:49:37 GMT") = NGX_OK ↔
      Rfc1123Shape (bytes "Sun, 06 Nov 1994 08:49:37 GMT")) ∧
    validate_http_date (bytes "Sun, 06 Nov 1994 08:49:37 GMT") = NGX_OK ∧
    validate_http_date (bytes "Mon, 99 Jan 0000 99:99:99 GMT") = NGX_OK :=
  ⟨by decide, validate_http_date_rfc1123 _ (by decide), by decide, by decide⟩

/-! ## Range: the state machine and the grammar -/

theorem ngx_uint_mod_eq : NGX_UINT_MOD = 18446744073709551616 := by decide

theorem range_header_finish_ok (s : range_vars) :
    range_header_finish s = NGX_OK ↔ SetDone s := by
  unfold range_header_finish SetDone
  rcases s with ⟨a, b, sc, rc, st⟩
  cases st <;> simp [ngx_error_ne_ok]
  all_goals (split_ifs with h <;> simp [ngx_error_ne_ok] <;> omega)

theorem range_switch_comma (s : range_vars) :
    FreshSet (range_header_switch s 44) ∧
    (range_header_switch s 44).setcount = (s.setcount + 1) % NGX_UINT_MOD ∧
    ((range_header_switch s 44).rc = NGX_OK ↔ SetDone s) := by
  unfold range_header_switch SetDone FreshSet
  rcases s with ⟨a, b, sc, rc, st⟩
  cases st <;> simp [ngx_error_ne_ok]
  all_goals (split_ifs with h <;> simp [ngx_error_ne_ok] <;> omega)

theorem range_switch_rc (s : range_vars) (c : Nat)
    (h : (range_header_switch s c).rc = NGX_OK) : s.rc = NGX_OK := by
  unfold range_header_switch at h
  rcases s with ⟨a, b, sc, rc, st⟩
  simp only at h
  split_ifs at h <;> first | exact h | exact absurd h ngx_error_ne_ok

theorem range_switch_setcount (s : range_vars) (c : Nat) (hc : c ≠ 44) :
    (range_header_switch s c).setcount = s.setcount := by
  unfold range_header_switch
  rw [if_neg hc]
  split_ifs <;> rfl

theorem range_loop_append (m : Nat) (xs ys : List Nat) (s : range_vars) :
    range_header_loop m (xs ++ ys) s =
      (range_header_loop m xs s).bind (range_header_loop m ys) := by
  induction xs generalizing s with
  | nil => rfl
  | cons c cs ih =>
    simp only [List.cons_append, range_header_loop]
    split_ifs
    · rfl
    · exact ih _

theorem range_loop_rc (m : Nat) (cs : List Nat) (s s' : range_vars)
    (h : range_header_loop m cs s = some s') (hrc : s'.rc = NGX_OK) : s.rc = NGX_OK := by
  induction cs generalizing s with
  | nil =>
    simp only [range_header_loop, Option.some.injEq] at h
    rw [h]; exact hrc
  | cons c cs ih =>
    simp only [range_header_loop] at h
    split_ifs at h
    exact range_switch_rc s c (ih _ h)

theorem decval_snoc (ds : List Nat) (c : Nat) :
    decval (ds ++ [c]) = decval ds * 10 + (c - 48) := by
  simp [decval, decfold, List.foldl_append]

theorem allDigits_nil : allDigits [] := by
  intro d hd
  cases hd

theorem allDigits_singleton (c : Nat) (hc : 48 ≤ c ∧ c ≤ 57) : allDigits [c] := by
  intro d hd
  rw [List.mem_singleton.mp hd]
  exact hc

theorem allDigits_snoc (ds : List Nat) (c : Nat) (h : allDigits ds) (hc : 48 ≤ c ∧ c ≤ 57) :
    allDigits (ds ++ [c]) := by
  intro d hd
  rcases List.mem_append.mp hd with hd | hd
  · exact h d hd
  · rw [List.mem_singleton.mp hd]; exact hc

theorem mod_step (x c : Nat) :
    (x % NGX_UINT_MOD * 10 + (c - 48)) % NGX_UINT_MOD = (x * 10 + (c - 48)) % NGX_UINT_MOD := by
  rw [ngx_uint_mod_eq]
  omega

theorem switch_digit_first (a b sc : Nat) (rc : Int) (st : range_header_states) (c : Nat)
    (hd : 48 ≤ c ∧ c ≤ 57) (hst : st = RHS_NEWSET ∨ st = RHS_NUM1) :
    range_header_switch ⟨a, b, sc, rc, st⟩ c =
      ⟨(a * 10 + (c - 48)) % NGX_UINT_MOD, b, sc, rc, RHS_NUM1⟩ := by
  have hc : c ≠ 44 := by omega
  simp [range_header_switch, hc, hd, hst]

theorem switch_digit_last (a b sc : Nat) (rc : Int) (st : range_header_states) (c : Nat)
    (hd : 48 ≤ c ∧ c ≤ 57) (hst : st = DELIM ∨ st = RHS_NUM2) :
    range_header_switch ⟨a, b, sc, rc, st⟩ c =
      ⟨a, (b * 10 + (c - 48)) % NGX_UINT_MOD, sc, rc, RHS_NUM2⟩ := by
  have hc : c ≠ 44 := by omega
  rcases hst with rfl | rfl <;> simp [range_header_switch, hc, hd]

theorem switch_digit_suffix (a b sc : Nat) (rc : Int) (st : range_header_states) (c : Nat)
    (hd : 48 ≤ c ∧ c ≤ 57) (hst : st = RHS_SUFDELIM ∨ st = RHS_SUFNUM) :
    range_header_switch ⟨a, b, sc, rc, st⟩ c = ⟨a, b, sc, rc, RHS_SUFNUM⟩ := by
  have hc : c ≠ 44 := by omega
  rcases hst with rfl | rfl <;> simp [range_header_switch, hc, hd]

theorem switch_dash_newset (a b sc : Nat) (rc : Int) :
    range_header_switch ⟨a, b, sc, rc, RHS_NEWSET⟩ 45 = ⟨a, b, sc, rc, RHS_SUFDELIM⟩ := by
  simp [range_header_switch]

theorem switch_dash_num1 (a b sc : Nat) (rc : Int) :
    range_header_switch ⟨a, b, sc, rc, RHS_NUM1⟩ 45 = ⟨a, b, sc, rc, DELIM⟩ := by
  simp [range_header_switch]

theorem switch_dash_other (a b sc : Nat) (rc : Int) (st : range_header_states)
    (h1 : st ≠ RHS_NEWSET) (h2 : st ≠ RHS_NUM1) :
    (range_header_switch ⟨a, b, sc, rc, st⟩ 45).rc = NGX_ERROR := by
  simp [range_header_switch, h1, h2]

theorem switch_other (s : range_vars) (c : Nat) (hc : c ≠ 44) (hd : ¬ (48 ≤ c ∧ c ≤ 57))
    (h45 : c ≠ 45) : (range_header_switch s c).rc = NGX_ERROR := by
  simp only [range_header_switch, if_neg hc, if_neg hd, if_neg h45]

theorem segPre_step (p : List Nat) (s : range_vars) (c : Nat) (hp : SegPre p s)
    (hc : c ≠ 44) (hrc : (range_header_switch s c).rc = NGX_OK) :
    SegPre (p ++ [c]) (range_header_switch s c) := by
  rcases s with ⟨a, b, sc, rc, st⟩
  unfold SegPre at hp ⊢
  simp only at hp
  by_cases hd : 48 ≤ c ∧ c ≤ 57
  · rcases hp with ⟨h1, h2, h3, h4⟩ | ⟨h1, h2, h3, h4, h5⟩ | ⟨h1, f, h2, h3, h4, h5, h6⟩ |
      ⟨h1, f, l, h2, h3, h4, h5, h6, h7, h8⟩ | ⟨h1, h2⟩ | ⟨h1, n, h2, h3, h4⟩
    · subst h1 h2 h3 h4
      rw [switch_digit_first _ _ _ _ _ _ hd (Or.inl rfl)]
      right; left
      exact ⟨rfl, by simp, allDigits_singleton c hd, by simp [decval, decfold], rfl⟩
    · subst h1 h4 h5
      rw [switch_digit_first _ _ _ _ _ _ hd (Or.inr rfl)]
      right; left
      exact ⟨rfl, by simp, allDigits_snoc p c h3 hd, by rw [decval_snoc, mod_step], rfl⟩
    · subst h1 h4 h5 h6
      rw [switch_digit_last _ _ _ _ _ _ hd (Or.inl rfl)]
      right; right; right; left
      exact ⟨rfl, f, [c], h2, by simp, h3, allDigits_singleton c hd, by simp, rfl,
        by simp [decval, decfold]⟩
    · subst h1 h6 h7 h8
      rw [switch_digit_last _ _ _ _ _ _ hd (Or.inr rfl)]
      right; right; right; left
      exact ⟨rfl, f, l ++ [c], h2, by simp, h4, allDigits_snoc l c h5 hd, by simp, rfl,
        by rw [decval_snoc, mod_step]⟩
    · subst h1 h2
      rw [switch_digit_suffix _ _ _ _ _ _ hd (Or.inl rfl)]
      right; right; right; right; right
      exact ⟨rfl, [c], by simp, allDigits_singleton c hd, by simp⟩
    · subst h1 h4
      rw [switch_digit_suffix _ _ _ _ _ _ hd (Or.inr rfl)]
      right; right; right; right; right
      exact ⟨rfl, n ++ [c], by simp, allDigits_snoc n c h3 hd, by simp⟩
  · by_cases h45 : c = 45
    · subst h45
      rcases hp with ⟨h1, h2, h3, h4⟩ | ⟨h1, h2, h3, h4, h5⟩ | ⟨h1, f, h2, h3, h4, h5, h6⟩ |
        ⟨h1, f, l, h2, h3, h4, h5, h6, h7, h8⟩ | ⟨h1, h2⟩ | ⟨h1, n, h2, h3, h4⟩
      · subst h1 h2
        rw [switch_dash_newset]
        right; right; right; right; left
        exact ⟨rfl, by simp⟩
      · subst h1
        rw [switch_dash_num1]
        right; right; left
        exact ⟨rfl, p, h2, h3, rfl, h4, h5⟩
      all_goals
        subst h1
        rw [switch_dash_other _ _ _ _ _ (by decide) (by decide)] at hrc
        exact absurd hrc ngx_error_ne_ok
    · rw [switch_other _ _ hc hd h45] at hrc
      exact absurd hrc ngx_error_ne_ok

theorem segPre_done (t : List Nat) (s : range_vars) (hp : SegPre t s) (hd : SetDone s) :
    GoodSetMod t := by
  unfold SegPre at hp
  unfold SetDone at hd
  obtain ⟨_, hst, hab⟩ := hd
  unfold GoodSetMod
  rcases hp with ⟨h1, h2, h3, h4⟩ | ⟨h1, h2, h3, h4, h5⟩ | ⟨h1, f, h2, h3, h4, h5, h6⟩ |
    ⟨h1, f, l, h2, h3, h4, h5, h6, h7, h8⟩ | ⟨h1, h2⟩ | ⟨h1, n, h2, h3, h4⟩
  · rw [h1] at hst; simp at hst
  · rw [h1] at hst; simp at hst
  · left
    exact ⟨f, [], h2, h3, allDigits_nil, by simpa using h4, by simp⟩
  · left
    refine ⟨f, l, h2, h4, h5, h6, fun _ => ?_⟩
    have := hab h1
    rw [h7, h8] at this
    exact this
  · rw [h1] at hst; simp at hst
  · right
    exact ⟨n, h2, h3, h4⟩

theorem intercalate_singleton (sep x : List Nat) : List.intercalate sep [x] = x := by
  simp [List.intercalate, List.intersperse]

theorem intercalate_cons_cons (sep x y : List Nat) (zs : List (List Nat)) :
    List.intercalate sep (x :: y :: zs) = x ++ sep ++ List.intercalate sep (y :: zs) := by
  simp [List.intercalate, List.intersperse]

theorem intercalate_head_cons (sep x : List Nat) (c : Nat) (zs : List (List Nat)) :
    List.intercalate sep ((c :: x) :: zs) = c :: List.intercalate sep (x :: zs) := by
  cases zs with
  | nil => simp [intercalate_singleton]
  | cons y ys => simp [intercalate_cons_cons]

theorem segPre_fresh (s : range_vars) (h : FreshSet s) : SegPre [] s :=
  Or.inl ⟨h.1, rfl, h.2.1, h.2.2⟩

theorem range_loop_decompose (m : Nat) (cs : List Nat) :
    ∀ (s s' : range_vars) (p : List Nat), SegPre p s → range_header_loop m cs s = some s' →
      SetDone s' →
      ∃ cur sets, cs = List.intercalate [44] (cur :: sets) ∧ GoodSetMod (p ++ cur) ∧
        (∀ t ∈ sets, GoodSetMod t) ∧ sets.length = cs.count 44 := by
  induction cs with
  | nil =>
    intro s s' p hp h hd
    simp only [range_header_loop, Option.some.injEq] at h
    subst h
    exact ⟨[], [], by simp [intercalate_singleton], by simpa using segPre_done p s hp hd,
      by simp, by simp⟩
  | cons c cs ih =>
    intro s s' p hp h hd
    simp only [range_header_loop] at h
    split_ifs at h
    have hrc1 : (range_header_switch s c).rc = NGX_OK := range_loop_rc m cs _ s' h hd.1
    by_cases hc : c = 44
    · subst hc
      obtain ⟨hfresh, _, hdone⟩ := range_switch_comma s
      have hgood : GoodSetMod p := segPre_done p s hp (hdone.mp hrc1)
      obtain ⟨cur, sets, hcs, hcur, hsets, hlen⟩ :=
        ih _ s' [] (segPre_fresh _ hfresh) h hd
      refine ⟨[], cur :: sets, ?_, by simpa using hgood, ?_, ?_⟩
      · rw [intercalate_cons_cons, ← hcs]; rfl
      · intro t ht
        rcases List.mem_cons.mp ht with rfl | ht
        · simpa using hcur
        · exact hsets t ht
      · simp [hlen]
    · obtain ⟨cur, sets, hcs, hcur, hsets, hlen⟩ :=
        ih _ s' (p ++ [c]) (segPre_step p s c hp hc hrc1) h hd
      refine ⟨c :: cur, sets, ?_, by simpa using hcur, hsets, ?_⟩
      · rw [intercalate_head_cons, ← hcs]
      · rw [hlen, List.count_cons_of_ne (Ne.symm hc)]

theorem range_loop_setcount (m : Nat) (cs : List Nat) :
    ∀ (s s' : range_vars), s.setcount + cs.length < NGX_UINT_MOD →
      range_header_loop m cs s = some s' →
      s'.setcount = s.setcount + cs.count 44 ∧ (cs ≠ [] → s'.setcount ≤ m) := by
  induction cs with
  | nil =>
    intro s s' _ h
    simp only [range_header_loop, Option.some.injEq] at h
    subst h
    simp
  | cons c cs ih =>
    intro s s' hlen h
    simp only [range_header_loop] at h
    split_ifs at h with hex
    simp only [List.length_cons] at hlen
    have hsc : (range_header_switch s c).setcount = s.setcount + (if c = 44 then 1 else 0) := by
      by_cases hc : c = 44
      · subst hc
        rw [(range_switch_comma s).2.1, if_pos rfl, Nat.mod_eq_of_lt (by omega)]
      · rw [range_switch_setcount s c hc, if_neg hc]; rfl
    obtain ⟨h1, h2⟩ := ih _ s' (by rw [hsc]; split_ifs <;> omega) h
    constructor
    · rw [h1, hsc]
      by_cases hc : c = 44
      · subst hc; simp; omega
      · rw [if_neg hc, List.count_cons_of_ne (Ne.symm hc)]; rfl
    · intro _
      cases cs with
      | nil =>
        simp only [range_header_loop, Option.some.injEq] at h
        subst h
        omega
      | cons d ds => exact h2 (by simp)

theorem decfold_mod (ds : List Nat) :
    ∀ x y : Nat, x % NGX_UINT_MOD = y % NGX_UINT_MOD →
      decfold x ds % NGX_UINT_MOD = decfold y ds % NGX_UINT_MOD := by
  induction ds with
  | nil => intro x y h; exact h
  | cons d ds ih =>
    intro x y h
    simp only [decfold, List.foldl_cons]
    apply ih
    rw [ngx_uint_mod_eq] at h ⊢
    omega

theorem decval_cons (d : Nat) (ds : List Nat) :
    decval (d :: ds) = decfold (0 * 10 + (d - 48)) ds := rfl

theorem range_loop_cons (m : Nat) (c : Nat) (cs : List Nat) (s : range_vars)
    (h : (range_header_switch s c).setcount ≤ m) :
    range_header_loop m (c :: cs) s = range_header_loop m cs (range_header_switch s c) := by
  simp only [range_header_loop]
  rw [if_neg (by omega)]

theorem range_loop_digits_first (m : Nat) (ds : List Nat) :
    ∀ (a b sc : Nat) (rc : Int), allDigits ds → sc ≤ m → a < NGX_UINT_MOD →
      range_header_loop m ds ⟨a, b, sc, rc, RHS_NUM1⟩ =
        some ⟨decfold a ds % NGX_UINT_MOD, b, sc, rc, RHS_NUM1⟩ := by
  induction ds with
  | nil =>
    intro a b sc rc _ _ ha
    simp [range_header_loop, decfold, Nat.mod_eq_of_lt ha]
  | cons d ds ih =>
    intro a b sc rc hd hsc ha
    have hd1 : 48 ≤ d ∧ d ≤ 57 := hd d (by simp)
    have hds : allDigits ds := fun x hx => hd x (by simp [hx])
    rw [range_loop_cons m d ds _ (by rw [switch_digit_first _ _ _ _ _ _ hd1 (Or.inr rfl)]; exact hsc),
      switch_digit_first _ _ _ _ _ _ hd1 (Or.inr rfl),
      ih _ _ _ _ hds hsc (Nat.mod_lt _ (by decide))]
    simp only [decfold, List.foldl_cons]
    congr 2
    exact decfold_mod ds _ _ (Nat.mod_mod _ _)

theorem range_loop_digits_last (m : Nat) (ds : List Nat) :
    ∀ (a b sc : Nat) (rc : Int), allDigits ds → sc ≤ m → b < NGX_UINT_MOD →
      range_header_loop m ds ⟨a, b, sc, rc, RHS_NUM2⟩ =
        some ⟨a, decfold b ds % NGX_UINT_MOD, sc, rc, RHS_NUM2⟩ := by
  induction ds with
  | nil =>
    intro a b sc rc _ _ hb
    simp [range_header_loop, decfold, Nat.mod_eq_of_lt hb]
  | cons d ds ih =>
    intro a b sc rc hd hsc hb
    have hd1 : 48 ≤ d ∧ d ≤ 57 := hd d (by simp)
    have hds : allDigits ds := fun x hx => hd x (by simp [hx])
    rw [range_loop_cons m d ds _ (by rw [switch_digit_last _ _ _ _ _ _ hd1 (Or.inr rfl)]; exact hsc),
      switch_digit_last _ _ _ _ _ _ hd1 (Or.inr rfl),
      ih _ _ _ _ hds hsc (Nat.mod_lt _ (by decide))]
    simp only [decfold, List.foldl_cons]
    congr 2
    exact decfold_mod ds _ _ (Nat.mod_mod _ _)

theorem range_loop_digits_suffix (m : Nat) (ds : List Nat) :
    ∀ (a b sc : Nat) (rc : Int), allDigits ds → sc ≤ m →
      range_header_loop m ds ⟨a, b, sc, rc, RHS_SUFNUM⟩ = some ⟨a, b, sc, rc, RHS_SUFNUM⟩ := by
  induction ds with
  | nil => intro a b sc rc _ _; rfl
  | cons d ds ih =>
    intro a b sc rc hd hsc
    have hd1 : 48 ≤ d ∧ d ≤ 57 := hd d (by simp)
    have hds : allDigits ds := fun x hx => hd x (by simp [hx])
    rw [range_loop_cons m d ds _ (by rw [switch_digit_suffix _ _ _ _ _ _ hd1 (Or.inr rfl)]; exact hsc),
      switch_digit_suffix _ _ _ _ _ _ hd1 (Or.inr rfl), ih _ _ _ _ hds hsc]

/-- Reading `first-` from the start of a set. -/
theorem range_loop_first_dash (m : Nat) (f : List Nat) (sc : Nat) (rc : Int)
    (hf : f ≠ []) (hfd : allDigits f) (hsc : sc ≤ m) :
    range_header_loop m (f ++ [45]) ⟨0, 0, sc, rc, RHS_NEWSET⟩ =
      some ⟨decval f % NGX_UINT_MOD, 0, sc, rc, DELIM⟩ := by
  cases f with
  | nil => exact absurd rfl hf
  | cons d ds =>
    have hd1 : 48 ≤ d ∧ d ≤ 57 := hfd d (by simp)
    have hds : allDigits ds := fun x hx => hfd x (by simp [hx])
    rw [List.cons_append,
      range_loop_cons m d _ _ (by rw [switch_digit_first _ _ _ _ _ _ hd1 (Or.inl rfl)]; exact hsc),
      switch_digit_first _ _ _ _ _ _ hd1 (Or.inl rfl), range_loop_append,
      range_loop_digits_first m ds _ _ _ _ hds hsc (Nat.mod_lt _ (by decide))]
    simp only [Option.some_bind]
    rw [range_loop_cons m 45 [] _ (by rw [switch_dash_num1]; exact hsc), switch_dash_num1]
    simp only [range_header_loop, Option.some.injEq, range_vars.mk.injEq, and_true, true_and]
    rw [decval_cons]
    exact decfold_mod ds _ _ (Nat.mod_mod _ _)

/-- Reading `first-last` from the start of a set. -/
theorem range_loop_bounded (m : Nat) (f l : List Nat) (sc : Nat) (rc : Int)
    (hf : f ≠ []) (hfd : allDigits f) (hl : l ≠ []) (hld : allDigits l) (hsc : sc ≤ m) :
    range_header_loop m (f ++ [45] ++ l) ⟨0, 0, sc, rc, RHS_NEWSET⟩ =
      some ⟨decval f % NGX_UINT_MOD, decval l % NGX_UINT_MOD, sc, rc, RHS_NUM2⟩ := by
  rw [range_loop_append, range_loop_first_dash m f sc rc hf hfd hsc]
  simp only [Option.some_bind]
  cases l with
  | nil => exact absurd rfl hl
  | cons d ds =>
    have hd1 : 48 ≤ d ∧ d ≤ 57 := hld d (by simp)
    have hds : allDigits ds := fun x hx => hld x (by simp [hx])
    rw [range_loop_cons m d _ _ (by rw [switch_digit_last _ _ _ _ _ _ hd1 (Or.inl rfl)]; exact hsc),
      switch_digit_last _ _ _ _ _ _ hd1 (Or.inl rfl),
      range_loop_digits_last m ds _ _ _ _ hds hsc (Nat.mod_lt _ (by decide))]
    simp only [Option.some.injEq, range_vars.mk.injEq, and_true, true_and]
    rw [decval_cons]
    exact decfold_mod ds _ _ (Nat.mod_mod _ _)

/-- Reading `-suffix` from the start of a set. -/
theorem range_loop_suffix (m : Nat) (n : List Nat) (sc : Nat) (rc : Int)
    (hn : n ≠ []) (hnd : allDigits n) (hsc : sc ≤ m) :
    range_header_loop m (45 :: n) ⟨0, 0, sc, rc, RHS_NEWSET⟩ =
      some ⟨0, 0, sc, rc, RHS_SUFNUM⟩ := by
  rw [range_loop_cons m 45 _ _ (by rw [switch_dash_newset]; exact hsc), switch_dash_newset]
  cases n with
  | nil => exact absurd rfl hn
  | cons d ds =>
    have hd1 : 48 ≤ d ∧ d ≤ 57 := hnd d (by simp)
    have hds : allDigits ds := fun x hx => hnd x (by simp [hx])
    rw [range_loop_cons m d _ _ (by rw [switch_digit_suffix _ _ _ _ _ _ hd1 (Or.inl rfl)]; exact hsc),
      switch_digit_suffix _ _ _ _ _ _ hd1 (Or.inl rfl),
      range_loop_digits_suffix m ds _ _ _ _ hds hsc]

theorem goodSet_mod (t : List Nat) (h : GoodSet t) : GoodSetMod t := by
  rcases h with ⟨f, l, hf, hl, hfd, hld, hle, hlt, rfl⟩ | ⟨f, hf, hfd, rfl⟩ | ⟨n, hn, hnd, rfl⟩
  · left
    refine ⟨f, l, hf, hfd, hld, rfl, fun _ => ?_⟩
    rw [Nat.mod_eq_of_lt hlt, Nat.mod_eq_of_lt (lt_of_le_of_lt hle hlt)]
    exact hle
  · left
    exact ⟨f, [], hf, hfd, allDigits_nil, by simp, fun h => absurd rfl h⟩
  · right
    exact ⟨n, hn, hnd, rfl⟩

theorem goodSetMod_isSet (t : List Nat) (h : GoodSetMod t) : IsByteRangeSet t := by
  rcases h with ⟨f, l, hf, hfd, hld, rfl, _⟩ | ⟨n, hn, hnd, rfl⟩
  · exact Or.inl ⟨f, l, hf, hfd, hld, rfl⟩
  · exact Or.inr ⟨n, hn, hnd, rfl⟩

theorem goodSetMod_ne_nil (t : List Nat) (h : GoodSetMod t) : t ≠ [] := by
  rcases h with ⟨f, l, hf, hfd, hld, rfl, _⟩ | ⟨n, hn, hnd, rfl⟩ <;> simp

/-- One good set read from the start of a set leaves the variables at a point where a
`,` or the end of the value keeps `rc` at `NGX_OK`. -/
theorem range_loop_good_set (m : Nat) (t : List Nat) (s : range_vars) (ht : GoodSetMod t)
    (hs : FreshSet s) (hrc : s.rc = NGX_OK) (hsc : s.setcount ≤ m) :
    ∃ s', range_header_loop m t s = some s' ∧ SetDone s' ∧ s'.setcount = s.setcount := by
  rcases s with ⟨a, b, sc, rc, st⟩
  obtain ⟨h1, h2, h3⟩ := hs
  simp only at h1 h2 h3 hrc hsc
  subst h1 h2 h3 hrc
  rcases ht with ⟨f, l, hf, hfd, hld, rfl, hle⟩ | ⟨n, hn, hnd, rfl⟩
  · by_cases hl : l = []
    · subst hl
      rw [List.append_nil, range_loop_first_dash m f sc _ hf hfd hsc]
      exact ⟨_, rfl, ⟨rfl, Or.inl rfl, by simp⟩, rfl⟩
    · rw [range_loop_bounded m f l sc _ hf hfd hl hld hsc]
      exact ⟨_, rfl, ⟨rfl, Or.inr (Or.inl rfl), fun _ => hle hl⟩, rfl⟩
  · rw [range_loop_suffix m n sc _ hn hnd hsc]
    exact ⟨_, rfl, ⟨rfl, Or.inr (Or.inr rfl), by simp⟩, rfl⟩

/-- A list of good sets joined by `,`, short enough for the limit, is read to the end. -/
theorem range_loop_good_sets (m : Nat) (sets : List (List Nat)) :
    ∀ (t : List Nat) (s : range_vars), GoodSetMod t → (∀ u ∈ sets, GoodSetMod u) →
      FreshSet s → s.rc = NGX_OK → s.setcount + sets.length ≤ m →
      ∃ s', range_header_loop m (List.intercalate [44] (t :: sets)) s = some s' ∧
        SetDone s' := by
  induction sets with
  | nil =>
    intro t s ht _ hs hrc hsc
    rw [intercalate_singleton]
    obtain ⟨s', h1, h2, _⟩ := range_loop_good_set m t s ht hs hrc (by simpa using hsc)
    exact ⟨s', h1, h2⟩
  | cons u us ih =>
    intro t s ht hsets hs hrc hsc
    simp only [List.length_cons] at hsc
    obtain ⟨s1, h1, hd1, hsc1⟩ := range_loop_good_set m t s ht hs hrc (by omega)
    obtain ⟨hfresh, hcnt, hdone⟩ := range_switch_comma s1
    have hle : (range_header_switch s1 44).setcount ≤ s.setcount + 1 := by
      rw [hcnt, hsc1]
      exact Nat.mod_le _ _
    obtain ⟨s', h2, hd2⟩ := ih u (range_header_switch s1 44) (hsets u (by simp))
      (fun w hw => hsets w (by simp [hw])) hfresh (hdone.mpr hd1) (by omega)
    refine ⟨s', ?_, hd2⟩
    rw [intercalate_cons_cons, List.append_assoc, range_loop_append, h1]
    simp only [Option.some_bind, List.singleton_append]
    rw [range_loop_cons m 44 _ _ (by omega)]
    exact h2

theorem range_switch_rc_cases (s : range_vars) (c : Nat) :
    (range_header_switch s c).rc = s.rc ∨ (range_header_switch s c).rc = NGX_ERROR := by
  unfold range_header_switch
  rcases s with ⟨a, b, sc, rc, st⟩
  simp only
  split_ifs <;> first | exact Or.inl rfl | exact Or.inr rfl

theorem range_loop_rc_cases (m : Nat) (cs : List Nat) :
    ∀ (s s' : range_vars), range_header_loop m cs s = some s' →
      s'.rc = s.rc ∨ s'.rc = NGX_ERROR := by
  induction cs with
  | nil =>
    intro s s' h
    simp only [range_header_loop, Option.some.injEq] at h
    subst h
    exact Or.inl rfl
  | cons c cs ih =>
    intro s s' h
    simp only [range_header_loop] at h
    split_ifs at h
    rcases ih _ s' h with h1 | h1
    · rcases range_switch_rc_cases s c with h2 | h2
      · exact Or.inl (h1.trans h2)
      · exact Or.inr (h1.trans h2)
    · exact Or.inr h1

theorem range_header_finish_cases (s : range_vars) :
    range_header_finish s = s.rc ∨ range_header_finish s = NGX_ERROR := by
  unfold range_header_finish
  simp only
  split_ifs <;> first | exact Or.inl rfl | exact Or.inr rfl

theorem range_header_ok_or_error (m : Nat) (v : List Nat) :
    ngx_header_inspect_range_header m v = NGX_OK ∨
      ngx_header_inspect_range_header m v = NGX_ERROR := by
  unfold ngx_header_inspect_range_header
  simp only
  rcases hloop : range_header_loop m (List.drop 6 v) _ with _ | s'
  · exact Or.inr rfl
  · simp only
    rcases range_header_finish_cases s' with h1 | h1
    · rcases range_loop_rc_cases m _ _ s' hloop with h2 | h2
      · rw [h1, h2]
        simp only
        split_ifs
        · exact Or.inr rfl
        · exact Or.inl rfl
      · exact Or.inr (h1.trans h2)
    · exact Or.inr h1

/-- What `NGX_OK` says about the run: the value starts with `bytes=`, the loop reaches the
end of the value, and the last set is complete. -/
theorem range_header_ok_iff (m : Nat) (v : List Nat) :
    ngx_header_inspect_range_header m v = NGX_OK ↔
      ∃ cs s', v = range_head ++ cs ∧
        range_header_loop m cs ⟨0, 0, 1, NGX_OK, RHS_NEWSET⟩ = some s' ∧ SetDone s' := by
  unfold ngx_header_inspect_range_header
  simp only
  constructor
  · intro h
    rcases hloop : range_header_loop m (List.drop 6 v) _ with _ | s'
    · rw [hloop] at h
      exact absurd h ngx_error_ne_ok
    · rw [hloop] at h
      simp only at h
      have hd : SetDone s' := (range_header_finish_ok s').mp h
      have hrc := range_loop_rc m _ _ s' hloop hd.1
      simp only at hrc
      split_ifs at hrc with hpre
      · exact absurd hrc ngx_error_ne_ok
      · rw [if_neg hpre] at hloop
        have hpre2 : List.take 6 v = range_head := by
          by_contra hne
          exact hpre (Or.inr hne)
        refine ⟨List.drop 6 v, s', ?_, hloop, hd⟩
        rw [← hpre2, List.take_append_drop]
  · rintro ⟨cs, s', rfl, hloop, hd⟩
    have h6 : range_head.length = 6 := rfl
    have hdrop : List.drop 6 (range_head ++ cs) = cs := by
      rw [← h6, List.drop_left]
    have htake : List.take 6 (range_head ++ cs) = range_head := by
      rw [← h6, List.take_left]
    have hpre : ¬ ((range_head ++ cs).length < 6 ∨ List.take 6 (range_head ++ cs) ≠ range_head) := by
      rw [htake, List.length_append, h6]
      simp
    rw [if_neg hpre, hdrop, hloop]
    exact (range_header_finish_ok s').mpr hd

theorem intercalate_cons_ne_nil (sep t : List Nat) (sets : List (List Nat)) (ht : t ≠ []) :
    List.intercalate sep (t :: sets) ≠ [] := by
  cases t with
  | nil => exact absurd rfl ht
  | cons c x => rw [intercalate_head_cons]; simp

theorem range_good_single (m : Nat) (t : List Nat) (ht : GoodSetMod t) (hm : 1 ≤ m) :
    ngx_header_inspect_range_header m (range_head ++ t) = NGX_OK := by
  rw [range_header_ok_iff]
  obtain ⟨s', h1, h2, _⟩ := range_loop_good_set m t ⟨0, 0, 1, NGX_OK, RHS_NEWSET⟩ ht
    ⟨rfl, rfl, rfl⟩ rfl hm
  exact ⟨t, s', rfl, h1, h2⟩

/-- C3: a value the Range validator accepts is `bytes=` followed by `k` comma-separated
byte-range sets, `1 <= k <= max_sets`, each `first-last`, `first-` or `-suffix` and nothing
else, and each set alone behind `bytes=` is accepted again.  The length of a value fits an
`ngx_uint_t` (`value.len` is one), so the set counter does not wrap. -/
theorem validate_range_ok_sets (v : List Nat) (m : Nat) (hlen : v.length < NGX_UINT_MOD)
    (h : validate_range v m = NGX_OK) :
    ∃ sets : List (List Nat), v = range_head ++ List.intercalate [44] sets ∧
      1 ≤ sets.length ∧ sets.length ≤ m ∧
      ∀ t ∈ sets, IsByteRangeSet t ∧ validate_range (range_head ++ t) m = NGX_OK := by
  unfold validate_range at h ⊢
  obtain ⟨cs, s', rfl, hloop, hd⟩ := (range_header_ok_iff m v).mp h
  obtain ⟨cur, sets, hcs, hcur, hsets, hcount⟩ :=
    range_loop_decompose m cs _ s' [] (segPre_fresh _ ⟨rfl, rfl, rfl⟩) hloop hd
  rw [List.nil_append] at hcur
  have hne : cs ≠ [] := by
    rw [hcs]
    exact intercalate_cons_ne_nil _ _ _ (goodSetMod_ne_nil cur hcur)
  have hlen2 : 1 + cs.length < NGX_UINT_MOD := by
    rw [List.length_append] at hlen
    have : range_head.length = 6 := rfl
    omega
  obtain ⟨hsc, hle⟩ := range_loop_setcount m cs _ s' hlen2 hloop
  have hle2 := hle hne
  rw [hsc] at hle2
  simp only at hle2
  have hk : (cur :: sets).length ≤ m := by
    rw [List.length_cons, hcount]
    omega
  refine ⟨cur :: sets, by rw [hcs], by simp, hk, ?_⟩
  intro t ht
  have hgood : GoodSetMod t := by
    rcases List.mem_cons.mp ht with rfl | ht
    · exact hcur
    · exact hsets t ht
  refine ⟨goodSetMod_isSet t hgood, range_good_single m t hgood ?_⟩
  simp only [List.length_cons] at hk
  omega

theorem validate_range_ok_sets_witness :
    (bytes "bytes=0-499,500-999").length < NGX_UINT_MOD ∧
    validate_range (bytes "bytes=0-499,500-999") 5 = NGX_OK ∧
    ∃ sets : List (List Nat),
      bytes "bytes=0-499,500-999" = range_head ++ List.intercalate [44] sets ∧
      1 ≤ sets.length ∧ sets.length ≤ 5 ∧
      ∀ t ∈ sets, IsByteRangeSet t ∧ validate_range (range_head ++ t) 5 = NGX_OK :=
  ⟨by decide, by decide,
    validate_range_ok_sets (bytes "bytes=0-499,500-999") 5 (by decide) (by decide)⟩

theorem count_range_head (cs : List Nat) :
    (range_head ++ cs).count 44 = cs.count 44 := by
  rw [List.count_append]
  have : range_head.count 44 = 0 := by decide
  omega

/-- C4: a value with more comma-separated pieces than `max_sets` (one more piece than it
has `,` bytes) is Malformed, whatever its other bytes are.  The length of a value fits an
`ngx_uint_t` (`value.len` is one), so the set counter does not wrap. -/
theorem validate_range_limit (v : List Nat) (m : Nat) (hlen : v.length < NGX_UINT_MOD)
    (hN : v.count 44 + 1 > m) : validate_range v m = NGX_ERROR := by
  unfold validate_range
  rcases range_header_ok_or_error m v with h | h
  · exfalso
    obtain ⟨cs, s', rfl, hloop, hd⟩ := (range_header_ok_iff m _).mp h
    have hlen2 : 1 + cs.length < NGX_UINT_MOD := by
      rw [List.length_append] at hlen
      have : range_head.length = 6 := rfl
      omega
    obtain ⟨hsc, hle⟩ := range_loop_setcount m cs _ s' hlen2 hloop
    have hne : cs ≠ [] := by
      rintro rfl
      simp only [range_header_loop, Option.some.injEq] at hloop
      subst hloop
      obtain ⟨_, hst, _⟩ := hd
      simp at hst
    have hle2 := hle hne
    rw [hsc] at hle2
    rw [count_range_head] at hN
    simp only at hle2
    omega
  · exact h

theorem validate_range_limit_witness :
    (bytes "bytes=0-1,2-3,4-5,6-7,8-9,10-11").length < NGX_UINT_MOD ∧
    (bytes "bytes=0-1,2-3,4-5,6-7,8-9,10-11").count 44 + 1 > 5 ∧
    validate_range (bytes "bytes=0-1,2-3,4-5,6-7,8-9,10-11") 5 = NGX_ERROR :=
  ⟨by decide, by decide,
    validate_range_limit (bytes "bytes=0-1,2-3,4-5,6-7,8-9,10-11") 5 (by decide) (by decide)⟩

/-- C5: `bytes=` followed by `k` good sets joined by `,`, `1 <= k <= max_sets`, is
accepted; a good set is `a-b` with `a <= b` below the word size, `a-`, or `-n`. -/
theorem validate_range_good_sets (m : Nat) (sets : List (List Nat))
    (hk1 : 1 ≤ sets.length) (hk2 : sets.length ≤ m) (hsets : ∀ t ∈ sets, GoodSet t) :
    validate_range (range_head ++ List.intercalate [44] sets) m = NGX_OK := by
  unfold validate_range
  cases sets with
  | nil => simp at hk1
  | cons t us =>
    rw [range_header_ok_iff]
    simp only [List.length_cons] at hk2
    obtain ⟨s', h1, h2⟩ := range_loop_good_sets m us t ⟨0, 0, 1, NGX_OK, RHS_NEWSET⟩
      (goodSet_mod t (hsets t (by simp)))
      (fun u hu => goodSet_mod u (hsets u (by simp [hu]))) ⟨rfl, rfl, rfl⟩ rfl
      (by simp only; omega)
    exact ⟨_, s', rfl, h1, h2⟩

theorem validate_range_good_sets_witness :
    range_head ++ List.intercalate [44] [bytes "0-499", bytes "500-999"] =
      bytes "bytes=0-499,500-999" ∧
    validate_range (range_head ++ List.intercalate [44] [bytes "0-499", bytes "500-999"]) 5 =
      NGX_OK :=
  ⟨by decide, validate_range_good_sets 5 [bytes "0-499", bytes "500-999"] (by decide)
    (by decide) (by
      intro t ht
      rcases List.mem_cons.mp ht with rfl | ht
      · exact Or.inl ⟨bytes "0", bytes "499", by decide, by decide, by decide, by decide,
          by decide, by decide, by decide⟩
      · rw [List.mem_singleton.mp ht]
        exact Or.inl ⟨bytes "500", bytes "999", by decide, by decide, by decide, by decide,
          by decide, by decide, by decide⟩)⟩

theorem range_head_of_take (q rest : List Nat)
    (h : List.take 6 (q ++ 44 :: rest) = range_head) : ∃ q', q = range_head ++ q' := by
  unfold range_head at h ⊢
  rcases q with _ | ⟨x0, _ | ⟨x1, _ | ⟨x2, _ | ⟨x3, _ | ⟨x4, _ | ⟨x5, q'⟩⟩⟩⟩⟩⟩
  all_goals simp at h
  obtain ⟨rfl, rfl, rfl, rfl, rfl, rfl⟩ := h
  exact ⟨q', rfl⟩

/-- In an accepted value every bounded set has `first <= last` for the values the two
accumulators hold, the decimal values modulo the word size. -/
theorem range_bounded_ordered (v : List Nat) (m : Nat) (f l : List Nat)
    (h : ngx_header_inspect_range_header m v = NGX_OK) (hb : BoundedSetIn v f l) :
    decval f % NGX_UINT_MOD ≤ decval l % NGX_UINT_MOD := by
  obtain ⟨cs, s', hv, hloop, hd⟩ := (range_header_ok_iff m v).mp h
  obtain ⟨hf, hl, hfd, hld, pre, post, hv2, hpre, hpost⟩ := hb
  -- the variables at the start of the set
  have step1 : ∃ s1, FreshSet s1 ∧
      range_header_loop m ((f ++ [45] ++ l) ++ post) s1 = some s' := by
    rcases hpre with rfl | ⟨q, rfl⟩
    · rw [hv, List.append_assoc] at hv2
      rw [List.append_cancel_left hv2] at hloop
      exact ⟨_, ⟨rfl, rfl, rfl⟩, hloop⟩
    · have htake : List.take 6 v = range_head := by
        rw [hv]
        exact List.take_left' rfl
      rw [hv2] at htake
      simp only [List.append_assoc, List.singleton_append] at htake
      obtain ⟨q', rfl⟩ := range_head_of_take q _ htake
      rw [hv] at hv2
      simp only [List.append_assoc] at hv2
      rw [List.append_cancel_left hv2, range_loop_append] at hloop
      rcases h0 : range_header_loop m q' ⟨0, 0, 1, NGX_OK, RHS_NEWSET⟩ with _ | s0
      · rw [h0] at hloop
        cases hloop
      · rw [h0] at hloop
        simp only [Option.some_bind, List.singleton_append, range_header_loop] at hloop
        split_ifs at hloop
        refine ⟨_, (range_switch_comma s0).1, ?_⟩
        simpa only [List.append_assoc, List.singleton_append] using hloop
  obtain ⟨s1, hfresh, hloop1⟩ := step1
  have hrc1 : s1.rc = NGX_OK := range_loop_rc m _ _ s' hloop1 hd.1
  have hsc1 : s1.setcount ≤ m := by
    cases f with
    | nil => exact absurd rfl hf
    | cons d ds =>
      have hd1 : 48 ≤ d ∧ d ≤ 57 := hfd d (by simp)
      simp only [List.cons_append, range_header_loop] at hloop1
      split_ifs at hloop1 with hex
      rw [range_switch_setcount s1 d (by omega)] at hex
      omega
  rcases s1 with ⟨a, b, sc, rc, st⟩
  obtain ⟨h1, h2, h3⟩ := hfresh
  simp only at h1 h2 h3 hrc1 hsc1
  subst h1 h2 h3 hrc1
  rw [range_loop_append, range_loop_bounded m f l sc _ hf hfd hl hld hsc1] at hloop1
  simp only [Option.some_bind] at hloop1
  rcases hpost with rfl | ⟨q, rfl⟩
  · simp only [range_header_loop, Option.some.injEq] at hloop1
    subst hloop1
    exact hd.2.2 rfl
  · simp only [range_header_loop] at hloop1
    split_ifs at hloop1
    have hrc2 := range_loop_rc m _ _ s' hloop1 hd.1
    exact ((range_switch_comma _).2.2.mp hrc2).2.2 rfl

/-- C2 (as amended): in an accepted value every bounded set `first-last` has
`first <= last` for the values the two 64 bit accumulators hold, that is for the decimal
values of the digit strings taken modulo `2 ^ 64`. -/
theorem validate_range_ordered_mod (v : List Nat) (m : Nat) (f l : List Nat)
    (h : validate_range v m = NGX_OK) (hb : BoundedSetIn v f l) :
    decval f % NGX_UINT_MOD ≤ decval l % NGX_UINT_MOD :=
  range_bounded_ordered v m f l h hb

theorem validate_range_ordered_mod_witness :
    validate_range (bytes "bytes=0-499,500-999") 5 = NGX_OK ∧
    BoundedSetIn (bytes "bytes=0-499,500-999") (bytes "500") (bytes "999") ∧
    decval (bytes "500") % NGX_UINT_MOD ≤ decval (bytes "999") % NGX_UINT_MOD :=
  have hb : BoundedSetIn (bytes "bytes=0-499,500-999") (bytes "500") (bytes "999") :=
    ⟨by decide, by decide, by decide, by decide, bytes "bytes=0-499,", [], by decide,
      Or.inr ⟨bytes "bytes=0-499", by decide⟩, Or.inl rfl⟩
  ⟨by decide, hb,
    validate_range_ordered_mod (bytes "bytes=0-499,500-999") 5 (bytes "500") (bytes "999")
      (by decide) hb⟩

/-- C2 fails as stated: `bytes=18446744073709551616-5` is accepted although its bounded
set has `first = 2 ^ 64 > 5 = last`; the accumulator `a` has wrapped to `0`. -/
theorem validate_range_ordered_counterexample :
    validate_range (bytes "bytes=18446744073709551616-5") 5 = NGX_OK ∧
    BoundedSetIn (bytes "bytes=18446744073709551616-5") (bytes "18446744073709551616")
      (bytes "5") ∧
    ¬ (decval (bytes "18446744073709551616") ≤ decval (bytes "5")) :=
  ⟨by decide,
    ⟨by decide, by decide, by decide, by decide, range_head, [], by decide, Or.inl rfl,
      Or.inl rfl⟩,
    by decide⟩

/-- C6: a value containing a bounded set `a-b` with `a > b`, both below the word size, is
Malformed whatever `max_sets` is. -/
theorem validate_range_misordered (v : List Nat) (m : Nat) (f l : List Nat)
    (hb : BoundedSetIn v f l) (hgt : decval f > decval l) (hfit : decval f < NGX_UINT_MOD) :
    validate_range v m = NGX_ERROR := by
  unfold validate_range
  rcases range_header_ok_or_error m v with h | h
  · exfalso
    have hle := range_bounded_ordered v m f l h hb
    rw [Nat.mod_eq_of_lt hfit, Nat.mod_eq_of_lt (lt_trans hgt hfit)] at hle
    omega
  · exact h

theorem validate_range_misordered_witness :
    BoundedSetIn (bytes "bytes=500-0") (bytes "500") (bytes "0") ∧
    decval (bytes "500") > decval (bytes "0") ∧ decval (bytes "500") < NGX_UINT_MOD ∧
    validate_range (bytes "bytes=500-0") 5 = NGX_ERROR :=
  have hb : BoundedSetIn (bytes "bytes=500-0") (bytes "500") (bytes "0") :=
    ⟨by decide, by decide, by decide, by decide, range_head, [], by decide, Or.inl rfl,
      Or.inl rfl⟩
  ⟨hb, by decide, by decide,
    validate_range_misordered (bytes "bytes=500-0") 5 (bytes "500") (bytes "0") hb
      (by decide) (by decide)⟩

/-! ## Accept-Encoding: the loop over the items -/

theorem acceptencoding_loop_end (data : List Nat) (len i : Nat) (h : ¬ i < len) :
    acceptencoding_loop data len i = NGX_ERROR := by
  rw [acceptencoding_loop, dif_neg h]

theorem acceptencoding_loop_break (data : List Nat) (len i : Nat) (rc : Int) (h : i < len)
    (hb : acceptencoding_body data len i = Sum.inl rc) :
    acceptencoding_loop data len i = rc := by
  rw [acceptencoding_loop, dif_pos h]
  split
  · rename_i rc' heq
    rw [hb] at heq
    exact (Sum.inl.inj heq).symm
  · rename_i j heq
    rw [hb] at heq
    cases heq

theorem acceptencoding_loop_next (data : List Nat) (len i j : Nat) (h : i < len)
    (hb : acceptencoding_body data len i = Sum.inr j) :
    acceptencoding_loop data len i = acceptencoding_loop data len j := by
  rw [acceptencoding_loop, dif_pos h]
  split
  · rename_i rc' heq
    rw [hb] at heq
    cases heq
  · rename_i j' heq
    rw [hb] at heq
    rw [Sum.inr.inj heq]

theorem suffix_zero (data : List Nat) : Suffix data 0 data := ⟨rfl, by simp⟩

theorem suffix_rd (data : List Nat) (i : Nat) (x : List Nat) (h : Suffix data i x) (k : Nat) :
    rd data (i + k) = rd x k := by
  obtain ⟨h1, _⟩ := h
  subst h1
  simp [rd, List.getD_eq_getElem?_getD, List.getElem?_drop]

theorem suffix_rd_zero (data : List Nat) (i : Nat) (x : List Nat) (h : Suffix data i x) :
    rd data i = rd x 0 := suffix_rd data i x h 0

theorem suffix_advance (data : List Nat) (i : Nat) (seg y : List Nat)
    (h : Suffix data i (seg ++ y)) : Suffix data (i + seg.length) y := by
  obtain ⟨h1, h2⟩ := h
  constructor
  · rw [← List.drop_drop, h1, List.drop_left]
  · rw [List.length_append] at h2
    omega

theorem suffix_len (data : List Nat) (i : Nat) (x : List Nat) (h : Suffix data i x) :
    data.length - i = x.length := by
  obtain ⟨_, h2⟩ := h
  omega

theorem suffix_end_iff (data : List Nat) (i : Nat) (x : List Nat) (h : Suffix data i x) :
    i = data.length ↔ x = [] := by
  obtain ⟨_, h2⟩ := h
  rw [← List.length_eq_zero]
  omega

theorem suffix_lt_iff (data : List Nat) (i : Nat) (x : List Nat) (h : Suffix data i x) :
    i < data.length ↔ x ≠ [] := by
  obtain ⟨_, h2⟩ := h
  rw [Ne, ← List.length_eq_zero]
  omega

theorem content_codings_eq : content_codings =
    [[42], [103, 122, 105, 112], [99, 111, 109, 112, 114, 101, 115, 115],
     [100, 101, 102, 108, 97, 116, 101], [105, 100, 101, 110, 116, 105, 116, 121],
     [101, 120, 105], [112, 97, 99, 107, 50, 48, 48, 45, 103, 122, 105, 112]] := by decide

theorem skip_space_eval (data : List Nat) (i : Nat) (sp y : List Nat)
    (h : Suffix data i (sp ++ y)) (hsp : OptSpace sp) (hy : sp = [] → rd y 0 ≠ 32) :
    acceptencoding_skip_space data data.length i = i + sp.length := by
  unfold acceptencoding_skip_space
  rw [suffix_rd_zero data i _ h]
  rcases hsp with rfl | rfl
  · rw [if_neg]
    · rfl
    · intro hc
      exact hy rfl hc.1
  · rw [if_pos]
    · rfl
    · exact ⟨rfl, (suffix_lt_iff data i _ h).mpr (by simp)⟩

theorem rd_cons_zero (a : Nat) (l : List Nat) : rd (a :: l) 0 = a := rfl

theorem rd_cons_succ (a : Nat) (l : List Nat) (n : Nat) : rd (a :: l) (n + 1) = rd l n := rfl

theorem rd_nil (n : Nat) : rd [] n = 0 := rfl

theorem parse_contentcoding_eval (data : List Nat) (i : Nat) (c y : List Nat)
    (h : Suffix data i (c ++ y)) (hc : c ∈ content_codings) :
    ngx_header_inspect_parse_contentcoding (data.drop i) (data.length - i) =
      (NGX_OK, c.length) := by
  rw [suffix_len data i _ h, h.1]
  rw [content_codings_eq] at hc
  simp only [List.mem_cons, List.mem_singleton, List.not_mem_nil, or_false] at hc
  rcases hc with rfl | rfl | rfl | rfl | rfl | rfl | rfl <;>
    simp [ngx_header_inspect_parse_contentcoding, rd_cons_zero]

theorem parse_qvalue_eval (data : List Nat) (i : Nat) (q y : List Nat)
    (h : Suffix data i (q ++ y)) (hq : IsQvalue q)
    (hy : rd y 0 ≠ 46 ∧ ¬ (48 ≤ rd y 0 ∧ rd y 0 ≤ 57)) :
    ngx_header_inspect_parse_qvalue (data.drop i) (data.length - i) = (NGX_OK, q.length) := by
  rw [suffix_len data i _ h, h.1]
  have e0 : bytes "q=0" = [113, 61, 48] := by decide
  have e1 : bytes "q=0." = [113, 61, 48, 46] := by decide
  have e2 : bytes "q=1" = [113, 61, 49] := by decide
  have e3 : bytes "q=1." = [113, 61, 49, 46] := by decide
  obtain ⟨hy1, hy2⟩ := hy
  have hy3 : rd y 0 < 48 ∨ 57 < rd y 0 := by omega
  have hy4 : rd y 0 ≠ 48 := by omega
  rcases hq with rfl | ⟨ds, hlen, hds, rfl⟩ | rfl | ⟨n, hn, rfl⟩
  · rw [e0]
    simp [ngx_header_inspect_parse_qvalue, rd_cons_zero, rd_cons_succ, hy1]
  · rw [e1]
    rcases ds with _ | ⟨d1, _ | ⟨d2, _ | ⟨d3, _ | ⟨d4, ds⟩⟩⟩⟩
    · simp [ngx_header_inspect_parse_qvalue, rd_cons_zero, rd_cons_succ, hy3]
    · have h1 : 48 ≤ d1 ∧ d1 ≤ 57 := hds d1 (by simp)
      have h1' : ¬ (d1 < 48 ∨ 57 < d1) := by omega
      simp [ngx_header_inspect_parse_qvalue, rd_cons_zero, rd_cons_succ, hy3, h1']
    · have h1 : 48 ≤ d1 ∧ d1 ≤ 57 := hds d1 (by simp)
      have h2 : 48 ≤ d2 ∧ d2 ≤ 57 := hds d2 (by simp)
      have h1' : ¬ (d1 < 48 ∨ 57 < d1) := by omega
      have h2' : ¬ (d2 < 48 ∨ 57 < d2) := by omega
      simp [ngx_header_inspect_parse_qvalue, rd_cons_zero, rd_cons_succ, hy3, h1', h2']
    · have h1 : 48 ≤ d1 ∧ d1 ≤ 57 := hds d1 (by simp)
      have h2 : 48 ≤ d2 ∧ d2 ≤ 57 := hds d2 (by simp)
      have h3 : 48 ≤ d3 ∧ d3 ≤ 57 := hds d3 (by simp)
      have h1' : ¬ (d1 < 48 ∨ 57 < d1) := by omega
      have h2' : ¬ (d2 < 48 ∨ 57 < d2) := by omega
      have h3' : ¬ (d3 < 48 ∨ 57 < d3) := by omega
      simp [ngx_header_inspect_parse_qvalue, rd_cons_zero, rd_cons_succ, h1', h2', h3']
    · simp at hlen
  · rw [e2]
    simp [ngx_header_inspect_parse_qvalue, rd_cons_zero, rd_cons_succ, hy1]
  · rw [e3]
    rcases n with _ | _ | _ | _ | n
    · simp [ngx_header_inspect_parse_qvalue, rd_cons_zero, rd_cons_succ, hy4]
    · simp [ngx_header_inspect_parse_qvalue, rd_cons_zero, rd_cons_succ, hy4,
        List.replicate]
    · simp [ngx_header_inspect_parse_qvalue, rd_cons_zero, rd_cons_succ, hy4,
        List.replicate]
    · simp [ngx_header_inspect_parse_qvalue, rd_cons_zero, rd_cons_succ, hy4,
        List.replicate]
    · omega

theorem acceptencoding_comma_eval (data : List Nat) (j : Nat) (sp z : List Nat)
    (h : Suffix data j (44 :: (sp ++ z))) (hsp : OptSpace sp) (hz : sp = [] → rd z 0 ≠ 32) :
    acceptencoding_comma data data.length j = Sum.inr (j + 1 + sp.length) := by
  unfold acceptencoding_comma
  rw [suffix_rd_zero data j _ h, rd_cons_zero]
  have h1 : Suffix data (j + 1) (sp ++ z) := suffix_advance data j [44] (sp ++ z) h
  rw [if_neg (by simp), skip_space_eval data (j + 1) sp z h1 hsp hz]

theorem acceptencoding_comma_fail (data : List Nat) (j : Nat) (y : List Nat)
    (h : Suffix data j y) (hy : rd y 0 ≠ 44) :
    acceptencoding_comma data data.length j = Sum.inl NGX_ERROR := by
  unfold acceptencoding_comma
  rw [suffix_rd_zero data j _ h, if_pos hy]

/-- One turn of the loop over an item that is followed by the end of the value or by a
`,`. -/
theorem acceptencoding_body_item (data : List Nat) (i : Nat) (t y : List Nat)
    (h : Suffix data i (t ++ y)) (ht : IsItem t) (hy : y = [] ∨ rd y 0 = 44) :
    acceptencoding_body data data.length i =
      if y = [] then Sum.inl NGX_OK
      else acceptencoding_comma data data.length (i + t.length) := by
  have hy32 : rd y 0 ≠ 32 := by
    rcases hy with rfl | hy
    · simp [rd_nil]
    · omega
  have hy59 : rd y 0 ≠ 59 := by
    rcases hy with rfl | hy
    · simp [rd_nil]
    · omega
  obtain ⟨c, sp1, hc, hsp1, rfl | ⟨sp2, q, sp3, hsp2, hq, hsp3, rfl⟩⟩ := ht
  · rw [List.append_assoc] at h
    have hcc := parse_contentcoding_eval data i c _ h hc
    have s1 := suffix_advance data i c _ h
    have hsk := skip_space_eval data _ sp1 y s1 hsp1 (fun _ => hy32)
    have s2 := suffix_advance data _ sp1 y s1
    have hend := suffix_end_iff data _ y s2
    have hrd := suffix_rd_zero data _ y s2
    unfold acceptencoding_body
    simp only [hcc, hsk, ne_eq, not_true_eq_false, if_false, hend, hrd, hy59,
      List.length_append, ← Nat.add_assoc]
  · simp only [List.append_assoc] at h
    have hcc := parse_contentcoding_eval data i c _ h hc
    have s1 := suffix_advance data i c _ h
    have hsk := skip_space_eval data _ sp1 _ s1 hsp1 (fun _ => by simp [rd_cons_zero])
    have s2 := suffix_advance data _ sp1 _ s1
    have hend2 := suffix_end_iff data _ _ s2
    have hrd2 := suffix_rd_zero data _ _ s2
    have s3 := suffix_advance data _ [59] _ s2
    have hq0 : rd (q ++ (sp3 ++ y)) 0 = 113 := by
      have e0 : bytes "q=0" = [113, 61, 48] := by decide
      have e1 : bytes "q=0." = [113, 61, 48, 46] := by decide
      have e2 : bytes "q=1" = [113, 61, 49] := by decide
      have e3 : bytes "q=1." = [113, 61, 49, 46] := by decide
      rcases hq with rfl | ⟨ds, _, _, rfl⟩ | rfl | ⟨n, _, rfl⟩
      · rw [e0]; rfl
      · rw [e1]; rfl
      · rw [e2]; rfl
      · rw [e3]; rfl
    have hlt3 := (suffix_lt_iff data _ _ s3).mpr (by
      intro hnil
      rw [(List.append_eq_nil.mp hnil).2, rd_nil] at hq0
      omega)
    have hsk3 := skip_space_eval data _ sp2 _ s3 hsp2 (fun _ => by rw [hq0]; omega)
    have s4 := suffix_advance data _ sp2 _ s3
    have hy0 : rd (sp3 ++ y) 0 ≠ 46 ∧ ¬ (48 ≤ rd (sp3 ++ y) 0 ∧ rd (sp3 ++ y) 0 ≤ 57) := by
      rcases hsp3 with rfl | rfl
      · rw [List.nil_append]
        rcases hy with rfl | hy
        · simp [rd_nil]
        · omega
      · simp [rd_cons_zero]
    have hqv := parse_qvalue_eval data _ q _ s4 hq hy0
    have s5 := suffix_advance data _ q _ s4
    have hsk5 := skip_space_eval data _ sp3 y s5 hsp3 (fun _ => hy32)
    have s6 := suffix_advance data _ sp3 y s5
    have hend6 := suffix_end_iff data _ y s6
    unfold acceptencoding_body
    simp only [List.singleton_append, List.length_singleton] at *
    simp only [hcc, hsk, ne_eq, not_true_eq_false, if_false, hend2, hrd2, rd_cons_zero,
      if_true, ge_iff_le, Nat.not_le.mpr hlt3, hsk3, hqv, hsk5, hend6,
      List.length_append, List.length_cons, List.length_singleton, List.length_nil,
      Nat.add_zero, ← Nat.add_assoc, reduceCtorEq]

theorem coding_first (c : List Nat) (hc : c ∈ content_codings) (y : List Nat) :
    rd (c ++ y) 0 ≠ 32 ∧ rd (c ++ y) 0 ≠ 0 ∧ c ≠ [] := by
  rw [content_codings_eq] at hc
  simp only [List.mem_cons, List.mem_singleton, List.not_mem_nil, or_false] at hc
  rcases hc with rfl | rfl | rfl | rfl | rfl | rfl | rfl <;> simp [rd_cons_zero]

theorem item_first (t : List Nat) (ht : IsItem t) (y : List Nat) :
    rd (t ++ y) 0 ≠ 32 ∧ t ≠ [] := by
  obtain ⟨c, sp1, hc, _, rfl | ⟨sp2, q, sp3, _, _, _, rfl⟩⟩ := ht
  · obtain ⟨h1, _, h3⟩ := coding_first c hc (sp1 ++ y)
    rw [List.append_assoc]
    exact ⟨h1, by simp [h3]⟩
  · obtain ⟨h1, _, h3⟩ := coding_first c hc (sp1 ++ ([59] ++ (sp2 ++ (q ++ (sp3 ++ y)))))
    simp only [List.append_assoc]
    exact ⟨h1, by simp [h3]⟩

theorem itemsComma_first (P : List Nat) (hP : ItemsComma P) (R : List Nat)
    (hR : rd R 0 ≠ 32) : rd (P ++ R) 0 ≠ 32 := by
  cases hP with
  | nil => exact hR
  | cons t sp rest ht _ _ =>
    have := (item_first t ht ([44] ++ sp ++ rest ++ R)).1
    simpa only [List.append_assoc] using this

/-- The loop walks over items that are each followed by `,` and an optional space. -/
theorem acceptencoding_loop_items (P : List Nat) (hP : ItemsComma P) :
    ∀ (data : List Nat) (i : Nat) (R : List Nat), Suffix data i (P ++ R) → rd R 0 ≠ 32 →
      acceptencoding_loop data data.length i =
        acceptencoding_loop data data.length (i + P.length) := by
  induction hP with
  | nil => intro data i R _ _; rfl
  | cons t sp rest ht hsp hrest ih =>
    intro data i R h hR
    have h' : Suffix data i (t ++ 44 :: (sp ++ (rest ++ R))) := by
      simpa only [List.append_assoc, List.singleton_append] using h
    have hbody := acceptencoding_body_item data i t _ h' ht (Or.inr (rd_cons_zero _ _))
    rw [if_neg (by simp)] at hbody
    have s1 := suffix_advance data i t _ h'
    rw [acceptencoding_comma_eval data _ sp _ s1 hsp
      (fun _ => itemsComma_first rest hrest R hR)] at hbody
    have hlt : i < data.length := (suffix_lt_iff data i _ h').mpr (by simp [(item_first t ht []).2])
    rw [acceptencoding_loop_next data _ i _ hlt hbody]
    have s2 : Suffix data (i + t.length + 1 + sp.length) (rest ++ R) := by
      have := suffix_advance data _ (44 :: sp) _ (by simpa using s1)
      simpa [Nat.add_assoc, Nat.add_comm 1] using this
    rw [ih data _ R s2 hR]
    congr 1
    simp only [List.length_append, List.length_singleton]
    omega

/-- C9: the empty value, `*`, and every list of one or more items separated by `,` is
accepted; an item is an allowed coding, optionally followed by `;` and a qvalue, with at
most one space behind the coding, the `;`, the qvalue and the `,`. -/
theorem validate_accept_encoding_ok (v : List Nat)
    (h : v = [] ∨ v = bytes "*" ∨ IsAcceptEncodingList v) :
    validate_accept_encoding v = NGX_OK := by
  unfold validate_accept_encoding ngx_header_inspect_acceptencoding_header
  rcases h with rfl | rfl | ⟨P, t, hP, ht, rfl⟩
  · rfl
  · decide
  · split_ifs
    · rfl
    · have hs : Suffix (P ++ t) 0 (P ++ t) := suffix_zero _
      rw [acceptencoding_loop_items P hP (P ++ t) 0 t hs (by simpa using (item_first t ht []).1)]
      have hs2 : Suffix (P ++ t) (0 + P.length) (t ++ []) := by
        rw [List.append_nil]
        exact suffix_advance _ 0 P t hs
      have hbody := acceptencoding_body_item (P ++ t) _ t [] hs2 ht (Or.inl rfl)
      rw [if_pos rfl] at hbody
      exact acceptencoding_loop_break _ _ _ _
        ((suffix_lt_iff _ _ _ hs2).mpr (by simp [(item_first t ht []).2])) hbody

theorem validate_accept_encoding_ok_witness :
    validate_accept_encoding (bytes "") = NGX_OK ∧
    validate_accept_encoding (bytes "*") = NGX_OK ∧
    validate_accept_encoding (bytes "gzip") = NGX_OK ∧
    validate_accept_encoding (bytes "gzip;q=0.5, deflate;q=1.0") = NGX_OK :=
  ⟨validate_accept_encoding_ok (bytes "") (Or.inl (by decide)),
   validate_accept_encoding_ok (bytes "*") (Or.inr (Or.inl rfl)),
   validate_accept_encoding_ok (bytes "gzip") (Or.inr (Or.inr
     ⟨[], bytes "gzip", ItemsComma.nil,
       ⟨bytes "gzip", [], by decide, Or.inl rfl, Or.inl (by decide)⟩, by decide⟩)),
   validate_accept_encoding_ok (bytes "gzip;q=0.5, deflate;q=1.0") (Or.inr (Or.inr
     ⟨bytes "gzip;q=0.5" ++ [44] ++ [32] ++ [], bytes "deflate;q=1.0",
       ItemsComma.cons (bytes "gzip;q=0.5") [32] []
         ⟨bytes "gzip", [], by decide, Or.inl rfl, Or.inr ⟨[], bytes "q=0.5", [], Or.inl rfl,
           Or.inr (Or.inl ⟨bytes "5", by decide, by decide, by decide⟩), Or.inl rfl,
           by decide⟩⟩
         (Or.inr rfl) ItemsComma.nil,
       ⟨bytes "deflate", [], by decide, Or.inl rfl, Or.inr ⟨[], bytes "q=1.0", [], Or.inl rfl,
           Or.inr (Or.inr (Or.inr ⟨1, by decide, by decide⟩)), Or.inl rfl, by decide⟩⟩,
       by decide⟩))⟩

theorem coding_no_delim (c : List Nat) (hc : c ∈ content_codings) :
    ∀ b ∈ c, b ≠ 32 ∧ b ≠ 44 ∧ b ≠ 59 := by
  rw [content_codings_eq] at hc
  simp only [List.mem_cons, List.mem_singleton, List.not_mem_nil, or_false] at hc
  rcases hc with rfl | rfl | rfl | rfl | rfl | rfl | rfl <;> decide

theorem take_eq_append (x lit : List Nat) (n : Nat) (h : List.take n x = lit) :
    x = lit ++ List.drop n x := by
  rw [← h, List.take_append_drop]

theorem contentCodingPost_ite (x : List Nat) {c : Prop} [Decidable c] {a b : Int × Nat}
    (ha : c → ContentCodingPost x a) (hb : ¬ c → ContentCodingPost x b) :
    ContentCodingPost x (if c then a else b) := by
  by_cases hc : c
  · rw [if_pos hc]; exact ha hc
  · rw [if_neg hc]; exact hb hc

/-- A successful `parse_contentcoding` has matched one of the seven codings at the start
of the window and reports its length. -/
theorem parse_contentcoding_post (x : List Nat) (n : Nat) :
    ContentCodingPost x (ngx_header_inspect_parse_contentcoding x n) := by
  unfold ngx_header_inspect_parse_contentcoding
  repeat' refine contentCodingPost_ite x (fun hpos => ?_) (fun hneg => ?_)
  all_goals unfold ContentCodingPost
  all_goals first
    | (intro h; exact absurd h ngx_error_ne_ok)
    | (intro _
       cases x with
       | nil => simp [rd_nil] at hpos
       | cons a z =>
         rw [rd_cons_zero] at hpos
         subst hpos
         exact ⟨[42], z, by simp [content_codings_eq], rfl, rfl⟩)
    | (intro _
       have := take_eq_append x _ _ (by by_contra hne; exact hneg (Or.inr hne))
       exact ⟨_, _, by simp [content_codings_eq], this, rfl⟩)

/-- One turn of the loop over a token that is not an allowed coding breaks with
`NGX_ERROR`. -/
theorem acceptencoding_body_bad_token (data : List Nat) (i : Nat) (t y : List Nat)
    (h : Suffix data i (t ++ y)) (ht : IsToken t) (hy : EndsToken y)
    (hbad : t ∉ content_codings) :
    acceptencoding_body data data.length i = Sum.inl NGX_ERROR := by
  by_cases hok : (ngx_header_inspect_parse_contentcoding (data.drop i) (data.length - i)).1
      = NGX_OK
  · obtain ⟨c, z, hc, hx, hk⟩ := parse_contentcoding_post _ _ hok
    rw [h.1] at hx
    rcases List.append_eq_append_iff.mp hx with ⟨a', hc', hy'⟩ | ⟨c', ht', hz'⟩
    · exfalso
      cases a' with
      | nil =>
        rw [List.append_nil] at hc'
        exact hbad (hc' ▸ hc)
      | cons b bs =>
        have hb : b ∈ c := by rw [hc']; simp
        have hd := coding_no_delim c hc b hb
        rw [hy'] at hy
        rcases hy with h0 | h0 | h0 | h0
        · simp at h0
        all_goals (simp only [List.cons_append, rd_cons_zero] at h0; omega)
    · cases c' with
      | nil =>
        rw [List.append_nil] at ht'
        exact absurd (ht' ▸ hc) hbad
      | cons b bs =>
        have hb : b ∈ t := by rw [ht']; simp
        have hd := ht.2 b hb
        have h' : Suffix data i (c ++ ([] ++ (b :: (bs ++ y)))) := by
          rw [ht'] at h
          simpa only [List.append_assoc, List.nil_append, List.cons_append] using h
        have s1 := suffix_advance data i c _ h'
        have hsk := skip_space_eval data _ [] _ s1 (Or.inl rfl)
          (fun _ => by rw [rd_cons_zero]; exact hd.1)
        have s2 := suffix_advance data _ [] _ s1
        have hend := suffix_end_iff data _ _ s2
        have hrd := suffix_rd_zero data _ _ s2
        have hcm := acceptencoding_comma_fail data _ _ s2 (by rw [rd_cons_zero]; exact hd.2.1)
        unfold acceptencoding_body
        rw [if_neg (by simpa using hok)]
        simp only [hk, hsk, hend, hrd, rd_cons_zero, hd.2.2, if_false, hcm, reduceCtorEq]
  · unfold acceptencoding_body
    rw [if_pos hok]

/-- One turn of the loop over an item whose qvalue has a digit other than `0` and `1`
behind `q=` breaks with `NGX_ERROR`. -/
theorem acceptencoding_body_bad_qvalue (data : List Nat) (i : Nat) (c sp1 sp2 y : List Nat)
    (d : Nat) (h : Suffix data i (c ++ sp1 ++ [59] ++ sp2 ++ [113, 61, d] ++ y))
    (hc : c ∈ content_codings) (hsp1 : OptSpace sp1) (hsp2 : OptSpace sp2)
    (hd0 : d ≠ 48) (hd1 : d ≠ 49) :
    acceptencoding_body data data.length i = Sum.inl NGX_ERROR := by
  simp only [List.append_assoc, List.singleton_append, List.cons_append,
    List.nil_append] at h
  have hcc := parse_contentcoding_eval data i c _ h hc
  have s1 := suffix_advance data i c _ h
  have hsk := skip_space_eval data _ sp1 _ s1 hsp1 (fun _ => by simp [rd_cons_zero])
  have s2 := suffix_advance data _ sp1 _ s1
  have hend2 := suffix_end_iff data _ _ s2
  have hrd2 := suffix_rd_zero data _ _ s2
  have s3 := suffix_advance data _ [59] _ s2
  have hlt3 := (suffix_lt_iff data _ _ s3).mpr (by simp)
  have hsk3 := skip_space_eval data _ sp2 _ s3 hsp2 (fun _ => by simp [rd_cons_zero])
  have s4 := suffix_advance data _ sp2 _ s3
  have hqv : (ngx_header_inspect_parse_qvalue
      (List.drop (i + c.length + sp1.length + [59].length + sp2.length) data)
      (data.length - (i + c.length + sp1.length + [59].length + sp2.length))).1 ≠ NGX_OK := by
    rw [suffix_len data _ _ s4, s4.1]
    simp only [ngx_header_inspect_parse_qvalue, rd_cons_zero, rd_cons_succ, hd0, hd1,
      if_false, ne_eq, not_true_eq_false, or_self, or_false]
    split_ifs <;> exact ngx_error_ne_ok
  unfold acceptencoding_body
  simp only [List.length_singleton] at *
  simp only [hcc, hsk, ne_eq, not_true_eq_false, if_false, hend2, hrd2, rd_cons_zero,
    if_true, ge_iff_le, Nat.not_le.mpr hlt3, hsk3, hqv, not_false_eq_true, reduceCtorEq]

theorem itemsComma_length (P : List Nat) (hP : ItemsComma P) : P = [] ∨ 2 ≤ P.length := by
  cases hP with
  | nil => exact Or.inl rfl
  | cons t sp rest ht _ _ =>
    right
    have := List.length_pos.mpr (item_first t ht []).2
    simp only [List.length_append, List.length_singleton]
    omega

/-- The loop over valid items followed by something that makes one turn break with
`NGX_ERROR`. -/
theorem acceptencoding_loop_items_break (P R : List Nat) (hP : ItemsComma P)
    (hR : rd R 0 ≠ 32) (hne : R ≠ [])
    (hbody : ∀ data i, Suffix data i R →
      acceptencoding_body data data.length i = Sum.inl NGX_ERROR) :
    acceptencoding_loop (P ++ R) (P ++ R).length 0 = NGX_ERROR := by
  have hs : Suffix (P ++ R) 0 (P ++ R) := suffix_zero _
  rw [acceptencoding_loop_items P hP (P ++ R) 0 R hs hR]
  have hs2 : Suffix (P ++ R) (0 + P.length) R := suffix_advance _ 0 P R hs
  exact acceptencoding_loop_break _ _ _ _ ((suffix_lt_iff _ _ _ hs2).mpr hne)
    (hbody _ _ hs2)

/-- C10: behind any number of valid items, each followed by `,` and an optional space,
the value is Malformed when (i) the next item begins with a token that is not an allowed
coding, (ii) the next item carries a qvalue whose digit behind `q=` is neither `0` nor
`1`, or (iii) the value ends there, behind a `,` and its optional space. -/
theorem validate_accept_encoding_malformed (P : List Nat) (hP : ItemsComma P) :
    (∀ t y, IsToken t → EndsToken y → t ∉ content_codings →
      validate_accept_encoding (P ++ (t ++ y)) = NGX_ERROR) ∧
    (∀ c sp1 sp2 d y, c ∈ content_codings → OptSpace sp1 → OptSpace sp2 → d ≠ 48 → d ≠ 49 →
      validate_accept_encoding (P ++ (c ++ sp1 ++ [59] ++ sp2 ++ [113, 61, d] ++ y)) =
        NGX_ERROR) ∧
    (P ≠ [] → validate_accept_encoding P = NGX_ERROR) := by
  unfold validate_accept_encoding ngx_header_inspect_acceptencoding_header
  refine ⟨?_, ?_, ?_⟩
  · intro t y ht hy hbad
    obtain ⟨b, bs, rfl⟩ := List.exists_cons_of_ne_nil ht.1
    have hb := ht.2 b (by simp)
    rw [if_neg]
    · exact acceptencoding_loop_items_break P _ hP (by rw [List.cons_append, rd_cons_zero]; exact hb.1)
        (by simp) (fun data i hs => acceptencoding_body_bad_token data i _ y hs ht hy hbad)
    · rintro (h0 | ⟨h1, h2⟩)
      · simp at h0
      · rcases itemsComma_length P hP with rfl | hlen
        · simp only [List.nil_append, List.cons_append, List.length_cons, rd_cons_zero] at h1 h2
          have hnil : bs ++ y = [] := List.length_eq_zero.mp (by omega)
          have hbs : bs = [] := (List.append_eq_nil.mp hnil).1
          subst hbs h2
          apply hbad
          rw [content_codings_eq]
          simp
        · simp only [List.length_append] at h1
          omega
  · intro c sp1 sp2 d y hc hsp1 hsp2 hd0 hd1
    have hfirst := coding_first c hc (sp1 ++ [59] ++ sp2 ++ [113, 61, d] ++ y)
    rw [if_neg]
    · refine acceptencoding_loop_items_break P _ hP ?_ ?_
        (fun data i hs => acceptencoding_body_bad_qvalue data i c sp1 sp2 y d hs hc hsp1 hsp2
          hd0 hd1)
      · simpa only [List.append_assoc] using hfirst.1
      · simp
    · simp only [List.length_append, List.length_cons, List.length_singleton, List.length_nil]
      omega
  · intro hne
    rcases itemsComma_length P hP with rfl | hlen
    · exact absurd rfl hne
    · rw [if_neg (by omega)]
      have hs : Suffix P 0 (P ++ []) := by rw [List.append_nil]; exact suffix_zero _
      rw [acceptencoding_loop_items P hP P 0 [] hs (by simp [rd_nil])]
      exact acceptencoding_loop_end _ _ _ (by omega)

theorem validate_accept_encoding_malformed_witness :
    validate_accept_encoding (bytes "unknown-coding") = NGX_ERROR ∧
    validate_accept_encoding (bytes "gzip;q=2") = NGX_ERROR ∧
    validate_accept_encoding (bytes "gzip,") = NGX_ERROR :=
  have hgzip : IsItem (bytes "gzip") :=
    ⟨bytes "gzip", [], by decide, Or.inl rfl, Or.inl (by decide)⟩
  ⟨(validate_accept_encoding_malformed [] ItemsComma.nil).1 (bytes "unknown-coding") []
      ⟨by decide, by decide⟩ (Or.inl rfl) (by decide),
   (validate_accept_encoding_malformed [] ItemsComma.nil).2.1 (bytes "gzip") [] [] 50 []
      (by decide) (Or.inl rfl) (Or.inl rfl) (by decide) (by decide),
   (validate_accept_encoding_malformed (bytes "gzip" ++ [44] ++ [] ++ [])
      (ItemsComma.cons (bytes "gzip") [] [] hgzip (Or.inl rfl) ItemsComma.nil)).2.2
      (by decide)⟩

theorem http_date_weekday_rfc850 (data : List Nat)
    (hw : (rd data 0 = 77 ∧ rd data 1 = 111 ∧ rd data 2 = 110) ∨
      (rd data 0 = 70 ∧ rd data 1 = 114 ∧ rd data 2 = 105) ∨
      (rd data 0 = 83 ∧ rd data 1 = 117 ∧ rd data 2 = 110))
    (h3 : rd data 3 = 100) (h4 : rd data 4 = 97) (h5 : rd data 5 = 121)
    (h6 : rd data 6 = 44) : http_date_weekday data = some (RFC850, 7) := by
  rcases hw with ⟨h0, h1, h2⟩ | ⟨h0, h1, h2⟩ | ⟨h0, h1, h2⟩ <;>
    simp [http_date_weekday, h0, h1, h2, h3, h4, h5, h6]

theorem http_date_rfc850_iff (data : List Nat) (maxlen : Nat) (h44 : rd data 3 ≠ 44)
    (h32 : rd data 3 ≠ 32) :
    ngx_header_inspect_http_date data maxlen = NGX_OK ↔ (maxlen = 30 ∧ Rfc850At data) := by
  rw [http_date_ok_iff]
  unfold Rfc850At isDigit
  constructor
  · rintro ⟨_, t, i, i1, i2, i3, i4, hw, hb, hs, h1, h2, h3', h4, h5⟩
    obtain ⟨hwk, hc⟩ := http_date_weekday_post data t i hw
    rcases hc with ⟨_, _, h⟩ | ⟨_, _, h⟩ | ⟨rfl, _, _, hi⟩
    · exact absurd h h44
    · exact absurd h h32
    · simp [http_date_badlen] at hb
      rw [http_date_day_rfc850] at h1
      obtain ⟨a1, a2, a3, a4, a5, rfl⟩ := h1
      rw [http_date_month_iff] at h2
      obtain ⟨hm, rfl⟩ := h2
      rw [http_date_year_rfc850] at h3'
      obtain ⟨b1, b2, b3, b4, b5, b6, rfl⟩ := h3'
      rw [http_date_time_iff] at h4
      obtain ⟨c1, c2, c3, c4, c5, c6, c7, c8, c9, c10, c11, c12, c13, c14, c15, rfl⟩ := h4
      rw [http_date_tail_gmt data RFC850 (by decide)] at h5
      obtain ⟨e1, e2, e3, he⟩ := h5
      have hi7 : i = 7 := by omega
      subst hi7
      rcases hi with ⟨_, g3, g4, g5, g6, g0⟩ | hi
      · simp only [Nat.reduceAdd, Nat.add_assoc] at *
        exact ⟨hb, g0, g3, g4, g5, g6, hs, ⟨a1, a2⟩, ⟨a3, a4⟩, a5, hm, b1, ⟨b2, b3⟩,
          ⟨b4, b5⟩, b6, ⟨c1, c2⟩, ⟨c3, c4⟩, c5, ⟨c6, c7⟩, ⟨c8, c9⟩, c10, ⟨c11, c12⟩,
          ⟨c13, c14⟩, c15, e1, e2, e3⟩
      · omega
  · rintro ⟨rfl, g0, g3, g4, g5, g6, hs, ⟨a1, a2⟩, ⟨a3, a4⟩, a5, hm, b1, ⟨b2, b3⟩,
        ⟨b4, b5⟩, b6, ⟨c1, c2⟩, ⟨c3, c4⟩, c5, ⟨c6, c7⟩, ⟨c8, c9⟩, c10, ⟨c11, c12⟩,
        ⟨c13, c14⟩, c15, e1, e2, e3⟩
    refine ⟨by omega, RFC850, 7, 11, 14, 18, 27,
      http_date_weekday_rfc850 data g0 g3 g4 g5 g6, by decide, hs, ?_, ?_, ?_, ?_, ?_⟩
    · rw [http_date_day_rfc850]
      exact ⟨a1, a2, a3, a4, a5, rfl⟩
    · rw [http_date_month_iff]
      exact ⟨hm, rfl⟩
    · rw [http_date_year_rfc850]
      exact ⟨b1, b2, b3, b4, b5, b6, rfl⟩
    · rw [http_date_time_iff]
      exact ⟨c1, c2, c3, c4, c5, c6, c7, c8, c9, c10, c11, c12, c13, c14, c15, rfl⟩
    · rw [http_date_tail_gmt data RFC850 (by decide)]
      exact ⟨e1, e2, e3, rfl⟩

theorem mem_short_weekday_names (w : List Nat) :
    w ∈ short_weekday_names ↔ ∃ a b c, w = [a, b, c, 100, 97, 121] ∧
      ((a = 77 ∧ b = 111 ∧ c = 110) ∨ (a = 70 ∧ b = 114 ∧ c = 105) ∨
       (a = 83 ∧ b = 117 ∧ c = 110)) := by
  have hn : short_weekday_names =
      [[77, 111, 110, 100, 97, 121], [70, 114, 105, 100, 97, 121],
       [83, 117, 110, 100, 97, 121]] := by decide
  rw [hn]
  constructor
  · intro h
    simp only [List.mem_cons, List.mem_singleton, List.not_mem_nil, or_false] at h
    rcases h with rfl | rfl | rfl <;> exact ⟨_, _, _, rfl, by decide⟩
  · rintro ⟨a, b, c, rfl, h⟩
    rcases h with h | h | h
    all_goals
      obtain ⟨ha, hb, hc⟩ := h
      subst ha hb hc
      decide

theorem rfc850Shape_iff_at (v : List Nat) :
    Rfc850Shape v ↔ (v.length = 30 ∧ Rfc850At v) := by
  have e1 : bytes ", " = [44, 32] := by decide
  have e2 : bytes " " = [32] := by decide
  have e3 : bytes ":" = [58] := by decide
  have e4 : bytes " GMT" = [32, 71, 77, 84] := by decide
  have e5 : bytes "-" = [45] := by decide
  constructor
  · rintro ⟨wkd, mon, d1, d2, y1, y2, h1, h2, m1, m2, s1, s2, hw, hm, hd1, hd2, hy1,
      hy2, hh1, hh2, hm1, hm2, hs1, hs2, rfl⟩
    obtain ⟨a, b, c, rfl, hw'⟩ := (mem_short_weekday_names wkd).mp hw
    obtain ⟨x, y, z, rfl, hm'⟩ := (mem_month_names mon).mp hm
    rw [e1, e2, e3, e4, e5]
    refine ⟨by simp, ?_⟩
    unfold Rfc850At MonthAt
    simp only [rd, List.cons_append, List.nil_append, List.getD_cons_zero, List.getD_cons_succ,
      Nat.reduceAdd]
    exact ⟨hw', trivial, trivial, trivial, trivial, trivial, hd1, hd2, trivial, hm', trivial,
      hy1, hy2, trivial, hh1, hh2, trivial, hm1, hm2, trivial, hs1, hs2, trivial, trivial,
      trivial, trivial⟩
  · rintro ⟨hlen, hwk, g3, g4, g5, g6, g7, g8, g9, g10, hmo, g14, g15, g16, g17, g18, g19,
      g20, g21, g22, g23, g24, g25, g26, g27, g28, g29⟩
    refine ⟨[rd v 0, rd v 1, rd v 2, 100, 97, 121], [rd v 11, rd v 12, rd v 13], rd v 8,
      rd v 9, rd v 15, rd v 16, rd v 18, rd v 19, rd v 21, rd v 22, rd v 24, rd v 25,
      (mem_short_weekday_names _).mpr ⟨_, _, _, rfl, hwk⟩,
      (mem_month_names _).mpr ⟨_, _, _, rfl, hmo⟩,
      g8, g9, g15, g16, g18, g19, g21, g22, g24, g25, ?_⟩
    rw [e1, e2, e3, e4, e5]
    have hv := list_eq_map_rd v
    rw [hlen] at hv
    have hr : List.range 30 = [0, 1, 2, 3, 4, 5, 6, 7, 8, 9, 10, 11, 12, 13, 14, 15, 16, 17,
      18, 19, 20, 21, 22, 23, 24, 25, 26, 27, 28, 29] := by decide
    rw [hr] at hv
    simp only [List.map_cons, List.map_nil, g3, g4, g5, g6, g7, g10, g14, g17, g20, g23, g26,
      g27, g28, g29] at hv
    simpa using hv

/-- C20: a value whose fourth byte is neither `,` nor a space is accepted by
`validate_http_date` exactly when it is 30 bytes of the shape
`<Weekday>, DD-Mon-YY HH:MM:SS GMT` with the weekday `Monday`, `Friday` or `Sunday`
(digit positions only digit-checked); so every value that begins with `Tuesday,`,
`Wednesday,`, `Thursday,` or `Saturday,` is rejected. -/
theorem validate_http_date_rfc850 (v : List Nat) :
    (rd v 3 ≠ 44 → rd v 3 ≠ 32 → (validate_http_date v = NGX_OK ↔ Rfc850Shape v)) ∧
    ((∃ w rest, w ∈ long_weekday_names ∧ v = w ++ [44] ++ rest) →
      validate_http_date v = NGX_ERROR) := by
  have hiff : rd v 3 ≠ 44 → rd v 3 ≠ 32 →
      (validate_http_date v = NGX_OK ↔ Rfc850Shape v) := by
    intro h44 h32
    unfold validate_http_date
    rw [http_date_rfc850_iff v v.length h44 h32, rfc850Shape_iff_at]
  refine ⟨hiff, ?_⟩
  rintro ⟨w, rest, hw, rfl⟩
  have hn : long_weekday_names =
      [[84, 117, 101, 115, 100, 97, 121], [87, 101, 100, 110, 101, 115, 100, 97, 121],
       [84, 104, 117, 114, 115, 100, 97, 121], [83, 97, 116, 117, 114, 100, 97, 121]] := by
    decide
  rw [hn] at hw
  simp only [List.mem_cons, List.mem_singleton, List.not_mem_nil, or_false] at hw
  have h3 : rd (w ++ [44] ++ rest) 3 ≠ 44 ∧ rd (w ++ [44] ++ rest) 3 ≠ 32 ∧
      rd (w ++ [44] ++ rest) 3 ≠ 100 := by
    rcases hw with rfl | rfl | rfl | rfl <;> simp [rd_cons_succ, rd_cons_zero]
  rcases http_date_ok_or_error (w ++ [44] ++ rest) (w ++ [44] ++ rest).length with hok | herr
  · exfalso
    have hshape := (hiff h3.1 h3.2.1).mp hok
    exact h3.2.2 ((rfc850Shape_iff_at _).mp hshape).2.2.1
  · exact herr

theorem validate_http_date_rfc850_witness :
    (validate_http_date (bytes "Sunday, 06-Nov-94 08:49:37 GMT") = NGX_OK ↔
      Rfc850Shape (bytes "Sunday, 06-Nov-94 08:49:37 GMT")) ∧
    validate_http_date (bytes "Sunday, 06-Nov-94 08:49:37 GMT") = NGX_OK ∧
    validate_http_date (bytes "Wednesday, 09-Nov-94 08:49:37 GMT") = NGX_ERROR :=
  ⟨(validate_http_date_rfc850 (bytes "Sunday, 06-Nov-94 08:49:37 GMT")).1 (by decide)
      (by decide),
   by decide,
   (validate_http_date_rfc850 (bytes "Wednesday, 09-Nov-94 08:49:37 GMT")).2
      ⟨bytes "Wednesday", bytes " 09-Nov-94 08:49:37 GMT", by decide, by decide⟩⟩

theorem entity_tag_loop_iff (data : List Nat) (n : Nat) :
    ∀ i, entity_tag_loop data i n = true ↔ ∃ k, k < n ∧ rd data (i + k) = 34 := by
  induction n with
  | zero => intro i; simp [entity_tag_loop]
  | succ n ih =>
    intro i
    simp only [entity_tag_loop]
    by_cases h : rd data i = 34
    · simp only [h, if_true, true_iff]
      exact ⟨0, by omega, h⟩
    · rw [if_neg h, ih]
      constructor
      · rintro ⟨k, hk, hr⟩
        exact ⟨k + 1, by omega, by rw [← hr]; congr 1; omega⟩
      · rintro ⟨k, hk, hr⟩
        cases k with
        | zero => exact absurd hr h
        | succ k => exact ⟨k, by omega, by rw [← hr]; congr 1; omega⟩

/-- What `NGX_OK` of the entity-tag validator says, with `i` the offset behind the
optional `W/`. -/
theorem entity_tag_ok_iff (data : List Nat) (maxlen : Nat) :
    ngx_header_inspect_entity_tag data maxlen = NGX_OK ↔
      (2 ≤ maxlen ∧ ¬ (rd data 0 = 87 ∧ rd data 1 ≠ 47) ∧
        (if rd data 0 = 87 then 2 else 0) + 1 < maxlen ∧
        rd data (if rd data 0 = 87 then 2 else 0) = 34 ∧
        (∀ k, k < maxlen - 1 - ((if rd data 0 = 87 then 2 else 0) + 1) →
          rd data ((if rd data 0 = 87 then 2 else 0) + 1 + k) ≠ 34) ∧
        rd data (maxlen - 1) = 34) := by
  unfold ngx_header_inspect_entity_tag
  simp only
  by_cases h1 : maxlen < 2
  · simp only [if_pos h1, ngx_error_ne_ok, false_iff]
    intro h
    omega
  rw [if_neg h1]
  by_cases h2 : rd data 0 = 87 ∧ rd data 1 ≠ 47
  · simp [h2, ngx_error_ne_ok]
  rw [if_neg h2]
  by_cases h3 : (if rd data 0 = 87 then 2 else 0) + 1 ≥ maxlen
  · rw [if_pos h3]
    simp only [ngx_error_ne_ok, false_iff]
    intro h
    omega
  rw [if_neg h3]
  by_cases h4 : rd data (if rd data 0 = 87 then 2 else 0) ≠ 34
  · rw [if_pos h4]
    simp only [ngx_error_ne_ok, false_iff]
    intro h
    exact h4 h.2.2.2.1
  rw [if_neg h4]
  by_cases h5 : entity_tag_loop data ((if rd data 0 = 87 then 2 else 0) + 1)
      (maxlen - 1 - ((if rd data 0 = 87 then 2 else 0) + 1)) = true
  · rw [if_pos h5]
    simp only [ngx_error_ne_ok, false_iff]
    intro h
    obtain ⟨k, hk, hr⟩ := (entity_tag_loop_iff data _ _).mp h5
    exact h.2.2.2.2.1 k hk hr
  rw [if_neg h5]
  have h5' : ∀ k, k < maxlen - 1 - ((if rd data 0 = 87 then 2 else 0) + 1) →
      rd data ((if rd data 0 = 87 then 2 else 0) + 1 + k) ≠ 34 := by
    intro k hk hr
    exact h5 ((entity_tag_loop_iff data _ _).mpr ⟨k, hk, hr⟩)
  by_cases h6 : rd data (maxlen - 1) ≠ 34
  · rw [if_pos h6]
    simp only [ngx_error_ne_ok, false_iff]
    intro h
    exact h6 h.2.2.2.2.2
  rw [if_neg h6]
  simp only [true_iff]
  exact ⟨by omega, h2, by omega, by simpa using h4, h5', by simpa using h6⟩

theorem entity_tag_ok_or_error (data : List Nat) (maxlen : Nat) :
    ngx_header_inspect_entity_tag data maxlen = NGX_OK ∨
      ngx_header_inspect_entity_tag data maxlen = NGX_ERROR := by
  unfold ngx_header_inspect_entity_tag
  simp only
  split_ifs <;> first | exact Or.inl rfl | exact Or.inr rfl

theorem rd_append_right (v w : List Nat) (k : Nat) : rd (v ++ w) (v.length + k) = rd w k := by
  have h : Suffix (v ++ w) (0 + v.length) w := suffix_advance _ 0 v w (suffix_zero _)
  rw [Nat.zero_add] at h
  exact suffix_rd _ _ _ h k

theorem rd_mem (v : List Nat) (i : Nat) (h : i < v.length) : rd v i ∈ v := by
  unfold rd
  rw [List.getD_eq_getElem?_getD, List.getElem?_eq_getElem h]
  exact List.getElem_mem h

theorem getLast?_eq_rd (l : List Nat) (h : l ≠ []) : l.getLast? = some (rd l (l.length - 1)) := by
  have hlt : l.length - 1 < l.length := by
    have := List.length_pos.mpr h
    omega
  unfold rd
  rw [List.getLast?_eq_getElem?, List.getD_eq_getElem?_getD, List.getElem?_eq_getElem hlt]
  rfl

/-- For an accepted entity-tag the value behind the optional `W/` is the value from the
offset `i` of the opening quote on. -/
theorem entity_tag_rest_of_ok (v : List Nat)
    (h : ngx_header_inspect_entity_tag v v.length = NGX_OK) :
    ∃ i, Suffix v i (entity_tag_rest v) ∧ i + 1 < v.length ∧ rd v i = 34 ∧
      (∀ k, k < v.length - 1 - (i + 1) → rd v (i + 1 + k) ≠ 34) ∧
      rd v (v.length - 1) = 34 := by
  obtain ⟨_, h2, h3, h4, h5, h6⟩ := (entity_tag_ok_iff v v.length).mp h
  refine ⟨if rd v 0 = 87 then 2 else 0, ⟨?_, ?_⟩, h3, h4, h5, h6⟩
  · unfold entity_tag_rest
    by_cases hw : rd v 0 = 87
    · have h47 : rd v 1 = 47 := by
        by_contra hne
        exact h2 ⟨hw, hne⟩
      rw [if_pos hw, if_pos ⟨hw, h47⟩]
    · rw [if_neg hw, if_neg (fun hc => hw hc.1)]
      rfl
  · unfold entity_tag_rest
    by_cases hw : rd v 0 = 87
    · have h47 : rd v 1 = 47 := by
        by_contra hne
        exact h2 ⟨hw, hne⟩
      rw [if_pos hw] at h3 ⊢
      rw [if_pos ⟨hw, h47⟩, List.length_drop]
      omega
    · rw [if_neg hw, if_neg (fun hc => hw hc.1)]
      omega

/-- C11: `"body"` and `W/"body"` with a non-empty body free of `"` are accepted; a value
that, behind the optional `W/`, does not start with `"`, does not end with `"`, or has a
`"` strictly between its first and its last byte is Malformed. -/
theorem validate_entity_tag_shape :
    (∀ body : List Nat, body ≠ [] → 34 ∉ body →
      validate_entity_tag ([34] ++ body ++ [34]) = NGX_OK ∧
      validate_entity_tag ([87, 47, 34] ++ body ++ [34]) = NGX_OK) ∧
    (∀ v : List Nat,
      (rd (entity_tag_rest v) 0 ≠ 34 ∨ (entity_tag_rest v).getLast? ≠ some 34 ∨
        ∃ k, 0 < k ∧ k + 1 < (entity_tag_rest v).length ∧ rd (entity_tag_rest v) k = 34) →
      validate_entity_tag v = NGX_ERROR) := by
  unfold validate_entity_tag
  constructor
  · intro body hne hq
    have hpos := List.length_pos.mpr hne
    have hbody : ∀ k, k < body.length → rd body k ≠ 34 := by
      intro k hk hr
      exact hq (hr ▸ rd_mem body k hk)
    constructor
    · rw [entity_tag_ok_iff]
      have e : [34] ++ body ++ [34] = [34] ++ (body ++ [34]) := by simp
      have hr0 : rd ([34] ++ body ++ [34]) 0 = 34 := rfl
      simp only [hr0, show ¬ ((34 : Nat) = 87) by decide, if_false, false_and,
        not_false_eq_true, true_and, List.length_append, List.length_singleton]
      refine ⟨by omega, by omega, ?_, ?_⟩
      · intro k hk
        rw [e, show 0 + 1 + k = [34].length + k by
          simp only [List.length_singleton], rd_append_right,
          rd_append_left body [34] k (by omega)]
        exact hbody k (by omega)
      · rw [show 1 + body.length + 1 - 1 = ([34] ++ body).length + 0 by
          simp only [List.length_append, List.length_singleton]; omega,
          rd_append_right]
        rfl
    · rw [entity_tag_ok_iff]
      have e : [87, 47, 34] ++ body ++ [34] = [87, 47, 34] ++ (body ++ [34]) := by simp
      have hr0 : rd ([87, 47, 34] ++ body ++ [34]) 0 = 87 := rfl
      have hr1 : rd ([87, 47, 34] ++ body ++ [34]) 1 = 47 := rfl
      have hr2 : rd ([87, 47, 34] ++ body ++ [34]) 2 = 34 := rfl
      simp only [hr0, hr1, hr2, if_true, ne_eq, not_true_eq_false, and_false,
        not_false_eq_true, true_and, List.length_append, List.length_singleton,
        List.length_cons, List.length_nil]
      refine ⟨by omega, by omega, ?_, ?_⟩
      · intro k hk
        rw [e, show 2 + 1 + k = [87, 47, 34].length + k by
          simp only [List.length_cons, List.length_nil], rd_append_right,
          rd_append_left body [34] k (by omega)]
        exact hbody k (by omega)
      · rw [show 0 + 1 + 1 + 1 + body.length + 1 - 1 = ([87, 47, 34] ++ body).length + 0 by
            simp only [List.length_append, List.length_cons, List.length_nil]; omega,
          rd_append_right]
        rfl
  · intro v hbad
    rcases entity_tag_ok_or_error v v.length with hok | herr
    · exfalso
      obtain ⟨i, hs, hlt, hq, hmid, hlast⟩ := entity_tag_rest_of_ok v hok
      have hlen := hs.2
      rcases hbad with h1 | h2 | ⟨k, hk0, hk1, hk⟩
      · rw [← suffix_rd_zero v i _ hs] at h1
        exact h1 hq
      · have hne : entity_tag_rest v ≠ [] := by
          intro hnil
          rw [hnil] at hlen
          simp at hlen
          omega
        rw [getLast?_eq_rd _ hne, ← suffix_rd v i _ hs] at h2
        apply h2
        rw [← hlast]
        congr 2
        omega
      · rw [← suffix_rd v i _ hs] at hk
        apply hmid (k - 1) (by omega)
        rw [← hk]
        congr 1
        omega
    · exact herr

theorem validate_entity_tag_shape_witness :
    validate_entity_tag [34, 97, 98, 99, 34] = NGX_OK ∧
    validate_entity_tag [87, 47, 34, 97, 98, 99, 34] = NGX_OK ∧
    validate_entity_tag [34, 97, 98, 34, 99, 34] = NGX_ERROR ∧
    validate_entity_tag [97, 98, 99] = NGX_ERROR :=
  ⟨(validate_entity_tag_shape.1 [97, 98, 99] (by decide) (by decide)).1,
   (validate_entity_tag_shape.1 [97, 98, 99] (by decide) (by decide)).2,
   validate_entity_tag_shape.2 [34, 97, 98, 34, 99, 34]
     (Or.inr (Or.inr ⟨3, by decide, by decide, by decide⟩)),
   validate_entity_tag_shape.2 [97, 98, 99] (Or.inl (by decide))⟩

/-- C12 fails as stated: the quote pair alone, `""`, is accepted. -/
theorem validate_entity_tag_quote_pair_counterexample :
    validate_entity_tag [34, 34] = NGX_OK ∧ validate_entity_tag [34, 34] ≠ NGX_ERROR ∧
    validate_entity_tag [87, 47, 34, 34] = NGX_OK ∧
    validate_entity_tag [87, 47, 34, 34] ≠ NGX_ERROR := by
  decide

/-- C12 (as amended): the quote pair alone is sufficient, `""` and `W/""` are accepted;
a value is Malformed when fewer than two bytes stand behind the optional `W/`. -/
theorem validate_entity_tag_quote_pair (v : List Nat) :
    (v = [34, 34] ∨ v = [87, 47, 34, 34] → validate_entity_tag v = NGX_OK) ∧
    ((entity_tag_rest v).length < 2 → validate_entity_tag v = NGX_ERROR) := by
  constructor
  · rintro (rfl | rfl) <;> decide
  · intro hlen
    unfold validate_entity_tag
    rcases entity_tag_ok_or_error v v.length with hok | herr
    · exfalso
      obtain ⟨i, hs, hlt, _, _, _⟩ := entity_tag_rest_of_ok v hok
      have := hs.2
      omega
    · exact herr

theorem validate_entity_tag_quote_pair_witness :
    validate_entity_tag [34, 34] = NGX_OK ∧ validate_entity_tag [87, 47, 34, 34] = NGX_OK ∧
    validate_entity_tag [87, 47, 34] = NGX_ERROR ∧ validate_entity_tag [34] = NGX_ERROR :=
  ⟨(validate_entity_tag_quote_pair [34, 34]).1 (Or.inl rfl),
   (validate_entity_tag_quote_pair [87, 47, 34, 34]).1 (Or.inr rfl),
   (validate_entity_tag_quote_pair [87, 47, 34]).2 (by decide),
   (validate_entity_tag_quote_pair [34]).2 (by decide)⟩

/-- C13: on a window that is exactly `q=0[.d{0,3}]` or `q=1[.0{0,3}]`, with `maxlen` the
length of the window and the byte behind the window not a digit, `parse_qvalue` succeeds
and reports the length of the window. -/
theorem parse_qvalue_window (q y : List Nat) (hq : IsQvalue q) (hy : ¬ isDigit (rd y 0)) :
    ngx_header_inspect_parse_qvalue (q ++ y) q.length = (NGX_OK, q.length) := by
  have e0 : bytes "q=0" = [113, 61, 48] := by decide
  have e1 : bytes "q=0." = [113, 61, 48, 46] := by decide
  have e2 : bytes "q=1" = [113, 61, 49] := by decide
  have e3 : bytes "q=1." = [113, 61, 49, 46] := by decide
  unfold isDigit at hy
  have hy3 : rd y 0 < 48 ∨ 57 < rd y 0 := by omega
  have hy4 : rd y 0 ≠ 48 := by omega
  rcases hq with rfl | ⟨ds, hlen, hds, rfl⟩ | rfl | ⟨n, hn, rfl⟩
  · rw [e0]
    simp [ngx_header_inspect_parse_qvalue, rd_cons_zero, rd_cons_succ]
  · rw [e1]
    rcases ds with _ | ⟨d1, _ | ⟨d2, _ | ⟨d3, _ | ⟨d4, ds⟩⟩⟩⟩
    · simp [ngx_header_inspect_parse_qvalue, rd_cons_zero, rd_cons_succ, hy3]
    · have h1 : 48 ≤ d1 ∧ d1 ≤ 57 := hds d1 (by simp)
      have h1' : ¬ (d1 < 48 ∨ 57 < d1) := by omega
      simp [ngx_header_inspect_parse_qvalue, rd_cons_zero, rd_cons_succ, hy3, h1']
    · have h1 : 48 ≤ d1 ∧ d1 ≤ 57 := hds d1 (by simp)
      have h2 : 48 ≤ d2 ∧ d2 ≤ 57 := hds d2 (by simp)
      have h1' : ¬ (d1 < 48 ∨ 57 < d1) := by omega
      have h2' : ¬ (d2 < 48 ∨ 57 < d2) := by omega
      simp [ngx_header_inspect_parse_qvalue, rd_cons_zero, rd_cons_succ, hy3, h1', h2']
    · have h1 : 48 ≤ d1 ∧ d1 ≤ 57 := hds d1 (by simp)
      have h2 : 48 ≤ d2 ∧ d2 ≤ 57 := hds d2 (by simp)
      have h3 : 48 ≤ d3 ∧ d3 ≤ 57 := hds d3 (by simp)
      have h1' : ¬ (d1 < 48 ∨ 57 < d1) := by omega
      have h2' : ¬ (d2 < 48 ∨ 57 < d2) := by omega
      have h3' : ¬ (d3 < 48 ∨ 57 < d3) := by omega
      simp [ngx_header_inspect_parse_qvalue, rd_cons_zero, rd_cons_succ, h1', h2', h3']
    · simp at hlen
  · rw [e2]
    simp [ngx_header_inspect_parse_qvalue, rd_cons_zero, rd_cons_succ]
  · rw [e3]
    rcases n with _ | _ | _ | _ | n
    · simp [ngx_header_inspect_parse_qvalue, rd_cons_zero, rd_cons_succ, hy4]
    · simp [ngx_header_inspect_parse_qvalue, rd_cons_zero, rd_cons_succ, hy4,
        List.replicate]
    · simp [ngx_header_inspect_parse_qvalue, rd_cons_zero, rd_cons_succ, hy4,
        List.replicate]
    · simp [ngx_header_inspect_parse_qvalue, rd_cons_zero, rd_cons_succ, hy4,
        List.replicate]
    · omega

theorem parse_qvalue_window_witness :
    ngx_header_inspect_parse_qvalue (bytes "q=0" ++ []) 3 = (NGX_OK, 3) ∧
    ngx_header_inspect_parse_qvalue (bytes "q=0.5" ++ []) 5 = (NGX_OK, 5) ∧
    ngx_header_inspect_parse_qvalue (bytes "q=1" ++ []) 3 = (NGX_OK, 3) ∧
    ngx_header_inspect_parse_qvalue (bytes "q=1.000" ++ []) 7 = (NGX_OK, 7) :=
  ⟨parse_qvalue_window (bytes "q=0") [] (Or.inl rfl) (by decide),
   parse_qvalue_window (bytes "q=0.5") []
     (Or.inr (Or.inl ⟨bytes "5", by decide, by decide, by decide⟩)) (by decide),
   parse_qvalue_window (bytes "q=1") [] (Or.inr (Or.inr (Or.inl rfl))) (by decide),
   parse_qvalue_window (bytes "q=1.000") []
     (Or.inr (Or.inr (Or.inr ⟨3, by decide, by decide⟩))) (by decide)⟩

/-- C14 fails as stated: `parse_qvalue` on `q=1.001` with `maxlen` 7 returns `NGX_OK`,
not `NGX_ERROR`, and reports the length 6, the offset of the digit `1`. -/
theorem parse_qvalue_one_counterexample :
    ngx_header_inspect_parse_qvalue (bytes "q=1.001") 7 = (NGX_OK, 6) ∧
    (ngx_header_inspect_parse_qvalue (bytes "q=1.001") 7).1 ≠ NGX_ERROR := by
  decide

/-- C14 (as amended): on `q=1.` followed by up to three fractional bytes of which at
least one is not `0`, `parse_qvalue` does not fail: it returns `NGX_OK` and reports the
offset of the first byte that is not `0`, where the match ends early. -/
theorem parse_qvalue_one_early (ds y : List Nat) (maxlen : Nat) (hlen : ds.length ≤ 3)
    (hne : ∃ d ∈ ds, d ≠ 48) (hmax : 4 ≤ maxlen) :
    ngx_header_inspect_parse_qvalue (bytes "q=1." ++ ds ++ y) maxlen =
      (NGX_OK, 4 + (ds.takeWhile (fun d => decide (d = 48))).length) := by
  have e3 : bytes "q=1." = [113, 61, 49, 46] := by decide
  have hm1 : ¬ maxlen < 3 := by omega
  have hm2 : ¬ maxlen = 3 := by omega
  rw [e3]
  obtain ⟨d, hd, hd48⟩ := hne
  rcases ds with _ | ⟨d1, _ | ⟨d2, _ | ⟨d3, _ | ⟨d4, ds⟩⟩⟩⟩
  · simp at hd
  · simp only [List.mem_singleton] at hd
    subst hd
    simp [ngx_header_inspect_parse_qvalue, rd_cons_zero, rd_cons_succ, hm1, hm2, hd48,
      List.takeWhile]
  · by_cases h1 : d1 = 48
    · have h2 : d2 ≠ 48 := by
        simp only [List.mem_cons, List.mem_singleton, List.not_mem_nil, or_false] at hd
        rcases hd with rfl | rfl
        · exact absurd h1 hd48
        · exact hd48
      simp [ngx_header_inspect_parse_qvalue, rd_cons_zero, rd_cons_succ, hm1, hm2, h1, h2,
        List.takeWhile]
    · simp [ngx_header_inspect_parse_qvalue, rd_cons_zero, rd_cons_succ, hm1, hm2, h1,
        List.takeWhile]
  · by_cases h1 : d1 = 48
    · by_cases h2 : d2 = 48
      · have h3 : d3 ≠ 48 := by
          simp only [List.mem_cons, List.mem_singleton, List.not_mem_nil, or_false] at hd
          rcases hd with rfl | rfl | rfl
          · exact absurd h1 hd48
          · exact absurd h2 hd48
          · exact hd48
        simp [ngx_header_inspect_parse_qvalue, rd_cons_zero, rd_cons_succ, hm1, hm2, h1,
          h2, h3, List.takeWhile]
      · simp [ngx_header_inspect_parse_qvalue, rd_cons_zero, rd_cons_succ, hm1, hm2, h1,
          h2, List.takeWhile]
    · simp [ngx_header_inspect_parse_qvalue, rd_cons_zero, rd_cons_succ, hm1, hm2, h1,
        List.takeWhile]
  · simp at hlen

theorem parse_qvalue_one_early_witness :
    ngx_header_inspect_parse_qvalue (bytes "q=1." ++ bytes "001" ++ []) 7 = (NGX_OK, 6) :=
  parse_qvalue_one_early (bytes "001") [] 7 (by decide) ⟨49, by decide, by decide⟩ (by decide)

theorem contentCodingRange_ite (n : Nat) {c : Prop} [Decidable c] {a b : Int × Nat}
    (ha : c → ContentCodingRange n a) (hb : ¬ c → ContentCodingRange n b) :
    ContentCodingRange n (if c then a else b) := by
  by_cases hc : c
  · rw [if_pos hc]; exact ha hc
  · rw [if_neg hc]; exact hb hc

theorem parse_contentcoding_range (x : List Nat) (n : Nat) :
    ContentCodingRange n (ngx_header_inspect_parse_contentcoding x n) := by
  unfold ngx_header_inspect_parse_contentcoding
  repeat' refine contentCodingRange_ite n (fun hpos => ?_) (fun hneg => ?_)
  all_goals unfold ContentCodingRange
  all_goals first
    | exact ⟨Or.inr rfl, fun h => absurd h ngx_error_ne_ok⟩
    | exact ⟨Or.inl rfl, fun _ => ⟨by decide, by omega⟩⟩

/-- A coding at the start of a window that is long enough is matched. -/
theorem parse_contentcoding_literal (c y : List Nat) (n : Nat) (hc : c ∈ content_codings)
    (hn : c.length ≤ n) :
    ngx_header_inspect_parse_contentcoding (c ++ y) n = (NGX_OK, c.length) := by
  rw [content_codings_eq] at hc
  simp only [List.mem_cons, List.mem_singleton, List.not_mem_nil, or_false] at hc
  rcases hc with rfl | rfl | rfl | rfl | rfl | rfl | rfl
  all_goals
    simp only [List.length_cons, List.length_nil, Nat.reduceAdd] at hn
    simp only [ngx_header_inspect_parse_contentcoding, List.cons_append, rd_cons_zero]
    rw [if_neg (by omega)]
    simp
    try exact hn

/-- C15: `parse_content_coding` returns `NGX_OK` exactly when the first `maxlen` bytes of
the window begin with one of the seven codings, it then reports the length of that
coding, and every other window is Malformed. -/
theorem parse_contentcoding_iff (data : List Nat) (maxlen : Nat) :
    ((ngx_header_inspect_parse_contentcoding data maxlen).1 = NGX_OK ↔
      ∃ c z, c ∈ content_codings ∧ data.take maxlen = c ++ z) ∧
    (∀ c z, c ∈ content_codings → data.take maxlen = c ++ z →
      ngx_header_inspect_parse_contentcoding data maxlen = (NGX_OK, c.length)) ∧
    ((¬ ∃ c z, c ∈ content_codings ∧ data.take maxlen = c ++ z) →
      (ngx_header_inspect_parse_contentcoding data maxlen).1 = NGX_ERROR) := by
  have hlit : ∀ c z, c ∈ content_codings → data.take maxlen = c ++ z →
      ngx_header_inspect_parse_contentcoding data maxlen = (NGX_OK, c.length) := by
    intro c z hc hz
    have hlen : c.length ≤ maxlen := by
      have h1 : (data.take maxlen).length ≤ maxlen := by
        rw [List.length_take]
        exact Nat.min_le_left _ _
      rw [hz, List.length_append] at h1
      omega
    have hdata : data = c ++ (z ++ data.drop maxlen) := by
      rw [← List.append_assoc, ← hz, List.take_append_drop]
    rw [hdata]
    exact parse_contentcoding_literal c _ maxlen hc hlen
  have hok : (ngx_header_inspect_parse_contentcoding data maxlen).1 = NGX_OK →
      ∃ c z, c ∈ content_codings ∧ data.take maxlen = c ++ z := by
    intro h
    obtain ⟨c, z, hc, hx, hk⟩ := parse_contentcoding_post data maxlen h
    have hle := ((parse_contentcoding_range data maxlen).2 h).2
    rw [hk] at hle
    refine ⟨c, z.take (maxlen - c.length), hc, ?_⟩
    rw [hx, List.take_append_eq_append_take, List.take_of_length_le hle]
  refine ⟨⟨hok, ?_⟩, hlit, ?_⟩
  · rintro ⟨c, z, hc, hz⟩
    rw [hlit c z hc hz]
  · intro hno
    rcases (parse_contentcoding_range data maxlen).1 with h | h
    · exact absurd (hok h) hno
    · exact h

theorem parse_contentcoding_iff_witness :
    ngx_header_inspect_parse_contentcoding (bytes "gzip;q=1") 8 = (NGX_OK, 4) ∧
    (ngx_header_inspect_parse_contentcoding (bytes "gzi") 3).1 = NGX_ERROR ∧
    (ngx_header_inspect_parse_contentcoding (bytes "gzip") 3).1 = NGX_ERROR ∧
    (ngx_header_inspect_parse_contentcoding (bytes "br") 2).1 = NGX_ERROR :=
  ⟨(parse_contentcoding_iff (bytes "gzip;q=1") 8).2.1 (bytes "gzip") (bytes ";q=1")
      (by decide) (by decide),
   (parse_contentcoding_iff (bytes "gzi") 3).2.2 (by
      rintro ⟨c, z, hc, hz⟩
      rw [content_codings_eq] at hc
      simp only [List.mem_cons, List.mem_singleton, List.not_mem_nil, or_false] at hc
      rcases hc with rfl | rfl | rfl | rfl | rfl | rfl | rfl <;> simp [bytes] at hz),
   by decide, by decide⟩

theorem startsWith_one (a : Nat) (v : List Nat) (ha : a ≠ 0) :
    StartsWith [a] v ↔ rd v 0 = a := by
  constructor
  · rintro ⟨z, rfl⟩
    exact rd_cons_zero a z
  · intro h
    cases v with
    | nil => rw [rd_nil] at h; exact absurd h.symm ha
    | cons b z =>
      rw [rd_cons_zero] at h
      exact ⟨z, by rw [h]; rfl⟩

theorem startsWith_two (a b : Nat) (v : List Nat) (ha : a ≠ 0) (hb : b ≠ 0) :
    StartsWith [a, b] v ↔ rd v 0 = a ∧ rd v 1 = b := by
  constructor
  · rintro ⟨z, rfl⟩
    exact ⟨rfl, rfl⟩
  · rintro ⟨h0, h1⟩
    cases v with
    | nil => rw [rd_nil] at h0; exact absurd h0.symm ha
    | cons x z =>
      cases z with
      | nil =>
        rw [rd_cons_succ, rd_nil] at h1
        exact absurd h1.symm hb
      | cons y z =>
        rw [rd_cons_zero] at h0
        rw [rd_cons_succ, rd_cons_zero] at h1
        exact ⟨z, by rw [h0, h1]; rfl⟩

theorem date_header_eq (v : List Nat) :
    ngx_header_inspect_date_header v = validate_http_date v := by
  unfold ngx_header_inspect_date_header validate_http_date
  rcases http_date_ok_or_error v v.length with h | h
  · rw [h]; rfl
  · rw [h]; rfl

theorem ifrange_header_cases (v : List Nat) :
    ((rd v 0 = 87 ∧ rd v 1 = 47) ∨ rd v 0 = 34 →
      ngx_header_inspect_ifrange_header v = validate_entity_tag v) ∧
    (¬ ((rd v 0 = 87 ∧ rd v 1 = 47) ∨ rd v 0 = 34) →
      ngx_header_inspect_ifrange_header v = validate_http_date v) := by
  unfold ngx_header_inspect_ifrange_header
  constructor
  · intro hc
    rw [if_pos hc]
    unfold validate_entity_tag
    rcases entity_tag_ok_or_error v v.length with h | h
    · rw [h]; rfl
    · rw [h]; rfl
  · intro hc
    rw [if_neg hc, date_header_eq]

/-- C16: the If-Range validator returns the verdict of `validate_entity_tag` on the whole
value when the value starts with `W/` or with `"`, and the verdict of `validate_http_date`
on the whole value otherwise; this holds for every value, those of fewer than two bytes
included. -/
theorem ifrange_header_dispatch (v : List Nat) :
    (StartsWith (bytes "W/") v ∨ StartsWith (bytes "\"") v →
      ngx_header_inspect_ifrange_header v = validate_entity_tag v) ∧
    (¬ (StartsWith (bytes "W/") v ∨ StartsWith (bytes "\"") v) →
      ngx_header_inspect_ifrange_header v = validate_http_date v) := by
  have hW : bytes "W/" = [87, 47] := by decide
  have hq : bytes "\"" = [34] := by decide
  rw [hW, hq, startsWith_two 87 47 v (by decide) (by decide),
    startsWith_one 34 v (by decide)]
  exact ifrange_header_cases v

theorem ifrange_header_dispatch_witness :
    (ngx_header_inspect_ifrange_header (bytes "Wed, 09 Nov 1994 08:49:37 GMT") =
        validate_http_date (bytes "Wed, 09 Nov 1994 08:49:37 GMT") ∧
      validate_http_date (bytes "Wed, 09 Nov 1994 08:49:37 GMT") = NGX_OK ∧
      validate_entity_tag (bytes "Wed, 09 Nov 1994 08:49:37 GMT") = NGX_ERROR) ∧
    (ngx_header_inspect_ifrange_header (bytes "W/\"xyzzy\"") =
        validate_entity_tag (bytes "W/\"xyzzy\"") ∧
      validate_entity_tag (bytes "W/\"xyzzy\"") = NGX_OK) ∧
    (ngx_header_inspect_ifrange_header (bytes "\"xyzzy") =
        validate_entity_tag (bytes "\"xyzzy") ∧
      validate_entity_tag (bytes "\"xyzzy") = NGX_ERROR) :=
  ⟨⟨(ifrange_header_dispatch (bytes "Wed, 09 Nov 1994 08:49:37 GMT")).2 (by
        rintro (⟨z, hz⟩ | ⟨z, hz⟩) <;> simp [bytes] at hz),
      by decide, by decide⟩,
    ⟨(ifrange_header_dispatch (bytes "W/\"xyzzy\"")).1
        (Or.inl ⟨bytes "\"xyzzy\"", by decide⟩), by decide⟩,
    ⟨(ifrange_header_dispatch (bytes "\"xyzzy")).1 (Or.inr ⟨bytes "xyzzy", by decide⟩),
      by decide⟩⟩

theorem ngx_strcmp_zero_iff (lit : List Nat) (hl : ∀ b ∈ lit, b ≠ 0) :
    ∀ key : List Nat, (key.length = lit.length ∧ ngx_strcmp lit key = 0) ↔ key = lit := by
  induction lit with
  | nil =>
    intro key
    constructor
    · rintro ⟨h, _⟩
      exact List.length_eq_zero.mp h
    · rintro rfl
      exact ⟨rfl, rfl⟩
  | cons a s ih =>
    have ha : a ≠ 0 := hl a (List.mem_cons_self a s)
    have hs : ∀ b ∈ s, b ≠ 0 := fun b hb => hl b (List.mem_cons_of_mem a hb)
    intro key
    cases key with
    | nil =>
      constructor
      · rintro ⟨h, _⟩
        simp at h
      · intro h
        cases h
    | cons b k =>
      by_cases hab : a = b
      · subst hab
        have hstep : ngx_strcmp (a :: s) (a :: k) = ngx_strcmp s k := by
          rw [ngx_strcmp, if_neg (by simp), if_neg ha]
        rw [hstep, List.length_cons, List.length_cons, Nat.succ_inj', ih hs k]
        constructor
        · rintro rfl
          rfl
        · intro h
          exact (List.cons.inj h).2
      · constructor
        · rintro ⟨_, h⟩
          rw [ngx_strcmp, if_pos hab] at h
          exfalso
          apply hab
          omega
        · intro h
          exact absurd (List.cons.inj h).1.symm hab

theorem acceptencoding_body_break (data : List Nat) (len i : Nat) (rc : Int)
    (h : acceptencoding_body data len i = Sum.inl rc) : rc = NGX_OK ∨ rc = NGX_ERROR := by
  have hcomma : ∀ k, acceptencoding_comma data len k = Sum.inl rc → rc = NGX_ERROR := by
    intro k hk
    unfold acceptencoding_comma at hk
    split_ifs at hk
    exact (Sum.inl.inj hk).symm
  unfold acceptencoding_body at h
  dsimp only at h
  split_ifs at h
  all_goals first
    | exact Or.inl (Sum.inl.inj h).symm
    | exact Or.inr (Sum.inl.inj h).symm
    | exact Or.inr (hcomma _ h)

theorem acceptencoding_loop_ok_or_error (data : List Nat) (len i : Nat) :
    acceptencoding_loop data len i = NGX_OK ∨ acceptencoding_loop data len i = NGX_ERROR := by
  induction i using acceptencoding_loop.induct data len with
  | case1 i hlt rc hb =>
    rw [acceptencoding_loop_break data len i rc hlt hb]
    exact acceptencoding_body_break data len i rc hb
  | case2 i hlt j hb ih =>
    rw [acceptencoding_loop_next data len i j hlt hb]
    exact ih
  | case3 i hlt => exact Or.inr (acceptencoding_loop_end data len i hlt)

theorem acceptencoding_header_ok_or_error (v : List Nat) :
    ngx_header_inspect_acceptencoding_header v = NGX_OK ∨
      ngx_header_inspect_acceptencoding_header v = NGX_ERROR := by
  unfold ngx_header_inspect_acceptencoding_header
  split_ifs
  · exact Or.inl rfl
  · exact acceptencoding_loop_ok_or_error v v.length 0

theorem ifrange_header_ok_or_error (v : List Nat) :
    ngx_header_inspect_ifrange_header v = NGX_OK ∨
      ngx_header_inspect_ifrange_header v = NGX_ERROR := by
  by_cases hc : (rd v 0 = 87 ∧ rd v 1 = 47) ∨ rd v 0 = 34
  · rw [(ifrange_header_cases v).1 hc]
    exact entity_tag_ok_or_error v v.length
  · rw [(ifrange_header_cases v).2 hc]
    exact http_date_ok_or_error v v.length

theorem not_ok_iff_error (rc : Int) (h : rc = NGX_OK ∨ rc = NGX_ERROR) :
    rc ≠ NGX_OK ↔ rc = NGX_ERROR := by
  rcases h with h | h
  · rw [h]
    exact ⟨fun hne => absurd rfl hne, fun he => absurd he.symm ngx_error_ne_ok⟩
  · rw [h]
    exact ⟨fun _ => rfl, fun _ => ngx_error_ne_ok⟩

/-- The chain of name tests selects the validator the specification names, and no
validator for any other name. -/
theorem process_request_header_malformed (conf : ngx_header_inspect_loc_conf_t)
    (h : ngx_table_elt_t) :
    (∃ rc, process_request_header conf h = some rc ∧ rc ≠ NGX_OK) ↔ MalformedHeader conf h := by
  have k1 := ngx_strcmp_zero_iff (bytes "Range") (by decide) h.key
  have k2 := ngx_strcmp_zero_iff (bytes "If-Range") (by decide) h.key
  have k3 := ngx_strcmp_zero_iff (bytes "If-Unmodified-Since") (by decide) h.key
  have k4 := ngx_strcmp_zero_iff (bytes "If-Modified-Since") (by decide) h.key
  have k5 := ngx_strcmp_zero_iff (bytes "Date") (by decide) h.key
  have k6 := ngx_strcmp_zero_iff (bytes "Accept-Encoding") (by decide) h.key
  have l1 : (bytes "Range").length = 5 := by decide
  have l2 : (bytes "If-Range").length = 8 := by decide
  have l3 : (bytes "If-Unmodified-Since").length = 19 := by decide
  have l4 : (bytes "If-Modified-Since").length = 17 := by decide
  have l5 : (bytes "Date").length = 4 := by decide
  have l6 : (bytes "Accept-Encoding").length = 15 := by decide
  rw [l1] at k1
  rw [l2] at k2
  rw [l3] at k3
  rw [l4] at k4
  rw [l5] at k5
  rw [l6] at k6
  unfold process_request_header MalformedHeader
  simp only [k1, k2, k3, k4, k5, k6, validate_range, validate_accept_encoding,
    ← date_header_eq]
  have e1 := not_ok_iff_error _ (range_header_ok_or_error conf.range_max_bytesets h.value)
  have e2 := not_ok_iff_error _ (ifrange_header_ok_or_error h.value)
  have e3 := not_ok_iff_error _ (http_date_ok_or_error h.value h.value.length)
  have e4 := not_ok_iff_error _ (acceptencoding_header_ok_or_error h.value)
  rw [← validate_http_date, ← date_header_eq] at e3
  by_cases c1 : h.key = bytes "Range"
  · rw [if_pos c1]
    simp [c1, e1, bytes]
  · rw [if_neg c1]
    by_cases c2 : h.key = bytes "If-Range"
    · rw [if_pos c2]
      simp [c2, e2, bytes]
    · rw [if_neg c2]
      by_cases c3 : h.key = bytes "If-Unmodified-Since"
      · rw [if_pos c3]
        simp [c3, e3, bytes]
      · rw [if_neg c3]
        by_cases c4 : h.key = bytes "If-Modified-Since"
        · rw [if_pos c4]
          simp [c4, e3, bytes]
        · rw [if_neg c4]
          by_cases c5 : h.key = bytes "Date"
          · rw [if_pos c5]
            simp [c5, e3, bytes]
          · rw [if_neg c5]
            by_cases c6 : h.key = bytes "Accept-Encoding"
            · rw [if_pos c6]
              simp [c6, e4, bytes]
            · rw [if_neg c6]
              simp [c1, c2, c3, c4, c5, c6]

/-- The `for` loop returns `NGX_HTTP_BAD_REQUEST` when the block flag is set and an
element of the part is Malformed, and runs to its end otherwise. -/
theorem process_request_part_eq (conf : ngx_header_inspect_loc_conf_t) :
    ∀ hs : List ngx_table_elt_t,
      (conf.block ≠ 0 ∧ (∃ h ∈ hs, MalformedHeader conf h) →
        process_request_part conf hs = some NGX_HTTP_BAD_REQUEST) ∧
      (¬ (conf.block ≠ 0 ∧ ∃ h ∈ hs, MalformedHeader conf h) →
        process_request_part conf hs = none) := by
  intro hs
  induction hs with
  | nil =>
    constructor
    · rintro ⟨_, h, hm, _⟩
      cases hm
    · intro _
      rfl
  | cons h hs ih =>
    have hm := process_request_header_malformed conf h
    by_cases hb : conf.block ≠ 0
    · by_cases hbad : MalformedHeader conf h
      · obtain ⟨rc, hrc, hne⟩ := hm.mpr hbad
        have hret : process_request_part conf (h :: hs) = some NGX_HTTP_BAD_REQUEST := by
          rw [process_request_part, hrc]
          exact if_pos ⟨hne, hb⟩
        exact ⟨fun _ => hret, fun hno => absurd ⟨hb, h, List.mem_cons_self h hs, hbad⟩ hno⟩
      · have hstep : process_request_part conf (h :: hs) = process_request_part conf hs := by
          rw [process_request_part]
          rcases hrc : process_request_header conf h with _ | rc
          · rfl
          · have hok : ¬ (rc ≠ NGX_OK ∧ conf.block ≠ 0) :=
              fun hc => hbad (hm.mp ⟨rc, hrc, hc.1⟩)
            exact if_neg hok
        rw [hstep]
        constructor
        · rintro ⟨_, x, hx, hxm⟩
          rcases List.mem_cons.mp hx with rfl | hx
          · exact absurd hxm hbad
          · exact ih.1 ⟨hb, x, hx, hxm⟩
        · intro hno
          exact ih.2 (fun hc => hno ⟨hb, hc.2.choose, List.mem_cons_of_mem h hc.2.choose_spec.1,
            hc.2.choose_spec.2⟩)
    · have hstep : process_request_part conf (h :: hs) = process_request_part conf hs := by
        rw [process_request_part]
        rcases hrc : process_request_header conf h with _ | rc
        · rfl
        · exact if_neg (fun hc => hb hc.2)
      rw [hstep]
      exact ⟨fun hc => absurd hc.1 hb, fun _ => ih.2 (fun hc => hb hc.1)⟩

theorem process_request_parts_eq (conf : ngx_header_inspect_loc_conf_t) :
    ∀ (ps : List (List ngx_table_elt_t)) (p : List ngx_table_elt_t),
      (conf.block ≠ 0 ∧ (∃ h ∈ p ++ ps.flatten, MalformedHeader conf h) →
        process_request_parts conf p ps = some NGX_HTTP_BAD_REQUEST) ∧
      (¬ (conf.block ≠ 0 ∧ ∃ h ∈ p ++ ps.flatten, MalformedHeader conf h) →
        process_request_parts conf p ps = none) := by
  intro ps
  induction ps with
  | nil =>
    intro p
    rw [List.flatten_nil, List.append_nil]
    exact process_request_part_eq conf p
  | cons q ps ih =>
    intro p
    have hp := process_request_part_eq conf p
    by_cases hfirst : conf.block ≠ 0 ∧ ∃ h ∈ p, MalformedHeader conf h
    · have hret : process_request_parts conf p (q :: ps) = some NGX_HTTP_BAD_REQUEST := by
        rw [process_request_parts, hp.1 hfirst]
      obtain ⟨hb, x, hx, hxm⟩ := hfirst
      exact ⟨fun _ => hret,
        fun hno => absurd ⟨hb, x, List.mem_append_left _ hx, hxm⟩ hno⟩
    · have hstep : process_request_parts conf p (q :: ps) = process_request_parts conf q ps := by
        rw [process_request_parts, hp.2 hfirst]
      rw [hstep, List.flatten_cons]
      constructor
      · rintro ⟨hb, x, hx, hxm⟩
        rcases List.mem_append.mp hx with hx | hx
        · exact absurd ⟨hb, x, hx, hxm⟩ hfirst
        · exact (ih q).1 ⟨hb, x, hx, hxm⟩
      · intro hno
        refine (ih q).2 ?_
        rintro ⟨hb, x, hx, hxm⟩
        exact hno ⟨hb, x, List.mem_append_right _ hx, hxm⟩

theorem bad_request_ne_declined : NGX_HTTP_BAD_REQUEST ≠ NGX_DECLINED := by decide

theorem process_request_cases (conf : ngx_header_inspect_loc_conf_t) (headers : ngx_list_t) :
    (conf.inspect ≠ 0 ∧ conf.block ≠ 0 ∧
        (∃ h ∈ request_headers headers, MalformedHeader conf h) →
      ngx_header_inspect_process_request conf headers = NGX_HTTP_BAD_REQUEST) ∧
    (¬ (conf.inspect ≠ 0 ∧ conf.block ≠ 0 ∧
        ∃ h ∈ request_headers headers, MalformedHeader conf h) →
      ngx_header_inspect_process_request conf headers = NGX_DECLINED) := by
  have hparts := process_request_parts_eq conf headers.next headers.part
  constructor
  · rintro ⟨hi, hrest⟩
    unfold ngx_header_inspect_process_request
    rw [if_pos hi, hparts.1 hrest]
  · intro hc
    unfold ngx_header_inspect_process_request
    by_cases hi : conf.inspect ≠ 0
    · rw [if_pos hi, hparts.2 (fun hrest => hc ⟨hi, hrest⟩)]
    · rw [if_neg hi]

/-- C17: the handler rejects the request with `NGX_HTTP_BAD_REQUEST` exactly when
inspection is enabled, the block flag is set and some header with one of the six
inspected names (byte for byte) has a value its validator judges Malformed; in every
other case it returns `NGX_DECLINED`; the log flags do not enter the result. -/
theorem process_request_blocks (conf : ngx_header_inspect_loc_conf_t) (headers : ngx_list_t) :
    (ngx_header_inspect_process_request conf headers = NGX_HTTP_BAD_REQUEST ↔
      conf.inspect ≠ 0 ∧ conf.block ≠ 0 ∧
        ∃ h ∈ request_headers headers, MalformedHeader conf h) ∧
    (¬ (conf.inspect ≠ 0 ∧ conf.block ≠ 0 ∧
        ∃ h ∈ request_headers headers, MalformedHeader conf h) →
      ngx_header_inspect_process_request conf headers = NGX_DECLINED) ∧
    (∀ l u : Int, ngx_header_inspect_process_request
        { inspect := conf.inspect, log := l, log_uninspected := u, block := conf.block,
          range_max_bytesets := conf.range_max_bytesets } headers =
      ngx_header_inspect_process_request conf headers) := by
  have hconf := process_request_cases conf headers
  have hframe : ∀ l u : Int, ngx_header_inspect_process_request
      { inspect := conf.inspect, log := l, log_uninspected := u, block := conf.block,
        range_max_bytesets := conf.range_max_bytesets } headers =
      ngx_header_inspect_process_request conf headers := by
    intro l u
    have hother := process_request_cases
      { inspect := conf.inspect, log := l, log_uninspected := u, block := conf.block,
        range_max_bytesets := conf.range_max_bytesets } headers
    by_cases hc : conf.inspect ≠ 0 ∧ conf.block ≠ 0 ∧
        ∃ h ∈ request_headers headers, MalformedHeader conf h
    · rw [hconf.1 hc]
      exact hother.1 hc
    · rw [hconf.2 hc]
      exact hother.2 hc
  refine ⟨⟨fun h => ?_, hconf.1⟩, hconf.2, hframe⟩
  by_contra hc
  rw [hconf.2 hc] at h
  exact bad_request_ne_declined h.symm

theorem process_request_blocks_witness :
    ngx_header_inspect_process_request
      { inspect := 1, log := 0, log_uninspected := 0, block := 1, range_max_bytesets := 5 }
      { part := [{ key := bytes "Host", value := bytes "example.org" }],
        next := [[{ key := bytes "Range", value := bytes "bytes=5-1" }]] }
      = NGX_HTTP_BAD_REQUEST ∧
    ngx_header_inspect_process_request
      { inspect := 1, log := 1, log_uninspected := 0, block := 0, range_max_bytesets := 5 }
      { part := [{ key := bytes "Range", value := bytes "bytes=5-1" }], next := [] }
      = NGX_DECLINED ∧
    ngx_header_inspect_process_request
      { inspect := 1, log := 1, log_uninspected := 0, block := 1, range_max_bytesets := 5 }
      { part := [{ key := bytes "range", value := bytes "bytes=5-1" }], next := [] }
      = NGX_DECLINED :=
  ⟨(process_request_blocks _ _).1.mpr ⟨by decide, by decide,
      { key := bytes "Range", value := bytes "bytes=5-1" }, by simp [request_headers],
      Or.inl ⟨rfl, by decide⟩⟩,
    (process_request_blocks _ _).2.1 (fun h => h.2.1 rfl),
    (process_request_blocks _ _).2.1 (by
      rintro ⟨_, _, h, hm, hbad⟩
      simp only [request_headers, List.flatten_nil, List.append_nil,
        List.mem_singleton] at hm
      subst hm
      unfold MalformedHeader at hbad
      simp [bytes] at hbad)⟩

/-- C18: with the violation-logging flag off the Accept-Encoding validator still writes a
log record for the Malformed value `gzip;q=2`, while the date and If-Range validators
write none for the same flag. -/
theorem acceptencoding_header_records_unguarded :
    acceptencoding_header_records
      { inspect := 1, log := 0, log_uninspected := 0, block := 0, range_max_bytesets := 5 }
      (bytes "gzip;q=2") = 1 ∧
    date_header_records
      { inspect := 1, log := 0, log_uninspected := 0, block := 0, range_max_bytesets := 5 }
      (bytes "gzip;q=2") = 0 ∧
    ifrange_header_records
      { inspect := 1, log := 0, log_uninspected := 0, block := 0, range_max_bytesets := 5 }
      (bytes "\"gzip;q=2") = 0 := by
  have hbad : ngx_header_inspect_acceptencoding_header (bytes "gzip;q=2") = NGX_ERROR := by
    unfold ngx_header_inspect_acceptencoding_header
    rw [if_neg (by decide)]
    exact acceptencoding_loop_break _ _ _ _ (by decide) (by decide)
  refine ⟨?_, by decide, by decide⟩
  unfold acceptencoding_header_records
  rw [if_pos hbad]

theorem merge_off_value_cases (conf prev default : Int) :
    (conf ≠ NGX_CONF_UNSET → ngx_conf_merge_off_value conf prev default = conf) ∧
    (conf = NGX_CONF_UNSET → prev ≠ NGX_CONF_UNSET →
      ngx_conf_merge_off_value conf prev default = prev) := by
  unfold ngx_conf_merge_off_value
  exact ⟨fun h => if_neg h, fun h hp => by rw [if_pos h, if_neg hp]⟩

theorem merge_uint_value_cases (conf prev default : Nat) :
    (conf ≠ NGX_CONF_UNSET_UINT → ngx_conf_merge_uint_value conf prev default = conf) ∧
    (conf = NGX_CONF_UNSET_UINT → prev ≠ NGX_CONF_UNSET_UINT →
      ngx_conf_merge_uint_value conf prev default = prev) := by
  unfold ngx_conf_merge_uint_value
  exact ⟨fun h => if_neg h, fun h hp => by rw [if_pos h, if_neg hp]⟩

/-- C19: merging two configurations that `ngx_header_inspect_create_conf` left unset
gives inspection 0, violation logging 1, block 0, uninspected logging 0 and
`range_max_bytesets` 5; and for each field a value set in the location is kept, and a
value set only in the parent is inherited. -/
theorem merge_conf_defaults (prev conf : ngx_header_inspect_loc_conf_t) :
    ngx_header_inspect_merge_conf ngx_header_inspect_create_conf
        ngx_header_inspect_create_conf =
      { inspect := 0, log := 1, log_uninspected := 0, block := 0, range_max_bytesets := 5 } ∧
    ((conf.inspect ≠ NGX_CONF_UNSET →
        (ngx_header_inspect_merge_conf prev conf).inspect = conf.inspect) ∧
      (conf.log ≠ NGX_CONF_UNSET →
        (ngx_header_inspect_merge_conf prev conf).log = conf.log) ∧
      (conf.block ≠ NGX_CONF_UNSET →
        (ngx_header_inspect_merge_conf prev conf).block = conf.block) ∧
      (conf.log_uninspected ≠ NGX_CONF_UNSET →
        (ngx_header_inspect_merge_conf prev conf).log_uninspected = conf.log_uninspected) ∧
      (conf.range_max_bytesets ≠ NGX_CONF_UNSET_UINT →
        (ngx_header_inspect_merge_conf prev conf).range_max_bytesets =
          conf.range_max_bytesets)) ∧
    ((conf.inspect = NGX_CONF_UNSET → prev.inspect ≠ NGX_CONF_UNSET →
        (ngx_header_inspect_merge_conf prev conf).inspect = prev.inspect) ∧
      (conf.log = NGX_CONF_UNSET → prev.log ≠ NGX_CONF_UNSET →
        (ngx_header_inspect_merge_conf prev conf).log = prev.log) ∧
      (conf.block = NGX_CONF_UNSET → prev.block ≠ NGX_CONF_UNSET →
        (ngx_header_inspect_merge_conf prev conf).block = prev.block) ∧
      (conf.log_uninspected = NGX_CONF_UNSET → prev.log_uninspected ≠ NGX_CONF_UNSET →
        (ngx_header_inspect_merge_conf prev conf).log_uninspected = prev.log_uninspected) ∧
      (conf.range_max_bytesets = NGX_CONF_UNSET_UINT →
        prev.range_max_bytesets ≠ NGX_CONF_UNSET_UINT →
        (ngx_header_inspect_merge_conf prev conf).range_max_bytesets =
          prev.range_max_bytesets)) := by
  refine ⟨rfl, ⟨?_, ?_, ?_, ?_, ?_⟩, ⟨?_, ?_, ?_, ?_, ?_⟩⟩
  · exact (merge_off_value_cases _ _ _).1
  · exact (merge_off_value_cases _ _ _).1
  · exact (merge_off_value_cases _ _ _).1
  · exact (merge_off_value_cases _ _ _).1
  · exact (merge_uint_value_cases _ _ _).1
  · exact (merge_off_value_cases _ _ _).2
  · exact (merge_off_value_cases _ _ _).2
  · exact (merge_off_value_cases _ _ _).2
  · exact (merge_off_value_cases _ _ _).2
  · exact (merge_uint_value_cases _ _ _).2

theorem merge_conf_defaults_witness :
    ngx_header_inspect_merge_conf
        { inspect := 1, log := NGX_CONF_UNSET, log_uninspected := NGX_CONF_UNSET,
          block := 1, range_max_bytesets := 3 }
        { inspect := NGX_CONF_UNSET, log := 0, log_uninspected := NGX_CONF_UNSET,
          block := 0, range_max_bytesets := NGX_CONF_UNSET_UINT } =
      { inspect := 1, log := 0, log_uninspected := 0, block := 0, range_max_bytesets := 3 } ∧
    (ngx_header_inspect_merge_conf
        { inspect := 1, log := NGX_CONF_UNSET, log_uninspected := NGX_CONF_UNSET,
          block := 1, range_max_bytesets := 3 }
        { inspect := NGX_CONF_UNSET, log := 0, log_uninspected := NGX_CONF_UNSET,
          block := 0, range_max_bytesets := NGX_CONF_UNSET_UINT }).block = 0 ∧
    (ngx_header_inspect_merge_conf
        { inspect := 1, log := NGX_CONF_UNSET, log_uninspected := NGX_CONF_UNSET,
          block := 1, range_max_bytesets := 3 }
        { inspect := NGX_CONF_UNSET, log := 0, log_uninspected := NGX_CONF_UNSET,
          block := 0, range_max_bytesets := NGX_CONF_UNSET_UINT }).inspect = 1 :=
  ⟨rfl,
    (merge_conf_defaults _ _).2.1.2.2.1 (by decide),
    (merge_conf_defaults _ _).2.2.1 (by decide) (by decide)⟩

/-- C21: `validate_http_date` never accepts an ASCTIME value.  The check of lines 545-555
fails at every cursor, so a value whose fourth byte is a space is Malformed; an accepted
value has `,` as fourth byte and 29 bytes, or the weekday continuation letter `d` (of
`Monday`, `Friday`, `Sunday`) as fourth byte and 30 bytes, and never 24 bytes. -/
theorem validate_http_date_never_asctime (v : List Nat) :
    (∀ i, http_date_year v ASCTIME i = none) ∧
    (rd v 3 = 32 → validate_http_date v = NGX_ERROR) ∧
    (validate_http_date v = NGX_OK →
      ((rd v 3 = 44 ∧ v.length = 29) ∨ (rd v 3 = 100 ∧ v.length = 30)) ∧ v.length ≠ 24) := by
  have hok : validate_http_date v = NGX_OK →
      (rd v 3 = 44 ∧ v.length = 29) ∨ (rd v 3 = 100 ∧ v.length = 30) := by
    intro h
    rcases http_date_ok_cases v v.length h with ⟨hl, h3⟩ | ⟨hl, h3, _⟩
    · exact Or.inl ⟨h3, hl⟩
    · exact Or.inr ⟨h3, hl⟩
  refine ⟨http_date_year_asctime v, ?_, ?_⟩
  · intro h32
    rcases http_date_ok_or_error v v.length with h | h
    · exfalso
      rcases hok h with ⟨h3, _⟩ | ⟨h3, _⟩ <;> omega
    · exact h
  · intro h
    refine ⟨hok h, ?_⟩
    rcases hok h with ⟨_, hl⟩ | ⟨_, hl⟩ <;> omega

theorem validate_http_date_never_asctime_witness :
    (rd (bytes "Sun Nov  6 08:49:37 1994") 3 = 32 ∧
      validate_http_date (bytes "Sun Nov  6 08:49:37 1994") = NGX_ERROR) ∧
    (validate_http_date (bytes "Sunday, 06-Nov-94 08:49:37 GMT") = NGX_OK ∧
      ((rd (bytes "Sunday, 06-Nov-94 08:49:37 GMT") 3 = 44 ∧
          (bytes "Sunday, 06-Nov-94 08:49:37 GMT").length = 29) ∨
        (rd (bytes "Sunday, 06-Nov-94 08:49:37 GMT") 3 = 100 ∧
          (bytes "Sunday, 06-Nov-94 08:49:37 GMT").length = 30)) ∧
      (bytes "Sunday, 06-Nov-94 08:49:37 GMT").length ≠ 24) :=
  ⟨⟨by decide,
      (validate_http_date_never_asctime (bytes "Sun Nov  6 08:49:37 1994")).2.1 (by decide)⟩,
    ⟨by decide,
      (validate_http_date_never_asctime (bytes "Sunday, 06-Nov-94 08:49:37 GMT")).2.2
        (by decide)⟩⟩

/-- C22 (defect of the code): with `maxlen` the length of the buffer, the run on a 30 byte
value that begins `Tuesday,`, `Wednesday,`, `Thursday,` or `Saturday,` reads `data[30]`,
the byte behind the buffer: the length 30 that lines 448-452 ask of every RFC850 value
leaves room for a six-letter weekday only.  Runs on the other formats stay inside. -/
theorem validate_http_date_checked_overread :
    validate_http_date_checked (bytes "Tuesday, 08-Nov-94 08:49:37 GM") = Except.error 30 ∧
    validate_http_date_checked (bytes "Wednesday, 09-Nov-94 08:49:37 ") = Except.error 30 ∧
    validate_http_date_checked (bytes "Thursday, 10-Nov-94 08:49:37 G") = Except.error 30 ∧
    validate_http_date_checked (bytes "Saturday, 12-Nov-94 08:49:37 G") = Except.error 30 ∧
    (bytes "Tuesday, 08-Nov-94 08:49:37 GM").length = 30 ∧
    validate_http_date_checked (bytes "Sunday, 06-Nov-94 08:49:37 GMT") = Except.ok NGX_OK ∧
    validate_http_date_checked (bytes "Sun, 06 Nov 1994 08:49:37 GMT") = Except.ok NGX_OK ∧
    validate_http_date_checked (bytes "Sun Nov  6 08:49:37 1994") = Except.ok NGX_ERROR :=
  ⟨rfl, rfl, rfl, rfl, rfl, rfl, rfl, rfl⟩

theorem rd_drop (data : List Nat) (i k : Nat) : rd (data.drop i) k = rd data (i + k) := by
  simp [rd, List.getD_eq_getElem?_getD, List.getElem?_drop]

theorem rd_length (data : List Nat) (k : Nat) (h : data.length ≤ k) : rd data k = 0 := by
  simp [rd, List.getD_eq_getElem?_getD, List.getElem?_eq_none h]

/-- The length `parse_qvalue` reports is at most 7. -/
theorem parse_qvalue_le_seven (data : List Nat) (maxlen : Nat) :
    (ngx_header_inspect_parse_qvalue data maxlen).2 ≤ 7 := by
  unfold ngx_header_inspect_parse_qvalue
  split_ifs <;> simp

/-- A successful `parse_qvalue` stays inside its window when the byte at offset `maxlen`
is not a digit. -/
theorem parse_qvalue_le (data : List Nat) (maxlen : Nat) (hy : ¬ isDigit (rd data maxlen))
    (h : (ngx_header_inspect_parse_qvalue data maxlen).1 = NGX_OK) :
    (ngx_header_inspect_parse_qvalue data maxlen).2 ≤ maxlen := by
  by_cases h7 : 7 ≤ maxlen
  · exact le_trans (parse_qvalue_le_seven data maxlen) h7
  · have h3 : 3 ≤ maxlen := by
      by_contra hlt
      unfold ngx_header_inspect_parse_qvalue at h
      rw [if_pos (Or.inl (by omega))] at h
      exact ngx_error_ne_ok h
    have n4 : rd data 4 < 48 ∨ rd data 4 > 57 ∨ maxlen ≠ 4 := by
      by_cases he : maxlen = 4
      · subst he
        unfold isDigit at hy
        omega
      · exact Or.inr (Or.inr he)
    have n5 : rd data 5 < 48 ∨ rd data 5 > 57 ∨ maxlen ≠ 5 := by
      by_cases he : maxlen = 5
      · subst he
        unfold isDigit at hy
        omega
      · exact Or.inr (Or.inr he)
    have n6 : rd data 6 < 48 ∨ rd data 6 > 57 ∨ maxlen ≠ 6 := by
      by_cases he : maxlen = 6
      · subst he
        unfold isDigit at hy
        omega
      · exact Or.inr (Or.inr he)
    clear hy h
    unfold ngx_header_inspect_parse_qvalue
    split_ifs
    all_goals
      simp only
      omega

/-- C23 fails as stated: with `maxlen` 4 on the 7 byte buffer `q=0.123` the length
`parse_qvalue` reports is 7. -/
theorem parse_qvalue_window_counterexample :
    4 ≤ (bytes "q=0.123").length ∧
    (ngx_header_inspect_parse_qvalue (bytes "q=0.123") 4).1 = NGX_OK ∧
    ¬ (ngx_header_inspect_parse_qvalue (bytes "q=0.123") 4).2 ≤ 4 := by
  decide

theorem skip_space_le (data : List Nat) (len k : Nat) (h : k ≤ len) :
    acceptencoding_skip_space data len k ≤ len := by
  unfold acceptencoding_skip_space
  split_ifs <;> omega

theorem acceptencoding_comma_le (data : List Nat) (k j : Nat)
    (h : acceptencoding_comma data data.length k = Sum.inr j) : j ≤ data.length := by
  unfold acceptencoding_comma at h
  split_ifs at h with hc
  have hk : k < data.length := by
    by_contra hge
    rw [rd_length data k (by omega)] at hc
    exact hc (by decide)
  rw [← Sum.inr.inj h]
  exact skip_space_le data data.length (k + 1) hk

/-- A turn of the Accept-Encoding loop that starts inside the value leaves the cursor
inside the value. -/
theorem acceptencoding_body_le (data : List Nat) (i j : Nat) (hi : i ≤ data.length)
    (h : acceptencoding_body data data.length i = Sum.inr j) : j ≤ data.length := by
  unfold acceptencoding_body at h
  split_ifs at h with hc
  dsimp only at h
  have hcr := (parse_contentcoding_range (data.drop i) (data.length - i)).2
    (not_not.mp hc)
  generalize (ngx_header_inspect_parse_contentcoding (List.drop i data)
    (data.length - i)).2 = v at h hcr
  have h1 := skip_space_le data data.length (i + v) (by omega)
  generalize acceptencoding_skip_space data data.length (i + v) = i2 at h h1
  split_ifs at h with he hs h3 hq he6
  · have h4 := skip_space_le data data.length (i2 + 1) (by omega)
    generalize acceptencoding_skip_space data data.length (i2 + 1) = i4 at h h4 hq
    have hnul : ¬ isDigit (rd (data.drop i4) (data.length - i4)) := by
      rw [rd_drop, rd_length data _ (by omega)]
      decide
    have hw := parse_qvalue_le (data.drop i4) (data.length - i4) hnul (not_not.mp hq)
    generalize (ngx_header_inspect_parse_qvalue (List.drop i4 data)
      (data.length - i4)).2 = w at h hw
    exact acceptencoding_comma_le data _ j h
  · exact acceptencoding_comma_le data _ j h

/-- A turn of the Accept-Encoding loop that does not `break` moves the cursor forward. -/
theorem acceptencoding_body_lt (data : List Nat) (len i j : Nat)
    (h : acceptencoding_body data len i = Sum.inr j) : i < j := by
  have hskip : ∀ k, k ≤ acceptencoding_skip_space data len k := by
    intro k
    unfold acceptencoding_skip_space
    split_ifs <;> omega
  have hcomma : ∀ k, acceptencoding_comma data len k = Sum.inr j → k < j := by
    intro k hk
    unfold acceptencoding_comma at hk
    split_ifs at hk
    have := hskip (k + 1)
    rw [← Sum.inr.inj hk]
    omega
  unfold acceptencoding_body at h
  split_ifs at h with hc
  dsimp only at h
  have hcr := (parse_contentcoding_range (data.drop i) (len - i)).2 (not_not.mp hc)
  generalize (ngx_header_inspect_parse_contentcoding (List.drop i data) (len - i)).2 = v
    at h hcr
  have h1 := hskip (i + v)
  generalize acceptencoding_skip_space data len (i + v) = i2 at h h1
  split_ifs at h
  · have h2 := hskip (i2 + 1)
    generalize acceptencoding_skip_space data len (i2 + 1) = i4 at h h2
    generalize (ngx_header_inspect_parse_qvalue (List.drop i4 data) (len - i4)).2 = w at h
    have h3 := hskip (i4 + w)
    have h4 := hcomma _ h
    omega
  · have h4 := hcomma _ h
    omega

/-- C23 (as amended): a successful `parse_qvalue` reports a length of at most `maxlen`
when the byte at offset `maxlen` is not a digit, as the NUL behind a buffer of `maxlen`
bytes; a successful `parse_content_coding` reports a length between 1 and `maxlen` for
every `maxlen`; and a turn of the Accept-Encoding loop never moves the cursor past the
end of the value. -/
theorem parse_lengths_in_window (data : List Nat) (maxlen : Nat) :
    (¬ isDigit (rd data maxlen) →
      (ngx_header_inspect_parse_qvalue data maxlen).1 = NGX_OK →
      (ngx_header_inspect_parse_qvalue data maxlen).2 ≤ maxlen) ∧
    (maxlen = data.length →
      (ngx_header_inspect_parse_qvalue data maxlen).1 = NGX_OK →
      (ngx_header_inspect_parse_qvalue data maxlen).2 ≤ maxlen) ∧
    ((ngx_header_inspect_parse_contentcoding data maxlen).1 = NGX_OK →
      1 ≤ (ngx_header_inspect_parse_contentcoding data maxlen).2 ∧
      (ngx_header_inspect_parse_contentcoding data maxlen).2 ≤ maxlen) ∧
    (∀ i j, i ≤ data.length → acceptencoding_body data data.length i = Sum.inr j →
      i < j ∧ j ≤ data.length) := by
  refine ⟨parse_qvalue_le data maxlen, ?_, (parse_contentcoding_range data maxlen).2, ?_⟩
  · intro hlen
    refine parse_qvalue_le data maxlen ?_
    rw [rd_length data maxlen (by omega)]
    decide
  · intro i j hi h
    exact ⟨acceptencoding_body_lt data data.length i j h,
      acceptencoding_body_le data i j hi h⟩

theorem parse_lengths_in_window_witness :
    (ngx_header_inspect_parse_qvalue (bytes "q=0.123") 7).2 ≤ 7 ∧
    (1 ≤ (ngx_header_inspect_parse_contentcoding (bytes "gzip;q=0.123") 12).2 ∧
      (ngx_header_inspect_parse_contentcoding (bytes "gzip;q=0.123") 12).2 ≤ 12) ∧
    (ngx_header_inspect_parse_qvalue (bytes "q=0.1,gzip") 5).2 ≤ 5 :=
  ⟨(parse_lengths_in_window (bytes "q=0.123") 7).2.1 (by decide) (by decide),
    (parse_lengths_in_window (bytes "gzip;q=0.123") 12).2.2.1 (by decide),
    (parse_lengths_in_window (bytes "q=0.1,gzip") 5).1 (by decide) (by decide)⟩

end HeaderInspect
